import Mathlib

/-!
KL10 front end (DTE20) protocol engine: `PDP10/kl10_fe.c`.

A shallow embedding of the primary (queued) protocol engine of the DTE20
front end emulation: the packet ring queues, the transmit path
(`dte_transfer`), the enqueue helper (`dte_queue`), the register interface
(`dte_devio`) and the receive path (`dte_primary`).

Conventions of the embedding.

* Machine integers are natural numbers; a store into a `uint16` object
  truncates with `% 65536`, and arithmetic on a `uint16` variable wraps.
* C arrays are total functions on `Nat`.  The packet queues `dte_in` and
  `dte_out` are only ever indexed by a cursor masked with `0x1f`.  The data
  area of a slot is `data[256]`; an index of 256 or more stands for storage
  outside the array.
* `x &= ~m` is `clearBits x m`.
* The mailbox accessors (`Mem_examine_word`, `Mem_deposit_word`,
  `Mem_read_byte`, `Mem_write_byte`), the interrupt line and the event
  scheduler are external collaborators.  They are carried in the state as
  oracles together with a log of what the engine did with them.
-/

namespace KL10FE

/-! ## Constants of `kl10_fe.c` -/

/-- Restricted mode. -/
def DTE_RM : Nat := 0o100000
/-- Dead-11. -/
def DTE_D11 : Nat := 0o40000
/-- TO11 door bell request. -/
def DTE_11DB : Nat := 0o20000
/-- TO10 door bell request. -/
def DTE_10DB : Nat := 0o1000
/-- Error during TO11 transfer. -/
def DTE_11ER : Nat := 0o400
/-- TO11 transfer done. -/
def DTE_11DN : Nat := 0o100
/-- TO10 transfer done. -/
def DTE_10DN : Nat := 0o40
/-- Error during TO10 transfer. -/
def DTE_10ER : Nat := 0o20
/-- DTE PI enabled. -/
def DTE_PIE : Nat := 0o10
/-- PI channel assignment. -/
def DTE_PIA : Nat := 0o7
/-- Reload 11 (internal flag). -/
def DTE_11RELD : Nat := 0o1000000
/-- Transfer to 11 (internal flag). -/
def DTE_TO11 : Nat := 0o2000000
/-- In secondary protocol (internal flag). -/
def DTE_SEC : Nat := 0o4000000
/-- Next transfer will be indirect (internal flag). -/
def DTE_IND : Nat := 0o10000000
/-- Send indirect data next (internal flag). -/
def DTE_SIND : Nat := 0o20000000

/-- DATAO: interrupt after transfer. -/
def DTE_TO10IB : Nat := 0o10000
/-- DATAO: byte count for transfer. -/
def DTE_TO10BC : Nat := 0o7777

/-- Offset of the status word in a communication region. -/
def PRI_CMTW_STS : Nat := 2
/-- Status word: do queued protocol. -/
def PRI_CMT_QP : Nat := 0o20000000
/-- Status word: TOIT bit (transfer outstanding). -/
def PRI_CMT_TOT : Nat := 0o200000
/-- Offset of the queue count word in a communication region. -/
def PRI_CMTW_CNT : Nat := 3

/-- Status word: TO10 IC for queued transfers (messages sent). -/
def PRI_CMT_10IC : Nat := 0o177400

/-- Operation complete flag (secondary protocol address). -/
def SEC_DTFLG : Nat := 0o444
/-- 10 to 11 argument. -/
def SEC_DTT11 : Nat := 0o447
/-- 10 from 11 argument. -/
def SEC_DTF11 : Nat := 0o450
/-- To 11 command word. -/
def SEC_DTCMD : Nat := 0o451
/-- Last typed character. -/
def SEC_DTCHR : Nat := 0o454
/-- Monitor tty output complete flag. -/
def SEC_DTMTD : Nat := 0o455
/-- Monitor tty input flag. -/
def SEC_DTMTI : Nat := 0o456
/-- 10 switch register. -/
def SEC_DTSWR : Nat := 0o457

/-- Secondary command: program control. -/
def SEC_PGMCTL : Nat := 0o400
/-- Program control word that enters the primary protocol. -/
def SEC_ESEC : Nat := 0o440
/-- Secondary command: clock control; also the word "clock off". -/
def SEC_CLKCTL : Nat := 0o1000
/-- Clock control word: clock off. -/
def SEC_CLKOFF : Nat := 0o1000
/-- Clock control word: clock on. -/
def SEC_CLKON : Nat := 0o1001
/-- Clock control word: wait. -/
def SEC_CLKWT : Nat := 0o1002
/-- Clock control word: read ticks. -/
def SEC_CLKRD : Nat := 0o1003
/-- Secondary command: read switch register. -/
def SEC_RDSW : Nat := 0o1400
/-- Secondary command: clear DDT input mode. -/
def SEC_CLRDDT : Nat := 0o3000
/-- Secondary command: read character from console. -/
def SEC_SETDDT : Nat := 0o3400
/-- Secondary command: output character in monitor mode. -/
def SEC_MONO : Nat := 0o4000
/-- Secondary command: monitor mode on. -/
def SEC_MONON : Nat := 0o4400
/-- Secondary command: enter primary protocol. -/
def SEC_SETPRI : Nat := 0o5000
/-- Mask of the command field of a secondary command word. -/
def SEC_CMDMSK : Nat := 0o7400
/-- Monitor mode flag, kept in STATUS. -/
def DTE_MON : Nat := 0o1
/-- Clock enabled, kept in the STATUS of unit 2. -/
def SEC_CLK : Nat := 0o2
/-- ITS is alive, kept in STATUS. -/
def ITS_ON : Nat := 0o4

/-- Function code: initial message to 11. -/
def PRI_EM2EI : Nat := 0o1
/-- Function code: reply to initial message. -/
def PRI_EM2TI : Nat := 0o2
/-- Function code: string data. -/
def PRI_EMSTR : Nat := 0o3
/-- Function code: line-char. -/
def PRI_EMLNC : Nat := 0o4
/-- Function code: flush output. -/
def PRI_EMFLO : Nat := 0o13
/-- Function code: send all (ttys). -/
def PRI_EMSNA : Nat := 0o14
/-- Function code: hang up dataset. -/
def PRI_EMHUD : Nat := 0o16
/-- Function code: acknowledge line. -/
def PRI_EMACK : Nat := 0o17
/-- Function code: XOFF line. -/
def PRI_EMXOF : Nat := 0o20
/-- Function code: XON line. -/
def PRI_EMXON : Nat := 0o21
/-- Function code: enable/disable line. -/
def PRI_EMEDR : Nat := 0o27
/-- Device code: DH11 number 1. -/
def PRI_EMDH1 : Nat := 0o3
/-- Device code: DLS (all ttys combined). -/
def PRI_EMDLS : Nat := 0o4
/-- Device code: front end LPT. -/
def PRI_EMLPT : Nat := 0o5
/-- Device code for the CTY. -/
def PRI_EMCTY : Nat := 0o1

/-- CONO bit: set the TO11 doorbell. -/
def DTE_CO11DB : Nat := 0o20000
/-- CONO bit: clear the reload-11 button. -/
def DTE_CO11CR : Nat := 0o10000
/-- CONO bit: set the reload-11 button. -/
def DTE_CO11SR : Nat := 0o4000
/-- CONO bit: clear the TO10 doorbell. -/
def DTE_CO10DB : Nat := 0o1000
/-- CONO bit: clear TO11 done and error. -/
def DTE_CO11CL : Nat := 0o100
/-- CONO bit: clear TO10 done and error. -/
def DTE_CO10CL : Nat := 0o40
/-- CONO bit: load PI and enable bit. -/
def DTE_PIENB : Nat := 0o20
/-- Secondary protocol address: clock interrupt flag. -/
def SEC_DTCLK : Nat := 0o445
/-- Offset of the keep alive count. -/
def PRI_CMTW_KAC : Nat := 5
/-- The ITS word incremented at 60Hz. -/
def ITS_DTECHK : Nat := 0o401
/-- The clock rate `rtc_tps`, a static variable that is never assigned. -/
def rtc_tps : Nat := 60

/-- ITS protocol location: input from 10 to 11. -/
def ITS_DTEINP : Nat := 0o402
/-- ITS protocol location: output from 10 to 11. -/
def ITS_DTEOUT : Nat := 0o403
/-- ITS protocol location: line to set the speed of. -/
def ITS_DTELSP : Nat := 0o404
/-- ITS protocol location: line to start output on. -/
def ITS_DTEOST : Nat := 0o406
/-- ITS protocol location: received character. -/
def ITS_DTETYI : Nat := 0o410
/-- ITS protocol location: output done. -/
def ITS_DTEODN : Nat := 0o411

/-! ## Machine arithmetic -/

/-- Conversion of a C `int` value to `uint16`. -/
def u16 (x : Int) : Nat := (x % 65536).toNat

/-- The C expression `x & ~m`. -/
def clearBits (x m : Nat) : Nat := x ^^^ (x &&& m)

/-- The statement `cnt -= 2` on a `uint16` variable. -/
def sub2 (cnt : Nat) : Nat := u16 ((cnt : Int) - 2)

/-! ## Data model -/

/-- One queued packet: `struct _dte_queue`. -/
structure Packet where
  /-- Pointer to working item. -/
  dptr : Nat := 0
  /-- Number of bytes in packet. -/
  cnt : Nat := 0
  /-- Function code. -/
  func : Nat := 0
  /-- Dev code. -/
  dev : Nat := 0
  /-- Spare word of the header. -/
  spare : Nat := 0
  /-- Data count. -/
  dcnt : Nat := 0
  /-- Data packet, `uint16 data[256]`. -/
  data : Nat → Nat := fun _ => 0
  /-- Secondary device code. -/
  sdev : Nat := 0

/-- A character ring channel: `struct _buffer`. -/
structure Buffer where
  /-- Insert pointer. -/
  in_ptr : Nat := 0
  /-- Remove pointer. -/
  out_ptr : Nat := 0
  /-- Buffer, `char buff[256]`. -/
  buff : Nat → Nat := fun _ => 0

/-- The state of the engine: the globals of `kl10_fe.c` that the primary
protocol uses, `dte_unit[0]`, and the external collaborators. -/
structure Dte where
  /-- The field `dte_unit[0].STATUS` (LinkStatus). -/
  STATUS : Nat := 0
  /-- The field `dte_unit[0].CNT`: byte count recorded by DATAO. -/
  CNT : Nat := 0
  /-- Inbound packet queue. -/
  dte_in : Nat → Packet := fun _ => {}
  /-- Outbound packet queue. -/
  dte_out : Nat → Packet := fun _ => {}
  /-- Inbound tail: next slot to receive into. -/
  dte_in_ptr : Nat := 0
  /-- Inbound head: next slot to dispatch. -/
  dte_in_cmd : Nat := 0
  /-- Outbound head: next slot to send. -/
  dte_out_ptr : Nat := 0
  /-- Outbound tail: next slot to fill. -/
  dte_out_res : Nat := 0
  /-- Offset to 10 deposit region. -/
  dte_dt10_off : Nat := 0
  /-- Offset to 11 examine region. -/
  dte_et11_off : Nat := 0
  /-- Executive base pointer of the CPU (`extern uint32 eb_ptr`). -/
  eb_ptr : Nat := 0
  /-- Main memory `M[]`, for the direct accesses of the engine. -/
  M : Nat → Nat := fun _ => 0
  /-- Result of `Mem_examine_word` by offset: `none` when the access fails. -/
  exam : Nat → Option Nat := fun _ => none
  /-- Whether the k-th call of `Mem_deposit_word` succeeds. -/
  depOk : Nat → Bool := fun _ => true
  /-- Number of calls of `Mem_deposit_word` made so far. -/
  ndep : Nat := 0
  /-- The successful deposits, oldest first, as (offset, word). -/
  deps : List (Nat × Nat) := []
  /-- Result of the k-th call of `Mem_read_byte`: `none` when it fails. -/
  rdIn : Nat → Option Nat := fun _ => none
  /-- Number of calls of `Mem_read_byte` made so far. -/
  nrd : Nat := 0
  /-- Whether the k-th call of `Mem_write_byte` succeeds. -/
  wrOk : Nat → Bool := fun _ => true
  /-- Number of calls of `Mem_write_byte` made so far. -/
  nwr : Nat := 0
  /-- The words written by successful calls of `Mem_write_byte`, oldest first. -/
  wlog : List Nat := []
  /-- The interrupt line of the device: `some v` when raised with data `v`. -/
  irq : Option Nat := none
  /-- Calls of `sim_activate`, oldest first, as (unit number, delay): units
  0, 1, 2 are `dte_unit[0..2]`, 3 is `lpt_unit`, 4 and 5 are `tty_unit[0..1]`. -/
  sched : List (Nat × Nat) := []
  /-- Calls of `sim_cancel`, oldest first, by unit number. -/
  cancels : List Nat := []
  /-- The field `dte_unit[1].STATUS`. -/
  STATUS1 : Nat := 0
  /-- The field `dte_unit[2].STATUS`. -/
  STATUS2 : Nat := 0
  /-- Our processor number. -/
  dte_proc_num : Nat := 0
  /-- Base. -/
  dte_base : Nat := 0
  /-- Our offset. -/
  dte_off : Nat := 0
  /-- Offset to 10 examine region. -/
  dte_et10_off : Nat := 0
  /-- Console input channel. -/
  cty_in : Buffer := {}
  /-- Console output channel. -/
  cty_out : Buffer := {}
  /-- Set when console output has to be acknowledged. -/
  cty_data : Nat := 0
  /-- Printer channel. -/
  lpt_queue : Buffer := {}
  /-- The bytes stored into `lpt_queue.buff` by the dispatcher, oldest first:
  an observation of the producer, not a variable of the program. -/
  lpt_log : List Nat := []
  /-- Whether `sim_is_active(&lpt_unit)` holds. -/
  lpt_active : Bool := false
  /-- Output channels of the terminal lines, `tty_out[NUM_LINES_TTY]`; an
  index outside `0 .. NUM_LINES_TTY - 1` stands for storage outside the array. -/
  tty_out : Int → Buffer := fun _ => {}
  /-- Configured number of lines, `tty_desc.lines`. -/
  tty_lines : Nat := 0
  /-- The fields `tty_ldsc[ln].rcve`. -/
  tty_rcve : Int → Nat := fun _ => 0
  /-- The array `tty_connect`. -/
  tty_connect : Int → Nat := fun _ => 0
  /-- The flag `tty_enable`. -/
  tty_enable : Nat := 0
  /-- Lines passed to `tmxr_linemsg` and `tmxr_reset_ln`, oldest first. -/
  tty_hangups : List Int := []
  /-- Clock tick counter, a `uint16`. -/
  rtc_tick : Nat := 0
  /-- Clock wait countdown, a `uint16`. -/
  rtc_wait : Nat := 0
  /-- Switch register of the CPU (`extern uint64 SW`). -/
  SW : Nat := 0
  /-- Build option `KI_22BIT`. -/
  KI_22BIT : Bool := true
  /-- Build option `KL_ITS`. -/
  KL_ITS : Bool := true
  /-- Whether `cpu_unit[0].flags & UNIT_ITSPAGE` is set. -/
  ITSPAGE : Bool := false
  /-- The conversion `sim_tt_outcvt (c, TT_GET_MODE (uptr->flags))` of the
  console library under the current terminal mode. -/
  tt_outcvt : Nat → Int := fun c => c
  /-- The field `dte_unit[1].CHHOLD`. -/
  CHHOLD1 : Nat := 0
  /-- Calls of `sim_activate_after`, oldest first, as (unit number, delay in
  microseconds), units numbered as in `sched`. -/
  sched_after : List (Nat × Nat) := []
  /-- Number of calls of `sim_rtcn_init_unit` for `dte_unit[2]`. -/
  rtc_inits : Nat := 0
  /-- Whether the printer unit is attached, `lpt_unit.flags & UNIT_ATT`. -/
  lpt_attached : Bool := true
  /-- The bytes taken out of `lpt_queue.buff` by the printer service, oldest
  first: an observation of the consumer, not a variable of the program. -/
  lpt_taken : List Nat := []
  /-- Queue of the lines whose output is done, `tty_done`. -/
  tty_done : Buffer := {}
  /-- Queue of the lines that connected or hung up, `tty_hang`. -/
  tty_hang : Buffer := {}
  /-- Input channels of the terminal lines, `tty_in[NUM_LINES_TTY]`, indexed
  as `tty_out`. -/
  tty_in : Int → Buffer := fun _ => {}
  /-- Whether the k-th call of `sim_putchar` succeeds. -/
  putOk : Nat → Bool := fun _ => true
  /-- Number of calls of `sim_putchar` made so far. -/
  nput : Nat := 0
  /-- The bytes given to successful calls of `sim_putchar`, oldest first. -/
  put_log : List Nat := []
  /-- Whether the k-th call of `sim_putchar_s` succeeds. -/
  putsOk : Nat → Bool := fun _ => true
  /-- Number of calls of `sim_putchar_s` made so far. -/
  nputs : Nat := 0
  /-- The characters given to successful calls of `sim_putchar_s`, oldest first. -/
  puts_log : List Int := []
  /-- The key codes that `sim_poll_kbd` will deliver with `SCPE_KFLAG`,
  oldest first; it delivers no key when the list is empty. -/
  kbd : List Nat := []
  /-- The conversion `sim_tt_inpcvt (c, TT_GET_MODE (uptr->flags))` of the
  console library for the console. -/
  tt_inpcvt : Nat → Int := fun c => c
  /-- The conversion `sim_tt_inpcvt` under the mode of the terminal lines. -/
  tty_inpcvt : Nat → Int := fun c => c
  /-- Calls of `sim_clock_coschedule`, oldest first, by unit number as in
  `sched`. -/
  cosched : List Nat := []
  /-- Whether the terminal unit is attached, `tty_unit[0].flags & UNIT_ATT`. -/
  tty_attached : Bool := true
  /-- The result of `tmxr_poll_conn` in the next poll: the line that
  connected, or a negative number. -/
  poll_conn : Int := -1
  /-- The characters that `tmxr_getc_ln` delivers for each line after the
  poll, oldest first; it delivers nothing valid when the list is empty. -/
  tty_rx : Nat → List Nat := fun _ => []
  /-- The fields `tty_ldsc[ln].conn`, as truth values. -/
  tty_conn : Nat → Bool := fun _ => false
  /-- Whether the type `char` is signed in this build. -/
  CHAR_SIGNED : Bool := true

/-! ## External collaborators -/

/-- Modelled from the spec: `Mem_write_byte` is the fallible word write of the
mailbox accessor (section 2, "write word at offset", and section 6); it is
declared outside `kl10_fe.c`.  It returns 0 on failure.  A successful call
appends the 16-bit word to the stream written to the 10. -/
def Mem_write_byte (s : Dte) (w : Nat) : Bool × Dte :=
  if s.wrOk s.nwr then (true, { s with nwr := s.nwr + 1, wlog := s.wlog ++ [w] })
  else (false, { s with nwr := s.nwr + 1 })

/-- Modelled from the spec: `Mem_read_byte` is the fallible word read of the
mailbox accessor (section 2, "read word at offset", and section 6); it is
declared outside `kl10_fe.c`.  It returns 0 on failure, and otherwise
delivers the next 16-bit word of the stream sent by the 10. -/
def Mem_read_byte (s : Dte) : Option Nat × Dte :=
  match s.rdIn s.nrd with
  | none => (none, { s with nrd := s.nrd + 1 })
  | some w => (some (w % 65536), { s with nrd := s.nrd + 1 })

/-- Modelled from the spec: `Mem_examine_word` is the fallible read of one
word of the examine region (section 2 and section 6); it is declared outside
`kl10_fe.c`.  It returns non-zero on failure, here `none`. -/
def Mem_examine_word (s : Dte) (off : Nat) : Option Nat := s.exam off

/-- Modelled from the spec: `Mem_deposit_word` is the fallible write of one
word of the deposit region (section 2 and section 6); it is declared outside
`kl10_fe.c`.  It returns non-zero on failure, here `false`. -/
def Mem_deposit_word (s : Dte) (off w : Nat) : Bool × Dte :=
  if s.depOk s.ndep then (true, { s with ndep := s.ndep + 1, deps := s.deps ++ [(off, w)] })
  else (false, { s with ndep := s.ndep + 1 })

/-- Modelled from the spec: `sim_putchar` is the console output call of the
simulator library (section 2, console character sink); it is declared
outside `kl10_fe.c` and may fail. -/
def sim_putchar (s : Dte) (ch : Nat) : Bool × Dte :=
  if s.putOk s.nput then (true, { s with nput := s.nput + 1, put_log := s.put_log ++ [ch] })
  else (false, { s with nput := s.nput + 1 })

/-- Modelled from the spec: `sim_putchar_s` is the console output call of the
simulator library that reports a stalled console (section 2, console
character sink); it is declared outside `kl10_fe.c` and may fail. -/
def sim_putchar_s (s : Dte) (ch : Int) : Bool × Dte :=
  if s.putsOk s.nputs then
    (true, { s with nputs := s.nputs + 1, puts_log := s.puts_log ++ [ch] })
  else (false, { s with nputs := s.nputs + 1 })

/-- The call `set_interrupt(DTE_DEVNUM, uptr->STATUS)` guarded by
`uptr->STATUS & DTE_PIE`. -/
def raiseIfEnabled (s : Dte) : Dte :=
  if s.STATUS &&& DTE_PIE ≠ 0 then { s with irq := some s.STATUS } else s

/-! ## Register interface: `dte_devio` -/

/-- The case DATAO of `dte_devio`: record the byte count and flag, set
`DTE_TO11` and schedule unit 0 after 10 ticks. -/
def dte_devio_DATAO (s : Dte) (data : Nat) : Dte :=
  { s with CNT := data &&& (DTE_TO10IB ||| DTE_TO10BC),
           STATUS := s.STATUS ||| DTE_TO11,
           sched := s.sched ++ [(0, 10)] }

/-- The case CONI of `dte_devio`: the value stored through `data`,
`(uint64)(dte_unit[0].STATUS) & RMASK`.  `RMASK` is a constant of
`kx10_defs.h` and a parameter here. -/
def dte_devio_CONI (RMASK : Nat) (s : Dte) : Nat := s.STATUS &&& RMASK

/-- The statement `if (c) STATUS &= ~m;`. -/
def clearIf (c : Prop) [Decidable c] (st m : Nat) : Nat := if c then clearBits st m else st

/-- The statement `if (c) STATUS |= m;`. -/
def setIf (c : Prop) [Decidable c] (st m : Nat) : Nat := if c then st ||| m else st

/-- The value of `dte_unit[0].STATUS` after the seven conditional updates of
the case CONO of `dte_devio`, for the control word `res` and the prior
value `st`. -/
def conoStatus (res st : Nat) : Nat :=
  let st1 :=
    if res &&& DTE_PIENB ≠ 0 then
      clearBits st (DTE_PIA ||| DTE_PIE) ||| (res &&& (DTE_PIA ||| DTE_PIE))
    else st
  let st2 := clearIf (res &&& DTE_CO11CL ≠ 0) st1 (DTE_11DN ||| DTE_11ER)
  let st3 := clearIf (res &&& DTE_CO10CL ≠ 0) st2 (DTE_10DN ||| DTE_10ER)
  let st4 := clearIf (res &&& DTE_CO10DB ≠ 0) st3 DTE_10DB
  let st5 := clearIf (res &&& DTE_CO11CR ≠ 0) st4 DTE_11RELD
  let st6 := setIf (res &&& DTE_CO11SR ≠ 0) st5 DTE_11RELD
  setIf (res &&& DTE_CO11DB ≠ 0) st6 DTE_11DB

/-- The case CONO of `dte_devio`: clear the interrupt line, load the PI
assignment, clear or set the flags the control word asks for, ring the TO11
doorbell (and schedule unit 0 after 200 ticks), and raise the interrupt
again if it is enabled and a flag for the 10 is up.  `RMASK` is a constant
of `kx10_defs.h` and a parameter here. -/
def dte_devio_CONO (RMASK : Nat) (s : Dte) (data : Nat) : Dte :=
  let res := (data &&& RMASK) % 4294967296
  let s1 : Dte :=
    { s with irq := none,
             STATUS := conoStatus res s.STATUS,
             sched := if res &&& DTE_CO11DB ≠ 0 then s.sched ++ [(0, 200)] else s.sched }
  if s1.STATUS &&& DTE_PIE ≠ 0 ∧
      s1.STATUS &&& (DTE_10DB ||| DTE_11DN ||| DTE_10DN ||| DTE_11ER ||| DTE_10ER) ≠ 0 then
    { s1 with irq := some s1.STATUS }
  else s1

/-! ## Enqueue: `dte_queue` -/

/-- The copy loop of `dte_queue`:
`for (dp = &out->data[0]; dcnt > 0; dcnt--) *dp++ = *data++;`
with `i` the number of words already copied. -/
def dte_queue_copy (src : List Nat) : Nat → Nat → (Nat → Nat) → (Nat → Nat)
  | 0, _, dst => dst
  | dcnt + 1, i, dst =>
    dte_queue_copy src dcnt (i + 1) (Function.update dst i (src.getD i 0 % 65536))

/-- Queue up a packet to send to the 10: `dte_queue`.  The result is the
return value (0 when the queue is full) and the new state. -/
def dte_queue (s : Dte) (func dev dcnt : Nat) (data : List Nat) : Nat × Dte :=
  if (s.dte_out_res + 1) &&& 0x1f = s.dte_out_ptr then (0, s)
  else
    let out := s.dte_out s.dte_out_res
    let out1 : Packet :=
      { out with cnt := 10, func := func % 65536, dev := dev % 65536,
                 dcnt := u16 (((dcnt : Int) - 1) * 2), spare := 0 }
    let out2 : Packet := { out1 with data := dte_queue_copy data dcnt 0 out1.data }
    (1, { s with dte_out := Function.update s.dte_out s.dte_out_res out2,
                 dte_out_res := (s.dte_out_res + 1) &&& 0x1f })

/-! ## Transmit path: `dte_transfer` -/

/-- One guarded call `if (!Mem_write_byte(0, &w)) goto error;` followed by
the rest of the function.  The label `error` returns at once. -/
def writeThen (s : Dte) (w : Nat) (k : Dte → Option Dte) : Option Dte :=
  match Mem_write_byte s w with
  | (false, s1) => some s1
  | (true, s1) => k s1

/-- The send loop of the indirect branch,
`for (; cnt > 0; cnt -= 2) { if (Mem_write_byte(0, dp) == 0) goto error; }`
with `dp = &out->data[0]`; the loop does not advance `dp`.  The counter is a
`uint16`, so the loop is run on fuel: `none` when the fuel is used up,
otherwise whether the loop finished without a failed write. -/
def sendIndirect (out : Packet) : Nat → Nat → Dte → Option (Bool × Dte)
  | _, 0, s => some (true, s)
  | 0, _ + 1, _ => none
  | fuel + 1, cnt + 1, s =>
    match Mem_write_byte s (out.data 0) with
    | (false, s1) => some (false, s1)
    | (true, s1) => sendIndirect out fuel (sub2 (cnt + 1)) s1

/-- The send loop of the direct branch,
`for (; cnt > 0; cnt -= 2) { if (!Mem_write_byte(0, dp)) goto error; dp++; }`
with `dp = &out->data[i]`. -/
def sendDirect (out : Packet) : Nat → Nat → Nat → Dte → Option (Bool × Dte)
  | _, 0, _, s => some (true, s)
  | 0, _ + 1, _, _ => none
  | fuel + 1, cnt + 1, i, s =>
    match Mem_write_byte s (out.data i) with
    | (false, s1) => some (false, s1)
    | (true, s1) => sendDirect out fuel (sub2 (cnt + 1)) (i + 1) s1

/-- The label `done` of `dte_transfer`: set `DTE_10DN` and raise the
interrupt if enabled. -/
def transferDone (s : Dte) : Dte :=
  raiseIfEnabled { s with STATUS := s.STATUS ||| DTE_10DN }

/-- The two statements before `done` in `dte_transfer`:
`out->cnt = 0; dte_out_ptr = (dte_out_ptr + 1) & 0x1f;`. -/
def transferAdvance (s : Dte) : Dte :=
  { s with dte_out := Function.update s.dte_out s.dte_out_ptr
                        { s.dte_out s.dte_out_ptr with cnt := 0 },
           dte_out_ptr := (s.dte_out_ptr + 1) &&& 0x1f }

/-- The accepted byte count of a round,
`scnt = ((uptr->CNT ^ DTE_TO10BC) + 1) & DTE_TO10BC`, a `uint16`. -/
def acceptedCount (CNT : Nat) : Nat :=
  (((CNT ^^^ DTE_TO10BC) + 1) &&& DTE_TO10BC) % 65536

/-- Send to the 10 when requested: `dte_transfer`.  The result is `none`
when a send loop uses up the fuel. -/
def dte_transfer (fuel : Nat) (s : Dte) : Option Dte :=
  if s.dte_out_res = s.dte_out_ptr then some s
  else
    let out := s.dte_out s.dte_out_ptr
    let s1 : Dte := { s with STATUS := clearBits s.STATUS DTE_TO11, irq := none }
    let scnt := acceptedCount s1.CNT
    if s1.STATUS &&& DTE_SIND ≠ 0 then
      let cnt0 := (out.dcnt + 2) % 65536
      let cnt := if cnt0 > scnt then scnt else cnt0
      match sendIndirect out fuel cnt s1 with
      | none => none
      | some (false, s2) => some s2
      | some (true, s2) =>
        some (transferDone (transferAdvance
          { s2 with STATUS := clearBits s2.STATUS DTE_SIND }))
    else
      let cnt0 := (out.cnt + out.dcnt) % 65536
      let func := if cnt0 > scnt then out.func ||| 0o100000 else out.func
      let cnt := if cnt0 > scnt then scnt else cnt0
      let s2 : Dte :=
        { s1 with dte_out := Function.update s1.dte_out s1.dte_out_ptr
                               { out with func := func } }
      writeThen s2 cnt fun s3 =>
      writeThen s3 func fun s4 =>
      writeThen s4 out.dev fun s5 =>
      writeThen s5 out.spare fun s6 =>
      if func &&& 0o100000 ≠ 0 then
        writeThen s6 out.dcnt fun s7 =>
        some (transferDone { s7 with STATUS := s7.STATUS ||| DTE_SIND })
      else
        match sendDirect out fuel (sub2 (sub2 (sub2 (sub2 cnt)))) 0 s6 with
        | none => none
        | some (false, s7) => some s7
        | some (true, s7) => some (transferDone (transferAdvance s7))

/-! ## Receive path: `dte_primary` -/

/-- An assignment through `in = &dte_in[dte_in_ptr]`. -/
def setIn (s : Dte) (g : Packet → Packet) : Dte :=
  { s with dte_in := Function.update s.dte_in s.dte_in_ptr (g (s.dte_in s.dte_in_ptr)) }

/-- The store `*dp = w` with `dp = &in->data[i]`. -/
def storeData (s : Dte) (i w : Nat) : Dte :=
  setIn s fun p => { p with data := Function.update p.data i w }

/-- The label `error` of `dte_primary`: go back to secondary and return. -/
def primaryError (s : Dte) : Dte := { s with STATUS := s.STATUS ||| DTE_SEC }

/-- One guarded call `if (!Mem_read_byte(0, &data1)) goto error;` followed by
the rest of the function. -/
def readThen (s : Dte) (k : Nat → Dte → Dte) : Dte :=
  match Mem_read_byte s with
  | (none, s1) => primaryError s1
  | (some w, s1) => k w s1

/-- The data loop of the direct branch,
`for (; cnt > 0; cnt -= 2) { if (!Mem_read_byte(0, dp)) goto error; dp++; }`
on the `int` counter `cnt`, given as a natural number (a counter that is
not positive is 0), with `dp = &in->data[i]`.  The result says whether the
loop finished without a failed read. -/
def readDirect : Nat → Nat → Dte → Bool × Dte
  | 0, _, s => (true, s)
  | 1, i, s =>
    match Mem_read_byte s with
    | (none, s1) => (false, s1)
    | (some w, s1) => (true, storeData s1 i w)
  | cnt + 2, i, s =>
    match Mem_read_byte s with
    | (none, s1) => (false, s1)
    | (some w, s1) => readDirect cnt (i + 1) (storeData s1 i w)

/-- The data loop of the indirect branch,
`for (cnt = in->dcnt; cnt >= 0; cnt -= 2) { if (!Mem_read_byte(0, dp)) goto error; dp++; }`
on the `int` counter `cnt`, with `dp = &in->data[i]`. -/
def readIndirect : Nat → Nat → Dte → Bool × Dte
  | 0, i, s =>
    match Mem_read_byte s with
    | (none, s1) => (false, s1)
    | (some w, s1) => (true, storeData s1 i w)
  | 1, i, s =>
    match Mem_read_byte s with
    | (none, s1) => (false, s1)
    | (some w, s1) => (true, storeData s1 i w)
  | cnt + 2, i, s =>
    match Mem_read_byte s with
    | (none, s1) => (false, s1)
    | (some w, s1) => readIndirect cnt (i + 1) (storeData s1 i w)

/-- The label `done` of `dte_primary`: clear the TOIT bit of `word`, deposit
it as the status word, set `DTE_11DN` and raise the interrupt if enabled. -/
def primaryDone (s : Dte) (word : Nat) : Dte :=
  match Mem_deposit_word s (s.dte_dt10_off + PRI_CMTW_STS) (clearBits word PRI_CMT_TOT) with
  | (false, s1) => primaryError s1
  | (true, s1) => raiseIfEnabled { s1 with STATUS := s1.STATUS ||| DTE_11DN }

/-- The branch of `dte_primary` for an indirect transfer, entered when
`DTE_IND` is set: read the count word and that many bytes of data. -/
def primaryIndirect (s2 : Dte) : Dte :=
  let word1 := s2.M (0o141 + s2.eb_ptr)
  match Mem_examine_word s2 (s2.dte_et11_off + PRI_CMTW_CNT) with
  | none => primaryError s2
  | some iword =>
    let s3 := setIn s2 fun p => { p with dcnt := iword &&& 0o177777 }
    match readIndirect (s3.dte_in s3.dte_in_ptr).dcnt 0 s3 with
    | (false, s4) => primaryError s4
    | (true, s4) =>
      primaryDone
        { s4 with STATUS := clearBits s4.STATUS DTE_IND,
                  dte_in_ptr := (s4.dte_in_ptr + 1) &&& 0x1f } word1

/-- The end of the direct branch of `dte_primary`, after the frame has been
read: a function word with bit 15 declares an indirect continuation,
otherwise the packet is complete and the tail advances; then `done`. -/
def primaryDirectEnd (word : Nat) (s12 : Dte) : Dte :=
  if (s12.dte_in s12.dte_in_ptr).func &&& 0o100000 ≠ 0 then
    let s13 := setIn { s12 with STATUS := s12.STATUS ||| DTE_IND }
      fun p => { p with dcnt := p.data 0, sdev := p.data 0 }
    let word2 := word ||| PRI_CMT_TOT
    match Mem_deposit_word s13 (s13.dte_dt10_off + PRI_CMTW_STS) word2 with
    | (false, s14) => primaryError s14
    | (true, s14) => primaryDone s14 word2
  else
    primaryDone { s12 with dte_in_ptr := (s12.dte_in_ptr + 1) &&& 0x1f } word

/-- The branch of `dte_primary` for a direct transfer: read the header and
the data of one frame; `word` is the status word read before. -/
def primaryDirect (word : Nat) (s2 : Dte) : Dte :=
  let s3 := setIn s2 fun p => { p with dptr := 0 }
  readThen s3 fun d1 s4 =>
  let s5 := setIn s4 fun p => { p with cnt := d1 }
  readThen s5 fun d2 s6 =>
  let s7 := setIn s6 fun p => { p with func := d2 }
  readThen s7 fun d3 s8 =>
  let s9 := setIn s8 fun p => { p with dev := d3 }
  readThen s9 fun d4 s10 =>
  let s11 := setIn s10 fun p => { p with spare := d4 }
  let cnt : Int := (d1 : Int) - 2 - 2 - 2 - 2
  match readDirect cnt.toNat 0 s11 with
  | (false, s12) => primaryError s12
  | (true, s12) => primaryDirectEnd word s12

/-- Handle primary protocol: `dte_primary`.  The flag `PRI_CMT_IP` of the
status word is defined as `RSIGN`, a constant of `kx10_defs.h`; it is a
parameter here. -/
def dte_primary (PRI_CMT_IP : Nat) (s : Dte) : Dte :=
  if s.STATUS &&& DTE_11DB = 0 then s
  else if (s.dte_in_ptr + 1) &&& 0x1f = s.dte_in_cmd then
    { s with sched := s.sched ++ [(0, 100)] }
  else
    let s1 : Dte := { s with STATUS := clearBits s.STATUS DTE_11DB, irq := none }
    match Mem_examine_word s1 (s1.dte_et11_off + PRI_CMTW_STS) with
    | none => primaryError s1
    | some word =>
      let s2 : Dte :=
        if word &&& PRI_CMT_QP = 0 then { s1 with STATUS := s1.STATUS ||| DTE_SEC } else s1
      if word &&& PRI_CMT_IP ≠ 0 then
        if s2.STATUS &&& DTE_IND = 0 then s2
        else primaryIndirect s2
      else primaryDirect word s2

/-! ## Kick helper: `dte_start` -/

/-- The label `error` of `dte_start`: go back to secondary with the TO10
error flag, raise the interrupt if enabled, and return 0. -/
def startError (s : Dte) : Nat × Dte :=
  (0, raiseIfEnabled { s with STATUS := s.STATUS ||| (DTE_SEC ||| DTE_10ER) })

/-- If anything is in the queue, start a transfer, if one is not already
pending: `dte_start`.  The result is the return value and the new state.
`PRI_CMT_IP` is a constant of `kx10_defs.h` (`RSIGN`) and a parameter here. -/
def dte_start (PRI_CMT_IP : Nat) (s : Dte) : Nat × Dte :=
  if s.dte_out_ptr = s.dte_out_res then (1, s)
  else if s.STATUS &&& (DTE_IND ||| DTE_10DB ||| DTE_11DB) ≠ 0 then (1, s)
  else
    match Mem_examine_word s (s.dte_et11_off + PRI_CMTW_STS) with
    | none => startError s
    | some word =>
      if word &&& PRI_CMT_TOT ≠ 0 then (1, s)
      else
        let word1 := clearBits word (PRI_CMT_10IC ||| PRI_CMT_IP)
          ||| ((word + 0o400) &&& PRI_CMT_10IC)
        match Mem_deposit_word s (s.dte_dt10_off + PRI_CMTW_STS) word1 with
        | (false, s1) => startError s1
        | (true, s1) =>
          let word2 := (s1.dte_out s1.dte_out_ptr).cnt + (s1.dte_out s1.dte_out_ptr).dcnt
          match Mem_deposit_word s1 (s1.dte_dt10_off + PRI_CMTW_CNT) word2 with
          | (false, s2) => startError s2
          | (true, s2) => (1, raiseIfEnabled { s2 with STATUS := s2.STATUS ||| DTE_10DB })

/-! ## Secondary protocol: `dte_second` -/

/-- Conversion of a C `int32` value to `uint64`. -/
def u64 (x : Int) : Nat := (x % 18446744073709551616).toNat

/-- The variable `base` of `dte_second`: `eb_ptr` under `KI_22BIT`, unless
ITS paging is selected under `KL_ITS`; otherwise 0. -/
def secBase (s : Dte) : Nat :=
  if s.KI_22BIT then (if s.KL_ITS && s.ITSPAGE then 0 else s.eb_ptr) else 0

/-- The macro `QITS`. -/
def QITS (s : Dte) : Bool := s.KL_ITS && s.ITSPAGE

/-- The store `M[a] = v`. -/
def setM (s : Dte) (a v : Nat) : Dte := { s with M := Function.update s.M a v }

/-- The end of `dte_second`, "Acknowledge command": zero the command word,
set the operation complete flag, ring the TO10 doorbell and clear the TO11
doorbell.  `FMASK` is a constant of `kx10_defs.h` and a parameter here. -/
def secondAck (FMASK base : Nat) (s : Dte) : Dte :=
  let s1 := setM s (SEC_DTCMD + base) 0
  let s2 := setM s1 (SEC_DTFLG + base) FMASK
  { s2 with STATUS := clearBits (s2.STATUS ||| DTE_10DB) DTE_11DB }

/-- The label `enter_pri` of `dte_second`, up to its `break`: read the word
at offset 0, compute the protocol offsets, leave secondary mode in units 0
and 1 and reset the four queue cursors; nothing happens when the word
cannot be read. -/
def enterPri (s : Dte) : Dte :=
  match Mem_examine_word s 0 with
  | none => s
  | some word =>
    let proc := (word >>> 24) &&& 0o37
    let base := proc + 1
    { s with dte_proc_num := proc, dte_base := base,
             dte_off := base + (word &&& 0o177777),
             dte_dt10_off := 16, dte_et10_off := 16 + 16, dte_et11_off := base + 16,
             STATUS := clearBits s.STATUS DTE_SEC,
             STATUS1 := clearBits s.STATUS1 DTE_SEC,
             dte_in_ptr := 0, dte_out_ptr := 0, dte_in_cmd := 0, dte_out_res := 0 }

/-- The case `SEC_MONO` (and `default`) of `dte_second`: output a character
in monitor mode, or retry after 1000 ticks when the console output channel
is full. -/
def secondMono (FMASK base word : Nat) (s : Dte) : Dte :=
  if (s.cty_out.in_ptr + 1) &&& 0xff = s.cty_out.out_ptr then
    { s with sched := s.sched ++ [(0, 1000)] }
  else
    let ch := s.tt_outcvt (word &&& 0o177)
    let s1 : Dte :=
      { s with cty_out :=
          { s.cty_out with
              buff := Function.update s.cty_out.buff s.cty_out.in_ptr (word &&& 0x7f),
              in_ptr := (s.cty_out.in_ptr + 1) &&& 0xff } }
    let s2 := setM s1 (SEC_DTCHR + base) (u64 ch)
    let s3 := setM s2 (SEC_DTMTD + base) FMASK
    let s4 := setM s3 (SEC_DTF11 + base) 0
    secondAck FMASK base s4

/-- The case `SEC_SETDDT` of `dte_second`: read a character from the
console, or retry after 100 ticks when the console input channel is empty. -/
def secondSetDDT (FMASK base : Nat) (s : Dte) : Dte :=
  if s.cty_in.in_ptr = s.cty_in.out_ptr then
    { s with sched := s.sched ++ [(0, 100)] }
  else
    let ch := s.cty_in.buff s.cty_in.out_ptr
    let s1 : Dte :=
      { s with cty_in := { s.cty_in with out_ptr := (s.cty_in.out_ptr + 1) &&& 0xff } }
    let s2 := setM s1 (SEC_DTF11 + base) (0o177 &&& ch)
    let s3 := setM s2 (SEC_DTMTI + base) FMASK
    secondAck FMASK base s3

/-- The case `SEC_CLKCTL` of `dte_second`, up to its `break`. -/
def secondClock (base word : Nat) (s : Dte) : Dte :=
  if word = SEC_CLKOFF then { s with STATUS2 := clearBits s.STATUS2 SEC_CLK }
  else if word = SEC_CLKWT then
    { s with rtc_wait := s.M (SEC_DTT11 + base) &&& 0o177777,
             STATUS2 := s.STATUS2 ||| SEC_CLK, rtc_tick := 0 }
  else if word = SEC_CLKON then { s with STATUS2 := s.STATUS2 ||| SEC_CLK, rtc_tick := 0 }
  else if word = SEC_CLKRD then setM s (SEC_DTF11 + base) s.rtc_tick
  else s

/-- Handle secondary protocol: `dte_second`.  The ITS fast path `dte_its` is
a parameter: the properties proved below hold whatever it does. -/
def dte_second (FMASK : Nat) (dte_its : Dte → Dte) (s : Dte) : Dte :=
  let base := secBase s
  let word := s.M (SEC_DTCMD + base)
  if s.KL_ITS = true ∧ word = 0 ∧ QITS s = true ∧ s.STATUS &&& ITS_ON ≠ 0 then
    let s1 := dte_its s
    { s1 with STATUS := clearBits s1.STATUS DTE_11DB }
  else if word &&& SEC_CMDMSK = SEC_SETPRI then secondAck FMASK base (enterPri s)
  else if word &&& SEC_CMDMSK = SEC_SETDDT then secondSetDDT FMASK base s
  else if word &&& SEC_CMDMSK = SEC_CLRDDT then
    secondAck FMASK base { s with STATUS := clearBits s.STATUS DTE_MON }
  else if word &&& SEC_CMDMSK = SEC_MONON then
    secondAck FMASK base { s with STATUS := s.STATUS ||| DTE_MON }
  else if word &&& SEC_CMDMSK = SEC_RDSW then
    secondAck FMASK base (setM (setM s (SEC_DTSWR + base) s.SW) (SEC_DTF11 + base) s.SW)
  else if word &&& SEC_CMDMSK = SEC_PGMCTL then
    if word = SEC_ESEC then secondAck FMASK base (enterPri s)
    else secondAck FMASK base s
  else if word &&& SEC_CMDMSK = SEC_CLKCTL then
    secondAck FMASK base (secondClock base word s)
  else secondMono FMASK base word s

/-- The removal of one byte from the console output channel by its
consumer, as in `dtei_svc`: `cty_out.out_ptr = (cty_out.out_ptr + 1) & 0xff`. -/
def ctyOutRemove (s : Dte) : Dte :=
  { s with cty_out := { s.cty_out with out_ptr := (s.cty_out.out_ptr + 1) &&& 0xff } }


/-! ## Dispatch of received packets: `dte_function` -/

/-- An update of the packet under dispatch, `cmd = &dte_in[dte_in_cmd]`. -/
def setCmd (s : Dte) (g : Packet → Packet) : Dte :=
  { s with dte_in := Function.update s.dte_in s.dte_in_cmd (g (s.dte_in s.dte_in_cmd)) }

/-- The byte taken from the packet at its cursor:
`ch = (int32)(cmd->data[cmd->dptr >> 1]); if ((cmd->dptr & 1) == 0) ch >>= 8; ch &= 0177;`. -/
def packetByte (cmd : Packet) : Nat :=
  (if cmd.dptr &&& 1 = 0 then cmd.data (cmd.dptr >>> 1) >>> 8
   else cmd.data (cmd.dptr >>> 1)) &&& 0o177

/-- One pass of the body of the printer loop after the fullness test: store
the byte at `lpt_queue.in_ptr`, advance `in_ptr` and the cursor `cmd->dptr`. -/
def lptPut (s : Dte) : Dte :=
  let ch := packetByte (s.dte_in s.dte_in_cmd)
  let s1 : Dte :=
    { s with lpt_queue :=
               { s.lpt_queue with
                   buff := Function.update s.lpt_queue.buff s.lpt_queue.in_ptr ch,
                   in_ptr := (s.lpt_queue.in_ptr + 1) &&& 0xff },
             lpt_log := s.lpt_log ++ [ch] }
  setCmd s1 fun p => { p with dptr := p.dptr + 1 }

/-- The printer loop `while (cmd->dptr < cmd->dcnt) { if (full) return; ... }`
by the number `cmd->dcnt - cmd->dptr` of bytes left.  The result is `false`
when the function returns from inside the loop. -/
def lptLoop : Nat → Dte → Bool × Dte
  | 0, s => (true, s)
  | n + 1, s =>
    if (s.lpt_queue.in_ptr + 1) &&& 0xff = s.lpt_queue.out_ptr then (false, s)
    else lptLoop n (lptPut s)

/-- One pass of the body of the terminal loop for line `ln` after the
fullness test. -/
def ttyPut (ln : Int) (s : Dte) : Dte :=
  let ch := packetByte (s.dte_in s.dte_in_cmd)
  let q := s.tty_out ln
  let s1 : Dte :=
    { s with tty_out := Function.update s.tty_out ln
               { q with buff := Function.update q.buff q.in_ptr ch,
                        in_ptr := (q.in_ptr + 1) &&& 0xff } }
  setCmd s1 fun p => { p with dptr := p.dptr + 1 }

/-- The terminal loop for line `ln`, by the number of bytes left. -/
def ttyLoop (ln : Int) : Nat → Dte → Bool × Dte
  | 0, s => (true, s)
  | n + 1, s =>
    if ((s.tty_out ln).in_ptr + 1) &&& 0xff = (s.tty_out ln).out_ptr then (false, s)
    else ttyLoop ln n (ttyPut ln s)

/-- One pass of the body of the console loop after the fullness test: the
byte is converted by `sim_tt_outcvt` and stored as `(char)(ch & 0xff)`. -/
def ctyPut (s : Dte) : Dte :=
  let ch := s.tt_outcvt (packetByte (s.dte_in s.dte_in_cmd))
  let s1 : Dte :=
    { s with cty_out :=
               { s.cty_out with
                   buff := Function.update s.cty_out.buff s.cty_out.in_ptr (ch % 256).toNat,
                   in_ptr := (s.cty_out.in_ptr + 1) &&& 0xff },
             cty_data := 1 }
  setCmd s1 fun p => { p with dptr := p.dptr + 1 }

/-- The console loop, by the number of bytes left. -/
def ctyLoop : Nat → Dte → Bool × Dte
  | 0, s => (true, s)
  | n + 1, s =>
    if (s.cty_out.in_ptr + 1) &&& 0xff = s.cty_out.out_ptr then (false, s)
    else ctyLoop n (ctyPut s)

/-- The statements after each of the three loops:
`if (cmd->dptr != cmd->dcnt) return; break;`. -/
def loopEnd (r : Bool × Dte) : Bool × Dte :=
  match r with
  | (false, s) => (false, s)
  | (true, s) =>
    if (s.dte_in s.dte_in_cmd).dptr ≠ (s.dte_in s.dte_in_cmd).dcnt then (false, s)
    else (true, s)

/-- The statement `if (!sim_is_active(&lpt_unit)) sim_activate(&lpt_unit, 1000);`. -/
def lptActivate (s : Dte) : Dte :=
  if s.lpt_active then s
  else { s with lpt_active := true, sched := s.sched ++ [(3, 1000)] }

/-- The label `cty` of `dte_function`: console output of the packet. -/
def functionCty (s : Dte) : Bool × Dte :=
  loopEnd (ctyLoop ((s.dte_in s.dte_in_cmd).dcnt - (s.dte_in s.dte_in_cmd).dptr) s)

/-- The case `PRI_EMSNA` of `dte_function`, which the case `PRI_EMSTR` falls
through to. -/
def functionSendAll (s : Dte) : Bool × Dte :=
  if (s.dte_in s.dte_in_cmd).dev ≠ PRI_EMCTY then (true, s) else functionCty s

/-- The line number `ln = ((cmd->sdev >> 8) & 0377) - 1` of a packet. -/
def packetLine (cmd : Packet) : Int := (((cmd.sdev >>> 8) &&& 0o377 : Nat) : Int) - 1

/-- The case `PRI_EMSTR` of `dte_function`: string data for the printer, for
a terminal line, or for the console. -/
def functionString (s : Dte) : Bool × Dte :=
  let cmd := s.dte_in s.dte_in_cmd
  if cmd.dev = PRI_EMLPT then
    loopEnd (lptLoop (cmd.dcnt - cmd.dptr) (lptActivate s))
  else if cmd.dev &&& 0o377 = PRI_EMDLS then
    if packetLine cmd < 0 then functionCty s
    else if packetLine cmd ≥ (s.tty_lines : Int) then (true, s)
    else loopEnd (ttyLoop (packetLine cmd) (cmd.dcnt - cmd.dptr) s)
  else functionSendAll s

/-- The case `PRI_EMEDR` of `dte_function`: enable or disable the lines. -/
def functionEnable (s : Dte) : Dte :=
  if (s.dte_in s.dte_in_cmd).dev = PRI_EMDH1 then
    if (s.dte_in s.dte_in_cmd).data 0 = 0 then
      { s with tty_enable := 1, sched := s.sched ++ [(4, 1000), (5, 1000)] }
    else
      { s with tty_enable := 0, cancels := s.cancels ++ [4, 5] }
  else s

/-- The `switch (cmd->func & 0377)` of `dte_function` for the packet under
dispatch.  The result is `false` when the function returns from inside the
switch, and `true` when the case ends in `break`. -/
def functionCase (s : Dte) : Bool × Dte :=
  let cmd := s.dte_in s.dte_in_cmd
  let f := cmd.func &&& 0o377
  if f = PRI_EM2EI then
    if (dte_queue s PRI_EM2TI PRI_EMCTY 1 [0]).1 = 0 then
      (false, (dte_queue s PRI_EM2TI PRI_EMCTY 1 [0]).2)
    else (true, (dte_queue s PRI_EM2TI PRI_EMCTY 1 [0]).2)
  else if f = PRI_EMSTR then functionString s
  else if f = PRI_EMSNA then functionSendAll s
  else if f = PRI_EMFLO then
    if cmd.dev &&& 0o377 = PRI_EMDLS then
      (true, { s with tty_out := Function.update s.tty_out (packetLine cmd)
                        { s.tty_out (packetLine cmd) with in_ptr := 0, out_ptr := 0 } })
    else (true, s)
  else if f = PRI_EMHUD then
    if cmd.dev &&& 0o377 = PRI_EMDLS then
      (true, { s with tty_hangups := s.tty_hangups ++ [packetLine cmd],
                      tty_connect := Function.update s.tty_connect (packetLine cmd) 0 })
    else (true, s)
  else if f = PRI_EMXOF then
    if cmd.dev &&& 0o377 = PRI_EMDLS then
      (true, { s with tty_rcve := Function.update s.tty_rcve (packetLine cmd) 0 })
    else (true, s)
  else if f = PRI_EMXON then
    if cmd.dev &&& 0o377 = PRI_EMDLS then
      (true, { s with tty_rcve := Function.update s.tty_rcve (packetLine cmd) 1 })
    else (true, s)
  else if f = PRI_EMEDR then (true, functionEnable s)
  else (true, s)

/-- The end of the loop body of `dte_function`, "Mark command as finished":
`cmd->cnt = 0; dte_in_cmd = (dte_in_cmd + 1) & 0x1F;`. -/
def markFinished (s : Dte) : Dte :=
  let s1 := setCmd s fun p => { p with cnt := 0 }
  { s1 with dte_in_cmd := (s1.dte_in_cmd + 1) &&& 0x1f }

/-- Process the packets of the inbound queue: `dte_function`.  The loop
`while (dte_in_cmd != dte_in_ptr)` runs for at most `fuel` packets; the
result is `none` when the fuel runs out before the function returns. -/
def dte_function : Nat → Dte → Option Dte
  | 0, _ => none
  | fuel + 1, s =>
    if s.dte_in_cmd = s.dte_in_ptr then some s
    else if (s.dte_out_res + 1) &&& 0x1f = s.dte_out_ptr then some s
    else
      match functionCase s with
      | (false, s1) => some s1
      | (true, s1) => dte_function fuel (markFinished s1)

/-- The two statements `b.buff[b.in_ptr] = v; b.in_ptr = (b.in_ptr + 1) & 0xff;`
on a channel `b`. -/
def bufPut (b : Buffer) (v : Nat) : Buffer :=
  { b with buff := Function.update b.buff b.in_ptr v, in_ptr := (b.in_ptr + 1) &&& 0xff }

/-- The statement `b.out_ptr = (b.out_ptr + 1) & 0xff;` on a channel `b`. -/
def bufDrop (b : Buffer) : Buffer := { b with out_ptr := (b.out_ptr + 1) &&& 0xff }

/-- The conversion of a `char` holding the byte `c` to `uint16`. -/
def charWord (s : Dte) (c : Nat) : Nat :=
  if s.CHAR_SIGNED && decide (128 ≤ c % 256) then c % 256 + 0xff00 else c % 256

/-- The conversion of a `char` holding the byte `c` to `uint64`, also by way
of `int`. -/
def charU64 (s : Dte) (c : Nat) : Nat :=
  if s.CHAR_SIGNED && decide (128 ≤ c % 256) then c % 256 + 0xffffffffffffff00 else c % 256

/-- The conversion of an `int32` value to `char`, read back as an `int`. -/
def toChar (s : Dte) (x : Int) : Int :=
  if s.CHAR_SIGNED then (x + 128) % 256 - 128 else x % 256

/-- The collection loop of `dte_input`,
`while (cty_in.in_ptr != cty_in.out_ptr && n < 32) { ... dataq[n++] = ch; }`, by
the number `32 - n` of words that still fit; `q` is `dataq[0 .. n-1]`. -/
def inputLoop : Nat → Dte → List Nat → Dte × List Nat
  | 0, s, q => (s, q)
  | m + 1, s, q =>
    if s.cty_in.in_ptr ≠ s.cty_in.out_ptr then
      inputLoop m { s with cty_in := bufDrop s.cty_in }
        (q ++ [charWord s (s.cty_in.buff s.cty_in.out_ptr)])
    else (s, q)

/-- The first part of `dte_input`, "Check if CTY done with input": queue an
acknowledge when console output is done.  The result is `false` when the
function returns because the outbound queue is full. -/
def inputAck (s : Dte) : Bool × Dte :=
  if s.cty_data ≠ 0 ∧ s.cty_out.in_ptr = s.cty_out.out_ptr then
    if (dte_queue s PRI_EMACK PRI_EMCTY 1 [0]).1 = 0 then
      (false, (dte_queue s PRI_EMACK PRI_EMCTY 1 [0]).2)
    else (true, { (dte_queue s PRI_EMACK PRI_EMCTY 1 [0]).2 with cty_data := 0 })
  else (true, s)

/-- The second part of `dte_input`: collect up to 32 bytes of console input
and queue them as one line-character packet; restore the remove pointer
when the outbound queue is full. -/
def inputLine (s : Dte) : Dte :=
  let save_ptr := s.cty_in.out_ptr
  let r := inputLoop 32 s []
  let n := r.2.length
  if n > 0 then
    if (dte_queue r.1 PRI_EMLNC PRI_EMCTY n r.2).1 = 0 then
      { (dte_queue r.1 PRI_EMLNC PRI_EMCTY n r.2).2 with
          cty_in := { (dte_queue r.1 PRI_EMLNC PRI_EMCTY n r.2).2.cty_in with
                        out_ptr := save_ptr } }
    else (dte_queue r.1 PRI_EMLNC PRI_EMCTY n r.2).2
  else r.1

/-- Console input batching: `dte_input`. -/
def dte_input (s : Dte) : Dte :=
  match inputAck s with
  | (false, s1) => s1
  | (true, s1) => inputLine s1

/-! ## ITS fast path: `dte_its` -/

/-- The output of one character in the loop of `dte_its`: to the console
with `sim_putchar_s` when `ln < 0`, else to the channel of line `ln`.  The
result is `false` when the function returns. -/
def itsOutChar (ln : Int) (s : Dte) (c : Nat) : Bool × Dte :=
  if ln < 0 then sim_putchar_s s (toChar s (s.tt_outcvt c))
  else if ((s.tty_out ln).in_ptr + 1) &&& 0xff = (s.tty_out ln).out_ptr then (false, s)
  else (true, { s with tty_out := Function.update s.tty_out ln (bufPut (s.tty_out ln) c) })

/-- The loop `while (cnt > 0) { ... }` of `dte_its`, which takes two
characters from each word read.  The result is `false` when the function
returns from inside the loop. -/
def itsOutLoop (ln : Int) : Nat → Dte → Bool × Dte
  | 0, s => (true, s)
  | 1, s =>
    match Mem_read_byte s with
    | (none, s1) => (false, s1)
    | (some data, s1) => itsOutChar ln s1 ((data >>> 8) &&& 0o177)
  | cnt + 2, s =>
    match Mem_read_byte s with
    | (none, s1) => (false, s1)
    | (some data, s1) =>
      match itsOutChar ln s1 ((data >>> 8) &&& 0o177) with
      | (false, s2) => (false, s2)
      | (true, s2) =>
        match itsOutChar ln s2 (data &&& 0o177) with
        | (false, s3) => (false, s3)
        | (true, s3) => itsOutLoop ln cnt s3

/-- The statements `if (tty_done is not full) { tty_done.buff[..] = v; ... }`. -/
def itsDonePut (s : Dte) (v : Nat) : Dte :=
  if (s.tty_done.in_ptr + 1) &&& 0xff ≠ s.tty_done.out_ptr then
    { s with tty_done := bufPut s.tty_done v }
  else s

/-- The part "Check if any input for it" of `dte_its` below the test of
`ITS_ON`, which `dtei_svc` repeats: hand one byte of console input to the 10
through `M[ITS_DTETYI]`.  `SMASK` is a constant of `kx10_defs.h`. -/
def itsTypeIn (SMASK : Nat) (s : Dte) : Dte :=
  if s.M ITS_DTETYI &&& SMASK ≠ 0 then
    if s.cty_in.in_ptr ≠ s.cty_in.out_ptr then
      let s1 : Dte := { s with cty_in := bufDrop s.cty_in }
      let s2 := setM s1 ITS_DTETYI (charU64 s (s.cty_in.buff s.cty_in.out_ptr))
      raiseIfEnabled { s2 with STATUS := s2.STATUS ||| DTE_10DB }
    else s
  else s

/-- The end of `dte_its`, from "Check for line speed" on. -/
def itsRest (FMASK SMASK : Nat) (s : Dte) : Dte :=
  let s1 := if s.M ITS_DTELSP &&& SMASK = 0 then setM s ITS_DTELSP FMASK else s
  let s2 := if s1.STATUS &&& ITS_ON ≠ 0 then itsTypeIn SMASK s1 else s1
  if s2.M ITS_DTEODN &&& SMASK ≠ 0 then
    if s2.tty_done.in_ptr ≠ s2.tty_done.out_ptr then
      let ln := charU64 s2 (s2.tty_done.buff s2.tty_done.out_ptr)
      let s3 : Dte := { s2 with tty_done := bufDrop s2.tty_done }
      let s4 := setM s3 ITS_DTEODN (((ln <<< 18) % 18446744073709551616) ||| 1)
      raiseIfEnabled { s4 with STATUS := s4.STATUS ||| DTE_10DB }
    else s2
  else s2

/-- The ITS fast path `dte_its`.  `FMASK` and `SMASK` are constants of
`kx10_defs.h` and parameters here. -/
def dte_its (FMASK SMASK : Nat) (s : Dte) : Dte :=
  let s1 :=
    if s.M ITS_DTEOST &&& SMASK = 0 then
      if (s.tty_done.in_ptr + 1) &&& 0xff ≠ s.tty_done.out_ptr then
        setM { s with tty_done := bufPut s.tty_done (s.M ITS_DTEOST &&& 0xff) } ITS_DTEOST FMASK
      else s
    else s
  let s2 := if s1.M ITS_DTEINP &&& SMASK = 0 then setM s1 ITS_DTEINP FMASK else s1
  if s2.M ITS_DTEOUT &&& SMASK = 0 then
    let word := s2.M ITS_DTEOUT
    let ln : Int := (((word >>> 18) &&& 0o77 : Nat) : Int) - 1
    match itsOutLoop ln (word &&& 0o17777) s2 with
    | (false, s3) => s3
    | (true, s3) =>
      let s4 := if ln < 0 then itsDonePut s3 0 else s3
      let s5 := setM s4 ITS_DTEOUT FMASK
      itsRest FMASK SMASK (raiseIfEnabled { s5 with STATUS := s5.STATUS ||| DTE_11DN })
  else itsRest FMASK SMASK s2

/-! ## Input and dispatch service: `dtei_svc` -/

/-- The loop "Flush out any pending CTY output" of `dtei_svc`, for at most
`fuel` bytes after the first; `none` when the fuel runs out. -/
def ctyFlush : Nat → Dte → Option Dte
  | 0, s =>
    if s.cty_out.in_ptr ≠ s.cty_out.out_ptr then
      match sim_putchar s (s.cty_out.buff s.cty_out.out_ptr) with
      | (false, s1) => some s1
      | (true, _) => none
    else some s
  | fuel + 1, s =>
    if s.cty_out.in_ptr ≠ s.cty_out.out_ptr then
      match sim_putchar s (s.cty_out.buff s.cty_out.out_ptr) with
      | (false, s1) => some s1
      | (true, s1) => ctyFlush fuel { s1 with cty_out := bufDrop s1.cty_out }
    else some s

/-- The part "If we have room see if any new lines" of `dtei_svc`: poll the
keyboard when the console input channel has room. -/
def ctyPoll (s : Dte) : Dte :=
  if (s.cty_in.in_ptr + 1) &&& 0xff ≠ s.cty_in.out_ptr then
    match s.kbd with
    | [] => s
    | k :: rest =>
      { s with kbd := rest,
               cty_in := bufPut s.cty_in ((s.tt_inpcvt k % 128).toNat &&& 0o377) }
  else s

/-- The part of `dtei_svc` that hands one byte of console input to the 10 in
secondary protocol with monitor mode on. -/
def ctyMonitorIn (FMASK base : Nat) (s : Dte) : Dte :=
  if (if s.KL_ITS then s.STATUS &&& (DTE_SEC ||| ITS_ON) = DTE_SEC
      else s.STATUS &&& DTE_SEC ≠ 0) ∧
      s.cty_in.in_ptr ≠ s.cty_in.out_ptr ∧ s.STATUS &&& DTE_MON ≠ 0 ∧
      s.M (SEC_DTMTI + base) = 0 then
    let s1 : Dte := { s with cty_in := bufDrop s.cty_in }
    let s2 := setM s1 (SEC_DTF11 + base) (charU64 s (s.cty_in.buff s.cty_in.out_ptr))
    let s3 := setM s2 (SEC_DTMTI + base) FMASK
    raiseIfEnabled { s3 with STATUS := s3.STATUS ||| DTE_10DB }
  else s

/-- The test of `dtei_svc` that guards the primary protocol work: it reads
the STATUS of its own unit, `dte_unit[1]`. -/
def inputPrimary (s : Dte) : Prop :=
  if s.KL_ITS then s.STATUS1 &&& (DTE_SEC ||| ITS_ON) = 0 else s.STATUS1 &&& DTE_SEC = 0

instance (s : Dte) : Decidable (inputPrimary s) := by
  unfold inputPrimary
  exact inferInstance

/-- The service of unit 1, `dtei_svc`: the primary protocol work (dispatch,
console input batching, kick), then the console output flush, the keyboard
poll, and the input hand-over of the secondary and ITS protocols.
`FMASK`, `SMASK` and `PRI_CMT_IP` are constants of `kx10_defs.h`. -/
def dtei_svc (FMASK SMASK PRI_CMT_IP : Nat) (fuel : Nat) (s : Dte) : Option Dte :=
  let base := secBase s
  let s0 : Dte := { s with cosched := s.cosched ++ [1] }
  match (if inputPrimary s0 then
      match dte_function fuel s0 with
      | none => none
      | some a => some (dte_start PRI_CMT_IP (dte_input a)).2
    else some s0) with
  | none => none
  | some s1 =>
    match ctyFlush fuel s1 with
    | none => none
    | some s2 =>
      let s3 := ctyMonitorIn FMASK base (ctyPoll s2)
      if QITS s3 = true ∧ s3.STATUS &&& ITS_ON ≠ 0 then some (itsTypeIn SMASK s3)
      else some s3

/-! ## Terminal input poll: `ttyi_svc` -/

/-- The statements that queue a line number on `tty_hang` when it has room
and record the new value of `tty_connect[ln]`. -/
def hangPut (s : Dte) (ln : Int) (connected : Nat) : Dte :=
  if (s.tty_hang.in_ptr + 1) &&& 0xff ≠ s.tty_hang.out_ptr then
    { s with tty_hang := bufPut s.tty_hang ((ln + 1) % 256).toNat,
             tty_connect := Function.update s.tty_connect ln connected }
  else s

/-- The loop "Spool up as much as we have room for" of `ttyi_svc` for line
`ln`, by the characters the line still has: the test is on the output
channel of the line, the store is into its input channel. -/
def ttyiSpool (ln : Nat) : List Nat → Dte → Dte
  | [], s => s
  | c :: rest, s =>
    if ((s.tty_out ln).in_ptr + 1) &&& 0xff ≠ (s.tty_out ln).out_ptr then
      ttyiSpool ln rest
        { s with tty_rx := Function.update s.tty_rx ln rest,
                 tty_in := Function.update s.tty_in ln
                   (bufPut (s.tty_in ln) (s.tty_inpcvt c % 256).toNat) }
    else s

/-- The loop "Scan each line for input" of `ttyi_svc`, by the number of
lines left, from line `ln` on. -/
def ttyiLines : Nat → Nat → Dte → Dte
  | 0, _, s => s
  | n + 1, ln, s =>
    let s1 := ttyiSpool ln (s.tty_rx ln) s
    let s2 :=
      if s1.tty_connect ln = 1 ∧ s1.tty_conn ln = false then hangPut s1 ln 0 else s1
    ttyiLines n (ln + 1) s2

/-- The terminal input poll `ttyi_svc`. -/
def ttyi_svc (s : Dte) : Dte :=
  if s.tty_attached = false then s
  else
    let s0 : Dte := { s with cosched := s.cosched ++ [4] }
    let s1 :=
      if (s0.tty_hang.in_ptr + 1) &&& 0xff ≠ s0.tty_hang.out_ptr then
        if 0 ≤ s0.poll_conn then
          { s0 with tty_hang := bufPut s0.tty_hang ((s0.poll_conn + 1) % 256).toNat,
                    tty_connect := Function.update s0.tty_connect s0.poll_conn 1 }
        else s0
      else s0
    ttyiLines s1.tty_lines 0 s1

/-! ## Printer service: `lpt_svc` -/

/-- One pass of the body of the drain loop of `lpt_svc`:
`c = lpt_queue.buff[lpt_queue.out_ptr]; lpt_queue.out_ptr = (lpt_queue.out_ptr + 1) & 0xff;`
followed by the printing of `c`, which acts on the line buffer, the column
and line counters of the printer unit and the attached file only; of the
printing the state keeps the byte taken. -/
def lptTake (s : Dte) : Dte :=
  { s with lpt_taken := s.lpt_taken ++ [s.lpt_queue.buff s.lpt_queue.out_ptr],
           lpt_queue := { s.lpt_queue with out_ptr := (s.lpt_queue.out_ptr + 1) &&& 0xff } }

/-- The drain loop of `lpt_svc`,
`while (((lpt_queue.out_ptr + 1) & 0xff) != lpt_queue.in_ptr) { ... }`, for
at most `fuel` passes; `none` when the fuel runs out before the loop ends. -/
def lptDrain : Nat → Dte → Option Dte
  | 0, s => if (s.lpt_queue.out_ptr + 1) &&& 0xff ≠ s.lpt_queue.in_ptr then none else some s
  | fuel + 1, s =>
    if (s.lpt_queue.out_ptr + 1) &&& 0xff ≠ s.lpt_queue.in_ptr then lptDrain fuel (lptTake s)
    else some s

/-- The printer service `lpt_svc`: nothing when the unit is not attached;
otherwise drain the channel, then queue an acknowledge packet for the 10,
or come back after 1000 ticks when the outbound queue is full. -/
def lpt_svc (fuel : Nat) (s : Dte) : Option Dte :=
  if s.lpt_attached = false then some s
  else
    match lptDrain fuel s with
    | none => none
    | some s1 =>
      if (dte_queue s1 PRI_EMACK PRI_EMLPT 1 [0]).1 = 0 then
        some { (dte_queue s1 PRI_EMACK PRI_EMLPT 1 [0]).2 with
                 sched := (dte_queue s1 PRI_EMACK PRI_EMLPT 1 [0]).2.sched ++ [(3, 1000)],
                 lpt_active := true }
      else some (dte_queue s1 PRI_EMACK PRI_EMLPT 1 [0]).2

/-! ## Clock service: `dtertc_srv` -/

/-- The clock part of `dtertc_srv`, "Check if clock requested": count the
tick, then count down the wait or, when it is zero, set the timer flag,
ring the TO10 doorbell and raise the interrupt.  `FMASK` is a constant of
`kx10_defs.h` and a parameter here. -/
def rtcClock (FMASK : Nat) (s : Dte) : Dte :=
  if s.STATUS2 &&& SEC_CLK ≠ 0 then
    let s1 : Dte := { s with rtc_tick := (s.rtc_tick + 1) % 65536 }
    if s1.rtc_wait ≠ 0 then { s1 with rtc_wait := u16 ((s1.rtc_wait : Int) - 1) }
    else
      let base := if s1.KI_22BIT then s1.eb_ptr else 0
      let s2 := setM s1 (SEC_DTCLK + base) FMASK
      let s3 : Dte := { s2 with STATUS := s2.STATUS ||| DTE_10DB }
      { s3 with irq := some s3.STATUS }
  else s

/-- The ITS part of `dtertc_srv`, "Check if Timesharing is running". -/
def rtcIts (FMASK : Nat) (s : Dte) : Dte :=
  let word := ((s.M ITS_DTECHK + 1) % 18446744073709551616) &&& FMASK
  if word = 0 then setM { s with STATUS := s.STATUS ||| ITS_ON } ITS_DTECHK word
  else if word ≥ 15 * 60 then
    setM { s with STATUS := clearBits s.STATUS ITS_ON } ITS_DTECHK (15 * 60)
  else setM s ITS_DTECHK word

/-- The keep alive part of `dtertc_srv`: unless unit 0 is in secondary
protocol, increment the keep alive word.  `FMASK` and `RMASK` are constants
of `kx10_defs.h` and parameters here. -/
def rtcKeepAlive (FMASK RMASK : Nat) (s : Dte) : Dte :=
  if s.STATUS &&& DTE_SEC = 0 then
    let addr := 0o144 + s.eb_ptr
    let addr1 :=
      ((s.M (addr + 1) + s.dte_off + PRI_CMTW_KAC) % 18446744073709551616) &&& RMASK
    setM s addr1 (((s.M addr1 + 1) % 18446744073709551616) &&& FMASK)
  else s

/-- The first statement of `dtertc_srv`,
`sim_activate_after(uptr, 1000000/rtc_tps);`, for unit 2. -/
def rtcSchedule (s : Dte) : Dte :=
  { s with sched_after := s.sched_after ++ [(2, 1000000 / rtc_tps)] }

/-- The tick service `dtertc_srv` of unit 2: schedule the next tick, then
the clock part, then the ITS part when ITS paging is selected, and the keep
alive part otherwise. -/
def dtertc_srv (FMASK RMASK : Nat) (s : Dte) : Dte :=
  let s1 := rtcClock FMASK (rtcSchedule s)
  if QITS s1 then rtcIts FMASK s1 else rtcKeepAlive FMASK RMASK s1

/-! ## Reset: `dte_reset` -/

/-- The reset routine `dte_reset`: units 0 and 1 go to secondary protocol,
unit 2 is cleared, the clock is initialised and units 1 and 2 are scheduled
after 100 ticks. -/
def dte_reset (s : Dte) : Dte :=
  { s with STATUS := DTE_SEC, STATUS1 := DTE_SEC, CHHOLD1 := 0, STATUS2 := 0,
           rtc_inits := s.rtc_inits + 1,
           sched := s.sched ++ [(1, 100), (2, 100)] }

/-- One call `dte_queue(uptr, f, d, n, w)` for a packet `(f, d, w)` whose
payload `w` has `n` words. -/
def queueCall (s : Dte) (p : Nat × Nat × List Nat) : Nat × Dte :=
  dte_queue s p.1 p.2.1 p.2.2.length p.2.2

/-- The state after consecutive calls of `dte_queue`, one per packet. -/
def runQueue (ps : List (Nat × Nat × List Nat)) (s : Dte) : Dte :=
  ps.foldl (fun t p => (queueCall t p).2) s

/-- Successive transmit activations: before each one the 10 records a byte
count with DATAO, then `dte_transfer` runs. -/
def runTransfers (fuel : Nat) : List Nat → Dte → Option Dte
  | [], s => some s
  | c :: cs, s =>
    match dte_transfer fuel (dte_devio_DATAO s c) with
    | none => none
    | some s1 => runTransfers fuel cs s1

/-! ## Abstraction of the outbound queue -/

/-- The slot `pk` holds the packet `(f, d, w)` as `dte_queue` builds it. -/
def SlotHolds (pk : Packet) (p : Nat × Nat × List Nat) : Prop :=
  pk.func = p.1 ∧ pk.dev = p.2.1 ∧ pk.spare = 0 ∧
  (pk.cnt + pk.dcnt) % 65536 = 8 + 2 * p.2.2.length ∧
  (List.range p.2.2.length).map pk.data = p.2.2

/-- The outbound queue of `t` holds exactly the packets `ps`, oldest first. -/
def QueueHolds (t : Dte) (ps : List (Nat × Nat × List Nat)) : Prop :=
  t.dte_out_ptr < 32 ∧ ps.length ≤ 31 ∧
  t.dte_out_res = (t.dte_out_ptr + ps.length) % 32 ∧
  ∀ (i : Nat) (hi : i < ps.length), SlotHolds (t.dte_out ((t.dte_out_ptr + i) % 32)) ps[i]

/-- A packet `(f, d, w)` of 16-bit words that is sent as one direct frame:
the function code has bit 15 clear and the payload fits the data area. -/
def DirectPacket (p : Nat × Nat × List Nat) : Prop :=
  p.1 < 0o100000 ∧ p.2.1 < 65536 ∧ p.2.2.length ≤ 256 ∧ ∀ x ∈ p.2.2, x < 65536

/-! ## Failed accesses of a receive activation -/

/-- The mailbox status word of `s` is readable and lacks the
queued-protocol flag. -/
def lacksQP (s : Dte) : Prop :=
  ∃ W, s.exam (s.dte_et11_off + PRI_CMTW_STS) = some W ∧ W &&& PRI_CMT_QP = 0

/-- Some mailbox access made by the receive activation that leads from `s`
to `s'` failed: the read of the status word; or the read of the count word,
which is made when the status word has the indirect-pending flag and
`DTE_IND` is set; or one of the calls of `Mem_read_byte` made (those
numbered from `s.nrd` up to `s'.nrd`); or one of the calls of
`Mem_deposit_word` made (those numbered from `s.ndep` up to `s'.ndep`). -/
def accessFailed (IP : Nat) (s s' : Dte) : Prop :=
  s.exam (s.dte_et11_off + PRI_CMTW_STS) = none ∨
  (∃ W, s.exam (s.dte_et11_off + PRI_CMTW_STS) = some W ∧ W &&& IP ≠ 0 ∧
    s.STATUS &&& DTE_IND ≠ 0 ∧ s.exam (s.dte_et11_off + PRI_CMTW_CNT) = none) ∨
  (∃ k, s.nrd ≤ k ∧ k < s'.nrd ∧ s.rdIn k = none) ∨
  (∃ k, s.ndep ≤ k ∧ k < s'.ndep ∧ s.depOk k = false)

/-- Up to the state `a`, every read and deposit of the activation started in
`s` has succeeded, `DTE_11DN` is as in `s`, and `DTE_SEC` has been set if the
status word lacks the queued-protocol flag. -/
def CleanRun (s a : Dte) : Prop :=
  a.rdIn = s.rdIn ∧ a.depOk = s.depOk ∧ s.nrd ≤ a.nrd ∧ s.ndep ≤ a.ndep ∧
  (∀ k, s.nrd ≤ k → k < a.nrd → s.rdIn k ≠ none) ∧
  (∀ k, s.ndep ≤ k → k < a.ndep → s.depOk k = true) ∧
  a.STATUS &&& DTE_11DN = s.STATUS &&& DTE_11DN ∧
  (lacksQP s → a.STATUS &&& DTE_SEC ≠ 0)

/-- The activation started in `s` ends in `s'` either through the label
`error`, or with every read and deposit it made successful. -/
def Outcome (s s' : Dte) : Prop :=
  (s'.STATUS &&& DTE_SEC ≠ 0 ∧ s'.STATUS &&& DTE_11DN = s.STATUS &&& DTE_11DN) ∨
  ((∀ k, s.nrd ≤ k → k < s'.nrd → s.rdIn k ≠ none) ∧
   (∀ k, s.ndep ≤ k → k < s'.ndep → s.depOk k = true) ∧
   (lacksQP s → s'.STATUS &&& DTE_SEC ≠ 0))

/-- The activation started in `s` ends in `s'` either through the label
`error`, or without any failed access. -/
def Settled (IP : Nat) (s s' : Dte) : Prop :=
  (s'.STATUS &&& DTE_SEC ≠ 0 ∧ s'.STATUS &&& DTE_11DN = s.STATUS &&& DTE_11DN) ∨
  (¬ accessFailed IP s s' ∧ (lacksQP s → s'.STATUS &&& DTE_SEC ≠ 0))

/-! ## Dispatch of a printer packet: invariants -/

/-- Thirty-three packets of one data word each. -/
def c3Calls : List (Nat × Nat × List Nat) := List.replicate 33 (PRI_EMLNC, PRI_EMCTY, [0o101])


/-- An idle engine whose recorded byte count lets the 10 accept 10 bytes. -/
def c1State : Dte := { CNT := 0o7766 }

/-- Two packets of one data word each: console input and an acknowledge. -/
def c2Packets : List (Nat × Nat × List Nat) := [(0o4, 0o1, [0x6869]), (0o17, 0o1, [0])]

/-- Two DATAO words, each letting the 10 accept 10 bytes. -/
def c2Counts : List Nat := [0o7766, 0o7766]

/-- One packet whose function code has bit 15 set. -/
def c2BadPackets : List (Nat × Nat × List Nat) := [(0o100000, 0o1, [5])]

/-- An empty outbound queue with `DTE_SIND` still set, as the priming
command leaves it when it resets the cursors during an indirect send. -/
def c2SindState : Dte := { STATUS := DTE_SIND }

/-- The head packet has length field 1000 - 990 = 10 and data count 990, so a
total length of 1000; the recorded byte count lets the 10 accept 100 bytes. -/
def c4State : Dte :=
  { CNT := 0o7634, dte_out_res := 1,
    dte_out := fun _ => { cnt := 10, func := 0o3, dev := 0o5, dcnt := 990 } }

/-- The state after `dte_queue(uptr, PRI_EMLNC, PRI_EMCTY, 0, data)` on the
initial state, with a recorded byte count that lets the 10 accept 100 bytes:
the head packet has length field 10 and data count 65534. -/
def c4BadState : Dte := { (queueCall {} (0o4, 0o1, [])).2 with CNT := 0o7634 }

/-- One packet of two data words. -/
def c5Packets : List (Nat × Nat × List Nat) := [(0o4, 0o1, [0x4142, 0x4344])]

/-- The data area `old` after the words `xs` have been stored from index `i`
on, each truncated to 16 bits. -/
def fillData (old : Nat → Nat) (i : Nat) (xs : List Nat) : Nat → Nat :=
  fun k => if i ≤ k ∧ k < i + xs.length then xs.getD (k - i) 0 % 65536 else old k

/-- The state after the frame `L, f, d, sp, xs` has been read into the slot
at the inbound tail. -/
def afterFrame (s : Dte) (L f d sp : Nat) (xs : List Nat) : Dte :=
  { s with nrd := s.nrd + 4 + xs.length,
           dte_in := Function.update s.dte_in s.dte_in_ptr
             { s.dte_in s.dte_in_ptr with
                 dptr := 0, cnt := L, func := f, dev := d, spare := sp,
                 data := fillData (s.dte_in s.dte_in_ptr).data 0 xs } }

/-- The last word successfully deposited at offset `off`, if any: the value
of that mailbox word when the activation returns. -/
def depositedAt (deps : List (Nat × Nat)) (off : Nat) : Option Nat :=
  ((deps.filter fun e => e.1 = off).getLast?).map Prod.snd

/-- The doorbell is rung, the status word at offset 17 + 2 carries the
queued-protocol flag, and the 10 sends the direct frame 10, 4, 1, 0, 0x6869. -/
def c7State : Dte :=
  { STATUS := DTE_11DB, dte_dt10_off := 16, dte_et11_off := 17,
    exam := fun off => if off = 19 then some PRI_CMT_QP else none,
    rdIn := fun k => [10, 0o4, 0o1, 0, 0x6869][k]? }

/-- As `c7State`, but the frame 10, 0100003, 5, 0, 4 declares an indirect
continuation of length 4. -/
def c8State : Dte :=
  { STATUS := DTE_11DB, dte_dt10_off := 16, dte_et11_off := 17,
    exam := fun off => if off = 19 then some PRI_CMT_QP else none,
    rdIn := fun k => [10, 0o100003, 0o5, 0, 4][k]? }

/-- The doorbell is rung while the inbound queue holds 31 packets. -/
def c11State : Dte := { STATUS := DTE_11DB, dte_in_ptr := 31, dte_in_cmd := 0 }

/-- Secondary mode with the command "output character 0101" and a full
console output channel. -/
def c13State : Dte :=
  { STATUS := DTE_SEC ||| DTE_11DB,
    M := fun a => if a = 0o451 then 0o4101 else 0,
    cty_out := { in_ptr := 5, out_ptr := 6 } }

/-- Secondary mode with the command "read switch register". -/
def c14State : Dte :=
  { STATUS := DTE_SEC ||| DTE_11DB, SW := 0o1234,
    M := fun a => if a = 0o451 then 0o1400 else 0 }

/-- Secondary mode with the priming command; the word at offset 0 names
processor 3 and offset 0100; the queue cursors are not zero. -/
def c15State : Dte :=
  { STATUS := DTE_SEC ||| DTE_11DB, STATUS1 := DTE_SEC,
    M := fun a => if a = 0o451 then 0o5000 else 0,
    exam := fun off => if off = 0 then some 50331712 else none,
    dte_in_ptr := 7, dte_in_cmd := 3, dte_out_ptr := 30, dte_out_res := 2 }

/-- As `c15State`, after other queue activity. -/
def c15Later : Dte :=
  { c15State with dte_in_ptr := 1, dte_in_cmd := 1, dte_out_ptr := 4, dte_out_res := 9 }

/-- One packet of total length 10 waits in the outbound queue; the status
word has the queued-protocol flag, the indirect-pending flag and a
messages-sent field of 255. -/
def c17State : Dte :=
  { dte_dt10_off := 16, dte_et11_off := 17, dte_out_res := 1,
    dte_out := fun _ => { cnt := 10, func := 0o4, dev := 0o1 },
    exam := fun off =>
      if off = 19 then some (PRI_CMT_QP ||| 0o400000 ||| 0o177400) else none }

/-- As `c17State`, with the TO10 doorbell already rung. -/
def c18State : Dte := { c17State with STATUS := DTE_10DB }

/-- As `c17State`, but the status word cannot be read and the interrupt is
enabled on channel 3. -/
def c19State : Dte := { c17State with STATUS := DTE_PIE ||| 3, exam := fun _ => none }

/-- The doorbell is rung and the status word carries the queued-protocol
flag, but the 10 offers only the two words 10, 4: the third read fails. -/
def c20State : Dte :=
  { STATUS := DTE_11DB, dte_dt10_off := 16, dte_et11_off := 17,
    exam := fun off => if off = 19 then some PRI_CMT_QP else none,
    rdIn := fun k => [10, 0o4][k]? }

/-- A flush-output packet for the combined lines whose secondary device
code selects no line (line byte 0, so `ln = -1`), with 16 lines configured;
the cell before `tty_out[0]` holds the cursors 5 and 3. -/
def c26State : Dte :=
  { dte_in_ptr := 1,
    dte_in := fun j =>
      if j = 0 then { func := PRI_EMFLO, dev := PRI_EMDLS, sdev := 0 } else {},
    tty_lines := 16,
    tty_out := fun ln => if ln = -1 then { in_ptr := 5, out_ptr := 3 } else {} }

/-- An XOFF packet for the combined lines that selects line 254 while 16
lines are configured; the cell `tty_ldsc[254].rcve` holds 1. -/
def c26XoffState : Dte :=
  { dte_in_ptr := 1,
    dte_in := fun j =>
      if j = 0 then { func := PRI_EMXOF, dev := PRI_EMDLS, sdev := 0xff00 } else {},
    tty_lines := 16,
    tty_rcve := fun ln => if ln = 254 then 1 else 0 }

/-- A printer channel that holds the one byte 0x41. -/
def c30State : Dte :=
  { lpt_queue := { in_ptr := 1, out_ptr := 0, buff := fun i => if i = 0 then 0x41 else 0 } }

/-- A packet with the function code 032, which no case of the dispatcher
names, at the head of the inbound queue. -/
def c25State : Dte :=
  { dte_in_ptr := 1, dte_in := fun j => if j = 0 then { func := 0o32, cnt := 10 } else {} }

/-- Secondary mode, clock armed, wait countdown zero. -/
def c27State : Dte := { STATUS := DTE_SEC, STATUS2 := SEC_CLK, rtc_wait := 0 }

/-- Primary mode, clock armed, wait countdown 3. -/
def c27Primary : Dte := { STATUS := 0, STATUS2 := SEC_CLK, rtc_wait := 3 }

/-- Primary mode; the pointer word at 0145 holds 01000, `dte_off` is 10, and
the keep alive word at 01017 holds all ones. -/
def c28State : Dte :=
  { STATUS := 0, dte_off := 10,
    M := fun a => if a = 0o145 then 0o1000 else if a = 0o1017 then 0o777777777777 else 0 }

/-- Up to the state `a`, every write of the transmit activation started in
`s` has succeeded and nothing but the clearing of `DTE_TO11` and of the
interrupt line has happened to the status, the head cursor and the length
of the head packet. -/
def SendClean (s a : Dte) : Prop :=
  a.wrOk = s.wrOk ∧ s.nwr ≤ a.nwr ∧
  (∀ k, s.nwr ≤ k → k < a.nwr → s.wrOk k = true) ∧
  a.dte_out_ptr = s.dte_out_ptr ∧
  (a.dte_out s.dte_out_ptr).cnt = (s.dte_out s.dte_out_ptr).cnt ∧
  a.STATUS = clearBits s.STATUS DTE_TO11 ∧ a.irq = none

/-- The transmit activation started in `s` has ended in `t` without
completing: the head cursor and the length of the head packet are
unchanged, the status has lost `DTE_TO11` only, and no interrupt is up. -/
def Absorbed (s t : Dte) : Prop :=
  t.dte_out_ptr = s.dte_out_ptr ∧
  (t.dte_out s.dte_out_ptr).cnt = (s.dte_out s.dte_out_ptr).cnt ∧
  t.STATUS = clearBits s.STATUS DTE_TO11 ∧ t.irq = none

/-- Every call of `Mem_write_byte` made between `s` and `t` succeeded. -/
def NoFailedWrite (s t : Dte) : Prop :=
  ∀ k, s.nwr ≤ k → k < t.nwr → s.wrOk k = true

/-- A packet of one data word is queued, the 10 accepts ten bytes, and the
third write to the 10 fails. -/
def c21State : Dte :=
  (queueCall { CNT := 0o7766, wrOk := fun k => decide (k ≠ 2) } (0o4, 0o1, [0x6869])).2

/-- The doorbell is rung and the status word has the queued-protocol and
indirect-pending flags, but no indirect transfer is expected. -/
def c22State : Dte :=
  { STATUS := DTE_11DB ||| DTE_PIE, dte_et11_off := 17,
    exam := fun off => if off = 19 then some (PRI_CMT_QP ||| 0o400000) else none,
    dte_in_ptr := 3, dte_in_cmd := 1 }

/-- ToElevenDone and SecondaryMode set, PI channel 3. -/
def c23State : Dte := { STATUS := DTE_11DN ||| DTE_SEC ||| 0o3 }

/-- DoorbellToTen set, interrupts not enabled. -/
def c24State : Dte := { STATUS := DTE_10DB }

/-! ## Secondary commands, stale counts, input batching, services: states -/

/-- Secondary mode with interrupt channel 2 and the command monitor-mode-on
in the command word. -/
def c39State : Dte :=
  { STATUS := DTE_SEC ||| DTE_11DB ||| 0o2, M := fun a => if a = 0o451 then SEC_MONON else 0 }

/-- Secondary mode with interrupt channel 3 and the command clear-DDT in the
command word. -/
def c39Clear : Dte :=
  { STATUS := DTE_SEC ||| DTE_11DB ||| 0o3, M := fun a => if a = 0o451 then SEC_CLRDDT else 0 }

/-- Secondary mode, the command SEC_RTM with the character 0101 in the
command word, an empty console output channel. -/
def c38State : Dte :=
  { STATUS := DTE_SEC ||| DTE_11DB, KL_ITS := false,
    M := fun a => if a = 0o451 then 0o5501 else 0 }

/-- Secondary mode, the priming command in the command word, a mailbox whose
word 0 cannot be read, and cursors and offsets left by earlier activity. -/
def c40State : Dte :=
  { STATUS := DTE_SEC ||| DTE_11DB, STATUS1 := DTE_SEC,
    M := fun a => if a = 0o451 then 0o5000 else 0,
    exam := fun _ => none,
    dte_in_ptr := 7, dte_in_cmd := 3, dte_out_ptr := 30, dte_out_res := 2,
    dte_proc_num := 1, dte_base := 2, dte_off := 12, dte_dt10_off := 16,
    dte_et10_off := 32, dte_et11_off := 18 }

/-- The doorbell is rung, the status word carries the queued-protocol flag,
and the 10 sends the direct string-data frame 12, PRI_EMSTR, PRI_EMLPT, 0,
0x4142, 0x4344 for the printer; the inbound slot 0 has never been used. -/
def c35Fresh : Dte :=
  { STATUS := DTE_11DB, dte_dt10_off := 16, dte_et11_off := 17,
    exam := fun off => if off = 19 then some PRI_CMT_QP else none,
    rdIn := fun k => [12, PRI_EMSTR, PRI_EMLPT, 0, 0x4142, 0x4344][k]? }

/-- As `c35Fresh`, but an earlier packet has left the data count 3 in the
inbound slot 0. -/
def c35Stale : Dte :=
  { c35Fresh with dte_in := fun j => if j = 0 then { dcnt := 3 } else {} }

/-- Transmit of an indirect continuation: the head packet has the data
count 2, and the 10 has recorded the byte count -3, so that 3 bytes are
accepted. -/
def c36State : Dte :=
  { STATUS := DTE_SIND, CNT := 0o7775, dte_out_res := 1,
    dte_out := fun _ => { cnt := 10, func := 0o100004, dev := 0o1, dcnt := 2 } }

/-- The words of a direct frame of length 522: the header 522, PRI_EMSTR,
PRI_EMLPT, 0 and 257 data words 0x4142. -/
def c37Frame : List Nat := 522 :: PRI_EMSTR :: PRI_EMLPT :: 0 :: List.replicate 257 0x4142

/-- The doorbell is rung, the status word carries the queued-protocol flag,
and the 10 sends the frame `c37Frame`. -/
def c37State : Dte :=
  { STATUS := DTE_11DB, dte_dt10_off := 16, dte_et11_off := 17,
    exam := fun off => if off = 19 then some PRI_CMT_QP else none,
    rdIn := fun k => c37Frame[k]? }

/-- The state `s` with the remove pointer of the console input channel set
to `o`. -/
def withOut (s : Dte) (o : Nat) : Dte := { s with cty_in := { s.cty_in with out_ptr := o } }

/-- The number of bytes that the console input channel holds. -/
def ctyInHeld (s : Dte) : Nat := (s.cty_in.in_ptr + 256 - s.cty_in.out_ptr) % 256

/-- The words that `dte_input` collects from the console input channel of
`s` when it takes `n` bytes: the bytes from the remove pointer on, each
converted from `char` to `uint16`. -/
def inputWords (s : Dte) (n : Nat) : List Nat :=
  (List.range n).map fun i => charWord s (s.cty_in.buff ((s.cty_in.out_ptr + i) % 256))

/-- Three bytes 0x68, 0x69, 0x0d wait in the console input channel. -/
def c31State : Dte :=
  { cty_in := { in_ptr := 3, out_ptr := 0, buff := fun i => [0x68, 0x69, 0x0d].getD i 0 } }


/-- One terminal line whose input channel is full (insert pointer 4, remove
pointer 5, the oldest unread byte 0x41 at index 5) and whose output channel
is empty; the line has received the bytes 0x58 and 0x59. -/
def c33State : Dte :=
  { tty_lines := 1,
    tty_in := fun ln =>
      if ln = 0 then { in_ptr := 4, out_ptr := 5, buff := fun i => if i = 5 then 0x41 else 0x40 }
      else {},
    tty_rx := fun ln => if ln = 0 then [0x58, 0x59] else [] }

/-- A primed link (secondary mode clear in units 0 and 1) with the doorbell
rung and a mailbox that cannot be read; one printer packet with the byte
0x41 waits in the inbound queue and the byte 0x68 waits in the console input
channel. -/
def c32State : Dte :=
  { STATUS := DTE_11DB, STATUS1 := 0, exam := fun _ => none,
    dte_in_ptr := 1, dte_in_cmd := 0,
    dte_in := fun j =>
      if j = 0 then
        { func := PRI_EMSTR, dev := PRI_EMLPT, cnt := 11, dcnt := 1,
          data := fun i => [0x4100].getD i 0 }
      else {},
    cty_in := { in_ptr := 1, out_ptr := 0, buff := fun i => if i = 0 then 0x68 else 0 } }

/-- The state `c32State` after the receive path has fallen back to secondary
mode. -/
def c32Fallen : Dte := { c32State with STATUS := DTE_SEC, irq := none }

/-! ## Reachable states -/

/-- The four packet-queue cursors lie in 0..31 and the insert and remove
pointers of the console input, console output and printer channels lie in
0..255. -/
def CursorsInRange (s : Dte) : Prop :=
  s.dte_in_ptr < 32 ∧ s.dte_in_cmd < 32 ∧ s.dte_out_ptr < 32 ∧ s.dte_out_res < 32 ∧
  s.cty_in.in_ptr < 256 ∧ s.cty_in.out_ptr < 256 ∧
  s.cty_out.in_ptr < 256 ∧ s.cty_out.out_ptr < 256 ∧
  s.lpt_queue.in_ptr < 256 ∧ s.lpt_queue.out_ptr < 256

/-- From `u` to `t` each packet-queue cursor is unchanged or lies in 0..31,
and each pointer of the console and printer channels is unchanged or lies
in 0..255. -/
def Moves (u t : Dte) : Prop :=
  (t.dte_in_ptr = u.dte_in_ptr ∨ t.dte_in_ptr < 32) ∧
  (t.dte_in_cmd = u.dte_in_cmd ∨ t.dte_in_cmd < 32) ∧
  (t.dte_out_ptr = u.dte_out_ptr ∨ t.dte_out_ptr < 32) ∧
  (t.dte_out_res = u.dte_out_res ∨ t.dte_out_res < 32) ∧
  (t.cty_in.in_ptr = u.cty_in.in_ptr ∨ t.cty_in.in_ptr < 256) ∧
  (t.cty_in.out_ptr = u.cty_in.out_ptr ∨ t.cty_in.out_ptr < 256) ∧
  (t.cty_out.in_ptr = u.cty_out.in_ptr ∨ t.cty_out.in_ptr < 256) ∧
  (t.cty_out.out_ptr = u.cty_out.out_ptr ∨ t.cty_out.out_ptr < 256) ∧
  (t.lpt_queue.in_ptr = u.lpt_queue.in_ptr ∨ t.lpt_queue.in_ptr < 256) ∧
  (t.lpt_queue.out_ptr = u.lpt_queue.out_ptr ∨ t.lpt_queue.out_ptr < 256)

/-- The operations on the engine: the register operations of `dte_devio`,
the reset, the activations of the engine and of the services that move the
console and printer channels, and the actions of the environment (the 10
writes memory and the mailbox, a key is typed). -/
inductive Op where
  | coni
  | cono (data : Nat)
  | datai
  | datao (data : Nat)
  | reset
  | second
  | primary
  | function (fuel : Nat)
  | transfer (fuel : Nat)
  | input
  | queue (func dev dcnt : Nat) (data : List Nat)
  | start
  | rtc
  | inputService (fuel : Nat)
  | printer (fuel : Nat)
  | ten (M : Nat → Nat) (exam rdIn : Nat → Option Nat) (wrOk depOk : Nat → Bool)
  | key (k : Nat)

/-- The effect of one operation; `none` when an activation does not return
within its fuel.  `FMASK`, `SMASK`, `RMASK` and `PRI_CMT_IP` are constants of
`kx10_defs.h`. -/
def applyOp (FMASK SMASK RMASK PRI_CMT_IP : Nat) : Op → Dte → Option Dte
  | Op.coni, s => some s
  | Op.cono data, s => some (dte_devio_CONO RMASK s data)
  | Op.datai, s => some s
  | Op.datao data, s => some (dte_devio_DATAO s data)
  | Op.reset, s => some (dte_reset s)
  | Op.second, s => some (dte_second FMASK (dte_its FMASK SMASK) s)
  | Op.primary, s => some (dte_primary PRI_CMT_IP s)
  | Op.function fuel, s => dte_function fuel s
  | Op.transfer fuel, s => dte_transfer fuel s
  | Op.input, s => some (dte_input s)
  | Op.queue func dev dcnt data, s => some (dte_queue s func dev dcnt data).2
  | Op.start, s => some (dte_start PRI_CMT_IP s).2
  | Op.rtc, s => some (dtertc_srv FMASK RMASK s)
  | Op.inputService fuel, s => dtei_svc FMASK SMASK PRI_CMT_IP fuel s
  | Op.printer fuel, s => lpt_svc fuel s
  | Op.ten M exam rdIn wrOk depOk, s =>
    some { s with M := M, exam := exam, rdIn := rdIn, wrOk := wrOk, depOk := depOk }
  | Op.key k, s => some { s with kbd := s.kbd ++ [k] }

/-- A sequence of operations, oldest first. -/
def runOps (FMASK SMASK RMASK PRI_CMT_IP : Nat) : List Op → Dte → Option Dte
  | [], s => some s
  | op :: ops, s =>
    match applyOp FMASK SMASK RMASK PRI_CMT_IP op s with
    | none => none
    | some s1 => runOps FMASK SMASK RMASK PRI_CMT_IP ops s1

/-! ## The receive loop on the memory of the program -/

theorem and_31 (x : Nat) : x &&& 0x1f = x % 32 :=
  Nat.and_pow_two_sub_one_eq_mod x 5

theorem sub2_of_ge {c : Nat} (h2 : 2 ≤ c) (h : c < 65536) : sub2 c = c - 2 := by
  unfold sub2 u16
  omega

theorem u16_dcnt {n : Nat} (h1 : 1 ≤ n) (h : n ≤ 256) :
    u16 (((n : Int) - 1) * 2) = 2 * n - 2 := by
  unfold u16
  omega

theorem and_bit15_of_lt {f : Nat} (hf : f < 0o100000) : f &&& 0o100000 = 0 := by
  apply Nat.eq_of_testBit_eq
  intro i
  have h15 : (0o100000 : Nat) = 2 ^ 15 := by norm_num
  rw [Nat.testBit_and, h15, Nat.testBit_two_pow, Nat.zero_testBit]
  by_cases hi : 15 = i
  · subst hi
    have : f.testBit 15 = false := Nat.testBit_lt_two_pow (by omega)
    simp [this]
  · simp [hi]

theorem or_and_self (x m : Nat) : (x ||| m) &&& m = m := by
  apply Nat.eq_of_testBit_eq
  intro i
  rw [Nat.testBit_and, Nat.testBit_or]
  cases x.testBit i <;> cases m.testBit i <;> rfl

theorem clearBits_and_self (x m : Nat) : clearBits x m &&& m = 0 := by
  apply Nat.eq_of_testBit_eq
  intro i
  rw [clearBits, Nat.testBit_and, Nat.testBit_xor, Nat.testBit_and, Nat.zero_testBit]
  cases x.testBit i <;> cases m.testBit i <;> rfl

theorem or_and_disjoint (x : Nat) {m k : Nat} (h : m &&& k = 0) :
    (x ||| m) &&& k = x &&& k := by
  apply Nat.eq_of_testBit_eq
  intro i
  have hi : (m &&& k).testBit i = false := by rw [h, Nat.zero_testBit]
  rw [Nat.testBit_and] at hi
  rw [Nat.testBit_and, Nat.testBit_or, Nat.testBit_and]
  revert hi
  cases x.testBit i <;> cases m.testBit i <;> cases k.testBit i <;> simp

theorem clearBits_and_disjoint (x : Nat) {m k : Nat} (h : m &&& k = 0) :
    clearBits x m &&& k = x &&& k := by
  apply Nat.eq_of_testBit_eq
  intro i
  have hi : (m &&& k).testBit i = false := by rw [h, Nat.zero_testBit]
  rw [Nat.testBit_and] at hi
  rw [clearBits, Nat.testBit_and, Nat.testBit_xor, Nat.testBit_and, Nat.testBit_and]
  revert hi
  cases x.testBit i <;> cases m.testBit i <;> cases k.testBit i <;> simp

theorem update_at {α : Type} (g : Nat → α) {a b : Nat} (v : α) (h : a = b) :
    Function.update g a v b = v := by
  subst h
  exact Function.update_same _ _ _

/-! ## Enqueue: lemmas -/

theorem dte_queue_copy_apply (src : List Nat) :
    ∀ (n i : Nat) (dst : Nat → Nat) (j : Nat),
      dte_queue_copy src n i dst j =
        if i ≤ j ∧ j < i + n then src.getD j 0 % 65536 else dst j := by
  intro n
  induction n with
  | zero =>
    intro i dst j
    have h0 : ¬ (i ≤ j ∧ j < i + 0) := by omega
    rw [dte_queue_copy, if_neg h0]
  | succ n ih =>
    intro i dst j
    rw [dte_queue_copy, ih]
    by_cases h1 : i + 1 ≤ j ∧ j < i + 1 + n
    · have h2 : i ≤ j ∧ j < i + (n + 1) := by omega
      simp [h1, h2]
    · by_cases hij : j = i
      · subst hij
        simp
      · have h2 : ¬ (i ≤ j ∧ j < i + (n + 1)) := by omega
        simp [h1, h2, Function.update, hij]

theorem map_getD_range (w : List Nat) (hw : ∀ x ∈ w, x < 65536) :
    (List.range w.length).map (fun j => w.getD j 0 % 65536) = w := by
  apply List.ext_getElem
  · simp
  · intro i h1 h2
    simp only [List.getElem_map, List.getElem_range]
    rw [List.getD_eq_getElem w 0 h2]
    exact Nat.mod_eq_of_lt (hw _ (List.getElem_mem h2))

/-! ## Transmit path: lemmas -/

theorem sendDirect_ok (out : Packet) (n : Nat) :
    ∀ (fuel i : Nat) (s : Dte), n ≤ fuel → 2 * n < 65536 → (∀ k, s.wrOk k = true) →
      sendDirect out fuel (2 * n) i s =
        some (true, { s with nwr := s.nwr + n,
                             wlog := s.wlog ++ (List.range n).map (fun j => out.data (i + j)) }) := by
  induction n with
  | zero =>
    intro fuel i s _ _ _
    cases fuel <;> simp [sendDirect]
  | succ n ih =>
    intro fuel i s hfuel hlt hwr
    obtain ⟨fuel, rfl⟩ : ∃ m, fuel = m + 1 := ⟨fuel - 1, by omega⟩
    have hc : 2 * (n + 1) = (2 * n + 1) + 1 := by ring
    rw [hc, sendDirect]
    have hs : sub2 (2 * n + 1 + 1) = 2 * n := by
      rw [sub2_of_ge (by omega) (by omega)]
      omega
    simp only [Mem_write_byte, hwr, if_true, hs]
    rw [ih fuel (i + 1) _ (by omega) (by omega) (by intro k; exact hwr k)]
    simp only [List.range_succ_eq_map, List.map_cons, List.map_map, Option.some.injEq,
      Prod.mk.injEq, true_and]
    congr 1
    · omega
    · simp [Function.comp_def, Nat.add_assoc, Nat.add_comm 1]

theorem raiseIfEnabled_STATUS (s : Dte) : (raiseIfEnabled s).STATUS = s.STATUS := by
  unfold raiseIfEnabled
  split <;> rfl

theorem raiseIfEnabled_wlog (s : Dte) : (raiseIfEnabled s).wlog = s.wlog := by
  unfold raiseIfEnabled
  split <;> rfl

theorem raiseIfEnabled_nwr (s : Dte) : (raiseIfEnabled s).nwr = s.nwr := by
  unfold raiseIfEnabled
  split <;> rfl

theorem raiseIfEnabled_dte_out (s : Dte) : (raiseIfEnabled s).dte_out = s.dte_out := by
  unfold raiseIfEnabled
  split <;> rfl

theorem raiseIfEnabled_dte_out_ptr (s : Dte) :
    (raiseIfEnabled s).dte_out_ptr = s.dte_out_ptr := by
  unfold raiseIfEnabled
  split <;> rfl

theorem raiseIfEnabled_dte_out_res (s : Dte) :
    (raiseIfEnabled s).dte_out_res = s.dte_out_res := by
  unfold raiseIfEnabled
  split <;> rfl

/-- The state in which a direct send of `n` data words of the head packet
leaves the engine, when the packet fits and every write succeeds. -/
theorem dte_transfer_direct (t : Dte) (n fuel : Nat)
    (hne : t.dte_out_res ≠ t.dte_out_ptr)
    (hsind : t.STATUS &&& DTE_SIND = 0)
    (hfunc : (t.dte_out t.dte_out_ptr).func &&& 0o100000 = 0)
    (htot : ((t.dte_out t.dte_out_ptr).cnt + (t.dte_out t.dte_out_ptr).dcnt) % 65536
      = 8 + 2 * n)
    (hacc : 8 + 2 * n ≤ acceptedCount t.CNT)
    (hwr : ∀ k, t.wrOk k = true)
    (hfuel : n ≤ fuel) :
    dte_transfer fuel t =
      some (transferDone (transferAdvance
        { t with STATUS := clearBits t.STATUS DTE_TO11, irq := none,
                 nwr := t.nwr + 4 + n,
                 wlog := t.wlog ++ ([8 + 2 * n, (t.dte_out t.dte_out_ptr).func,
                            (t.dte_out t.dte_out_ptr).dev, (t.dte_out t.dte_out_ptr).spare]
                          ++ (List.range n).map (t.dte_out t.dte_out_ptr).data) })) := by
  have hs : clearBits t.STATUS DTE_TO11 &&& DTE_SIND = 0 := by
    rw [clearBits_and_disjoint _ (by decide)]
    exact hsind
  have hn : 8 + 2 * n < 65536 := by
    rw [← htot]
    exact Nat.mod_lt _ (by norm_num)
  have hgt : ¬ (8 + 2 * n > acceptedCount t.CNT) := by omega
  have hsub : sub2 (sub2 (sub2 (sub2 (8 + 2 * n)))) = 2 * n := by
    unfold sub2 u16
    omega
  have hupd : Function.update t.dte_out t.dte_out_ptr
      { t.dte_out t.dte_out_ptr with func := (t.dte_out t.dte_out_ptr).func } = t.dte_out :=
    Function.update_eq_self _ _
  unfold dte_transfer
  rw [if_neg hne]
  simp only [hs, ne_eq, not_true_eq_false, if_false, htot, hgt, hfunc, writeThen,
    Mem_write_byte, hwr, if_true, hsub, hupd]
  rw [sendDirect_ok _ n fuel 0 _ hfuel (by omega) (by intro k; exact hwr k)]
  simp only [List.append_assoc, List.singleton_append, List.cons_append, List.nil_append,
    Nat.zero_add]

theorem dte_queue_not_full (s : Dte) (func dev dcnt : Nat) (data : List Nat)
    (h : (s.dte_out_res + 1) &&& 0x1f ≠ s.dte_out_ptr) :
    dte_queue s func dev dcnt data =
      (1, { s with
              dte_out := Function.update s.dte_out s.dte_out_res
                { s.dte_out s.dte_out_res with
                    cnt := 10, func := func % 65536, dev := dev % 65536,
                    dcnt := u16 (((dcnt : Int) - 1) * 2), spare := 0,
                    data := dte_queue_copy data dcnt 0 (s.dte_out s.dte_out_res).data },
              dte_out_res := (s.dte_out_res + 1) &&& 0x1f }) := by
  unfold dte_queue
  rw [if_neg h]

theorem map_queue_copy (w : List Nat) (hw : ∀ x ∈ w, x < 65536) (dst : Nat → Nat) :
    (List.range w.length).map (dte_queue_copy w w.length 0 dst) = w := by
  have h : (List.range w.length).map (dte_queue_copy w w.length 0 dst)
      = (List.range w.length).map (fun j => w.getD j 0 % 65536) := by
    apply List.map_congr_left
    intro j hj
    rw [List.mem_range] at hj
    rw [dte_queue_copy_apply, if_pos (by omega)]
  rw [h, map_getD_range w hw]

/-- C1: for every function code f < 0100000, device code d (a 16-bit word)
and list w of n 16-bit words, 1 <= n <= 256: Enqueue (dte_queue) on an empty
outbound queue succeeds, and one transmit activation (dte_transfer) with
SendIndirectNext clear, accepted byte count at least 8+2n and every mailbox
write succeeding returns (for every fuel of at least n loop iterations),
makes exactly 4+n writes, namely the words 8+2n, f, d, 0, w[0], ..., w[n-1]
in this order, advances the outbound head cursor by 1 (mod 32), resets the
length of the packet to zero and sets ToTenDone. -/
theorem C1_enqueue_then_transfer (s : Dte) (f d : Nat) (w : List Nat) (fuel : Nat)
    (hf : f < 0o100000) (hd : d < 65536) (hw : ∀ x ∈ w, x < 65536)
    (hn1 : 1 ≤ w.length) (hn2 : w.length ≤ 256)
    (hempty : s.dte_out_res = s.dte_out_ptr)
    (hsind : s.STATUS &&& DTE_SIND = 0)
    (hacc : 8 + 2 * w.length ≤ acceptedCount s.CNT)
    (hwr : ∀ k, s.wrOk k = true)
    (hfuel : w.length ≤ fuel) :
    (dte_queue s f d w.length w).1 = 1 ∧
    ∃ s', dte_transfer fuel (dte_queue s f d w.length w).2 = some s' ∧
      s'.wlog = s.wlog ++ ([8 + 2 * w.length, f, d, 0] ++ w) ∧
      s'.nwr = s.nwr + (4 + w.length) ∧
      s'.dte_out_ptr = (s.dte_out_ptr + 1) % 32 ∧
      (s'.dte_out s.dte_out_ptr).cnt = 0 ∧
      s'.STATUS &&& DTE_10DN ≠ 0 := by
  have hnf : (s.dte_out_res + 1) &&& 0x1f ≠ s.dte_out_ptr := by
    rw [and_31, hempty]
    omega
  rw [dte_queue_not_full s f d w.length w hnf]
  refine ⟨rfl, ?_⟩
  have hfm : f % 65536 = f := Nat.mod_eq_of_lt (by omega)
  have hdm : d % 65536 = d := Nat.mod_eq_of_lt hd
  have hdc : u16 (((w.length : Int) - 1) * 2) = 2 * w.length - 2 := u16_dcnt hn1 hn2
  rw [dte_transfer_direct _ w.length fuel]
  · refine ⟨_, rfl, ?_, ?_, ?_, ?_, ?_⟩
    · simp only [transferDone, transferAdvance, raiseIfEnabled_wlog,
        update_at _ _ hempty, hfm, hdm, map_queue_copy w hw]
    · simp only [transferDone, transferAdvance, raiseIfEnabled_nwr]
      omega
    · simp only [transferDone, transferAdvance, raiseIfEnabled_dte_out_ptr, hempty, and_31]
    · simp only [transferDone, transferAdvance, raiseIfEnabled_dte_out,
        Function.update_same]
    · simp only [transferDone, raiseIfEnabled_STATUS, or_and_self]
      decide
  · simpa using hnf
  · exact hsind
  · simp only [update_at _ _ hempty, hfm]
    exact and_bit15_of_lt hf
  · simp only [update_at _ _ hempty, hdc]
    omega
  · exact hacc
  · exact hwr
  · exact hfuel

/-- Witness of C1: PRI_EMLNC to the CTY with the one data word 0x6869 gives
the frame 10, 4, 1, 0, 0x6869. -/
theorem C1_witness :
    (dte_queue c1State PRI_EMLNC PRI_EMCTY 1 [0x6869]).1 = 1 ∧
    ∃ s', dte_transfer 1 (dte_queue c1State PRI_EMLNC PRI_EMCTY 1 [0x6869]).2 = some s' ∧
      s'.wlog = [10, 4, 1, 0, 0x6869] ∧
      s'.nwr = 5 ∧
      s'.dte_out_ptr = 1 ∧
      (s'.dte_out 0).cnt = 0 ∧
      s'.STATUS &&& DTE_10DN ≠ 0 :=
  C1_enqueue_then_transfer c1State PRI_EMLNC PRI_EMCTY [0x6869] 1 (by decide) (by decide)
    (by decide) (by decide) (by decide) rfl (by decide) (by decide) (fun _ => rfl) (by decide)

/-! ## Queue fullness -/

theorem queueCall_full (t : Dte) (p : Nat × Nat × List Nat)
    (h : (t.dte_out_res + 1) % 32 = t.dte_out_ptr) : queueCall t p = (0, t) := by
  unfold queueCall dte_queue
  rw [and_31, if_pos h]

theorem queueCall_not_full (t : Dte) (p : Nat × Nat × List Nat)
    (h : (t.dte_out_res + 1) % 32 ≠ t.dte_out_ptr) :
    (queueCall t p).1 = 1 ∧ (queueCall t p).2.dte_out_ptr = t.dte_out_ptr ∧
      (queueCall t p).2.dte_out_res = (t.dte_out_res + 1) % 32 := by
  unfold queueCall
  rw [dte_queue_not_full _ _ _ _ _ (by rw [and_31]; exact h)]
  exact ⟨rfl, rfl, and_31 _⟩

theorem runQueue_cons (p : Nat × Nat × List Nat) (ps : List (Nat × Nat × List Nat))
    (t : Dte) : runQueue (p :: ps) t = runQueue ps (queueCall t p).2 := rfl

theorem runQueue_cursors (ps : List (Nat × Nat × List Nat)) :
    ∀ (t : Dte) (j : Nat), t.dte_out_ptr < 32 → j ≤ 31 →
      t.dte_out_res = (t.dte_out_ptr + j) % 32 →
      (runQueue ps t).dte_out_ptr = t.dte_out_ptr ∧
      (runQueue ps t).dte_out_res = (t.dte_out_ptr + min (j + ps.length) 31) % 32 := by
  induction ps with
  | nil =>
    intro t j _ hj hres
    refine ⟨rfl, ?_⟩
    simp only [runQueue, List.foldl_nil, List.length_nil, Nat.add_zero, Nat.min_eq_left hj]
    exact hres
  | cons p ps ih =>
    intro t j hp hj hres
    rw [runQueue_cons]
    by_cases hfull : (t.dte_out_res + 1) % 32 = t.dte_out_ptr
    · rw [queueCall_full t p hfull]
      have hj31 : j = 31 := by omega
      obtain ⟨h1, h2⟩ := ih t j hp hj hres
      refine ⟨h1, ?_⟩
      rw [h2, hj31]
      simp only [List.length_cons]
      congr 2
      omega
    · obtain ⟨_, h2, h3⟩ := queueCall_not_full t p hfull
      have hj30 : j < 31 := by omega
      obtain ⟨h4, h5⟩ := ih (queueCall t p).2 (j + 1) (by rw [h2]; exact hp) (by omega)
        (by rw [h3, h2, hres]; omega)
      refine ⟨by rw [h4, h2], ?_⟩
      rw [h5, h2]
      simp only [List.length_cons]
      congr 2
      omega

/-- C3: starting from an empty outbound queue, in every sequence of
consecutive Enqueue (dte_queue) calls with no intervening transmit (in
particular one of m >= 32 calls), each of the calls 1..31 returns success
and advances the outbound tail by one (mod 32), and each of the calls
32..m returns the queue-full signal 0 and leaves the whole state, so both
outbound cursors and every packet slot, unchanged.  Call i+1 is made in the
state `runQueue (ps.take i) s`. -/
theorem C3_queue_full_after_31 (s : Dte) (ps : List (Nat × Nat × List Nat))
    (hempty : s.dte_out_res = s.dte_out_ptr) (hptr : s.dte_out_ptr < 32) :
    ∀ (i : Nat) (hi : i < ps.length),
      (i < 31 →
        (queueCall (runQueue (ps.take i) s) ps[i]).1 = 1 ∧
        (queueCall (runQueue (ps.take i) s) ps[i]).2.dte_out_res
          = ((runQueue (ps.take i) s).dte_out_res + 1) % 32) ∧
      (31 ≤ i →
        queueCall (runQueue (ps.take i) s) ps[i] = (0, runQueue (ps.take i) s)) := by
  intro i hi
  obtain ⟨h1, h2⟩ := runQueue_cursors (ps.take i) s 0 hptr (by omega)
    (by rw [hempty, Nat.add_zero, Nat.mod_eq_of_lt hptr])
  rw [List.length_take, Nat.min_eq_left (Nat.le_of_lt hi), Nat.zero_add] at h2
  constructor
  · intro h31
    have hnf : ((runQueue (ps.take i) s).dte_out_res + 1) % 32
        ≠ (runQueue (ps.take i) s).dte_out_ptr := by
      rw [h1, h2, Nat.min_eq_left (by omega)]
      omega
    obtain ⟨h3, _, h5⟩ := queueCall_not_full _ ps[i] hnf
    exact ⟨h3, h5⟩
  · intro h31
    apply queueCall_full
    rw [h1, h2, Nat.min_eq_right h31]
    omega

/-- Witness of C3: of 33 calls on the empty queue of the initial state, the
31st returns 1 and the 32nd and the 33rd return 0 and change nothing. -/
theorem C3_witness :
    (queueCall (runQueue (c3Calls.take 30) {}) (PRI_EMLNC, PRI_EMCTY, [0o101])).1 = 1 ∧
    queueCall (runQueue (c3Calls.take 31) {}) (PRI_EMLNC, PRI_EMCTY, [0o101])
      = (0, runQueue (c3Calls.take 31) {}) ∧
    queueCall (runQueue (c3Calls.take 32) {}) (PRI_EMLNC, PRI_EMCTY, [0o101])
      = (0, runQueue (c3Calls.take 32) {}) :=
  ⟨((C3_queue_full_after_31 {} c3Calls rfl (by decide) 30 (by decide)).1 (by decide)).1,
   (C3_queue_full_after_31 {} c3Calls rfl (by decide) 31 (by decide)).2 (by decide),
   (C3_queue_full_after_31 {} c3Calls rfl (by decide) 32 (by decide)).2 (by decide)⟩

/-! ## FIFO order of the outbound queue -/

theorem slotHolds_new (pk : Packet) (p : Nat × Nat × List Nat) (hp : DirectPacket p) :
    SlotHolds
      { pk with cnt := 10, func := p.1 % 65536, dev := p.2.1 % 65536,
                dcnt := u16 (((p.2.2.length : Int) - 1) * 2), spare := 0,
                data := dte_queue_copy p.2.2 p.2.2.length 0 pk.data } p := by
  obtain ⟨hf, hd, hn, hw⟩ := hp
  refine ⟨Nat.mod_eq_of_lt (by omega), Nat.mod_eq_of_lt hd, rfl, ?_, map_queue_copy _ hw _⟩
  show (10 + u16 (((p.2.2.length : Int) - 1) * 2)) % 65536 = 8 + 2 * p.2.2.length
  unfold u16
  omega

theorem queueCall_holds (t : Dte) (qs : List (Nat × Nat × List Nat))
    (p : Nat × Nat × List Nat) (hq : QueueHolds t qs) (hlen : qs.length < 31)
    (hp : DirectPacket p) :
    (queueCall t p).1 = 1 ∧ QueueHolds (queueCall t p).2 (qs ++ [p]) ∧
      (queueCall t p).2.STATUS = t.STATUS ∧ (queueCall t p).2.wlog = t.wlog ∧
      (queueCall t p).2.wrOk = t.wrOk := by
  obtain ⟨hptr, _, hres, hslots⟩ := hq
  have hnf : (t.dte_out_res + 1) &&& 0x1f ≠ t.dte_out_ptr := by
    rw [and_31, hres]
    omega
  unfold queueCall
  rw [dte_queue_not_full _ _ _ _ _ hnf]
  refine ⟨rfl, ⟨hptr, ?_, ?_, ?_⟩, rfl, rfl, rfl⟩
  · rw [List.length_append, List.length_singleton]
    omega
  · show (t.dte_out_res + 1) &&& 0x1f = (t.dte_out_ptr + (qs ++ [p]).length) % 32
    rw [and_31, hres, List.length_append, List.length_singleton]
    omega
  · intro i hi
    rw [List.length_append, List.length_singleton] at hi
    show SlotHolds (Function.update t.dte_out t.dte_out_res _ ((t.dte_out_ptr + i) % 32)) _
    by_cases hiq : i < qs.length
    · rw [Function.update_noteq (by rw [hres]; omega), List.getElem_append_left hiq]
      exact hslots i hiq
    · have hi' : i = qs.length := by omega
      subst hi'
      rw [update_at _ _ hres, List.getElem_concat_length _ _ _ rfl]
      exact slotHolds_new _ p hp

theorem runQueue_holds (ps : List (Nat × Nat × List Nat)) :
    ∀ (t : Dte) (qs : List (Nat × Nat × List Nat)), QueueHolds t qs →
      qs.length + ps.length ≤ 31 → (∀ p ∈ ps, DirectPacket p) →
      QueueHolds (runQueue ps t) (qs ++ ps) ∧ (runQueue ps t).STATUS = t.STATUS ∧
        (runQueue ps t).wlog = t.wlog ∧ (runQueue ps t).wrOk = t.wrOk := by
  induction ps with
  | nil =>
    intro t qs hq _ _
    rw [List.append_nil]
    exact ⟨hq, rfl, rfl, rfl⟩
  | cons p ps ih =>
    intro t qs hq hlen hps
    rw [List.length_cons] at hlen
    obtain ⟨_, h2, h3, h4, h5⟩ :=
      queueCall_holds t qs p hq (by omega) (hps p (List.mem_cons_self _ _))
    obtain ⟨k1, k2, k3, k4⟩ := ih (queueCall t p).2 (qs ++ [p]) h2
      (by rw [List.length_append, List.length_singleton]; omega)
      (fun q hq => hps q (List.mem_cons_of_mem _ hq))
    rw [runQueue_cons]
    rw [List.append_assoc, List.singleton_append] at k1
    exact ⟨k1, k2.trans h3, k3.trans h4, k4.trans h5⟩

theorem raiseIfEnabled_wrOk (s : Dte) : (raiseIfEnabled s).wrOk = s.wrOk := by
  unfold raiseIfEnabled
  split <;> rfl

theorem transfer_holds (t : Dte) (p : Nat × Nat × List Nat)
    (ps : List (Nat × Nat × List Nat)) (c fuel : Nat)
    (hq : QueueHolds t (p :: ps)) (hf : p.1 < 0o100000)
    (hsind : t.STATUS &&& DTE_SIND = 0) (hwr : ∀ k, t.wrOk k = true)
    (hacc : 8 + 2 * p.2.2.length ≤ acceptedCount (c &&& (DTE_TO10IB ||| DTE_TO10BC)))
    (hfuel : p.2.2.length ≤ fuel) :
    ∃ t', dte_transfer fuel (dte_devio_DATAO t c) = some t' ∧ QueueHolds t' ps ∧
      t'.dte_out_ptr = (t.dte_out_ptr + 1) % 32 ∧
      t'.wlog = t.wlog ++ ([8 + 2 * p.2.2.length, p.1, p.2.1, 0] ++ p.2.2) ∧
      t'.STATUS &&& DTE_SIND = 0 ∧ t'.wrOk = t.wrOk := by
  obtain ⟨hptr, hlen, hres, hslots⟩ := hq
  rw [List.length_cons] at hlen hres
  have h0 := hslots 0 (by rw [List.length_cons]; omega)
  rw [List.getElem_cons_zero, Nat.add_zero, Nat.mod_eq_of_lt hptr] at h0
  obtain ⟨s1, s2, s3, s4, s5⟩ := h0
  have hne : (dte_devio_DATAO t c).dte_out_res ≠ (dte_devio_DATAO t c).dte_out_ptr := by
    show t.dte_out_res ≠ t.dte_out_ptr
    rw [hres]
    omega
  have hsind1 : (dte_devio_DATAO t c).STATUS &&& DTE_SIND = 0 := by
    show (t.STATUS ||| DTE_TO11) &&& DTE_SIND = 0
    rw [or_and_disjoint _ (by decide)]
    exact hsind
  have hfunc : ((dte_devio_DATAO t c).dte_out (dte_devio_DATAO t c).dte_out_ptr).func
      &&& 0o100000 = 0 := by
    show (t.dte_out t.dte_out_ptr).func &&& 0o100000 = 0
    rw [s1]
    exact and_bit15_of_lt hf
  rw [dte_transfer_direct (dte_devio_DATAO t c) p.2.2.length fuel hne hsind1 hfunc s4 hacc
    hwr hfuel]
  refine ⟨_, rfl, ⟨?_, ?_, ?_, ?_⟩, ?_, ?_, ?_, ?_⟩
  · simp only [transferDone, transferAdvance, raiseIfEnabled_dte_out_ptr, and_31,
      dte_devio_DATAO]
    exact Nat.mod_lt _ (by norm_num)
  · omega
  · simp only [transferDone, transferAdvance, raiseIfEnabled_dte_out_ptr,
      raiseIfEnabled_dte_out_res, and_31, dte_devio_DATAO, hres]
    omega
  · intro i hi
    simp only [transferDone, transferAdvance, raiseIfEnabled_dte_out_ptr,
      raiseIfEnabled_dte_out, and_31, dte_devio_DATAO]
    have hidx : ((t.dte_out_ptr + 1) % 32 + i) % 32 = (t.dte_out_ptr + (i + 1)) % 32 := by
      omega
    rw [hidx, Function.update_noteq (by omega)]
    have := hslots (i + 1) (by rw [List.length_cons]; omega)
    rw [List.getElem_cons_succ] at this
    exact this
  · simp only [transferDone, transferAdvance, raiseIfEnabled_dte_out_ptr, and_31,
      dte_devio_DATAO]
  · simp only [transferDone, transferAdvance, raiseIfEnabled_wlog, dte_devio_DATAO,
      s1, s2, s3, s5]
  · simp only [transferDone, transferAdvance, raiseIfEnabled_STATUS, dte_devio_DATAO]
    rw [or_and_disjoint _ (by decide), clearBits_and_disjoint _ (by decide),
      or_and_disjoint _ (by decide)]
    exact hsind
  · simp only [transferDone, transferAdvance, raiseIfEnabled_wrOk, dte_devio_DATAO]

theorem runTransfers_holds (fuel : Nat) (hfuel : 256 ≤ fuel)
    (qs : List (Nat × Nat × List Nat)) :
    ∀ (cs : List Nat) (rest : List (Nat × Nat × List Nat)) (t : Dte),
      QueueHolds t (qs ++ rest) → (∀ p ∈ qs, DirectPacket p) →
      List.Forall₂ (fun c p => 8 + 2 * p.2.2.length
        ≤ acceptedCount (c &&& (DTE_TO10IB ||| DTE_TO10BC))) cs qs →
      t.STATUS &&& DTE_SIND = 0 → (∀ k, t.wrOk k = true) →
      ∃ t', runTransfers fuel cs t = some t' ∧ QueueHolds t' rest ∧
        t'.dte_out_ptr = (t.dte_out_ptr + qs.length) % 32 ∧
        t'.wlog = t.wlog ++
          qs.flatMap (fun p => [8 + 2 * p.2.2.length, p.1, p.2.1, 0] ++ p.2.2) ∧
        t'.STATUS &&& DTE_SIND = 0 ∧ t'.wrOk = t.wrOk := by
  induction qs with
  | nil =>
    intro cs rest t hq _ hacc hsind _
    rw [List.forall₂_nil_right_iff] at hacc
    subst hacc
    refine ⟨t, rfl, hq, ?_, ?_, hsind, rfl⟩
    · rw [List.length_nil, Nat.add_zero, Nat.mod_eq_of_lt hq.1]
    · simp
  | cons p qs ih =>
    intro cs rest t hq hps hacc hsind hwr
    rw [List.forall₂_cons_right_iff] at hacc
    obtain ⟨c, cs1, hc, hcs, rfl⟩ := hacc
    have hp := hps p (List.mem_cons_self _ _)
    obtain ⟨t1, h1, h2, h3, h4, h5, h6⟩ :=
      transfer_holds t p (qs ++ rest) c fuel hq hp.1 hsind hwr hc (by have := hp.2.2.1; omega)
    obtain ⟨t2, k1, k2, k3, k4, k5, k6⟩ := ih cs1 rest t1 h2
      (fun q hq => hps q (List.mem_cons_of_mem _ hq)) hcs h5 (by rw [h6]; exact hwr)
    refine ⟨t2, ?_, k2, ?_, ?_, k5, k6.trans h6⟩
    · simp only [runTransfers, h1]
      exact k1
    · rw [k3, h3, List.length_cons]
      omega
    · rw [k4, h4, List.flatMap_cons, List.append_assoc]

/-- C2, as it holds: for every list of k <= 31 packets whose function codes
have bit 15 clear (f < 0100000), with 16-bit device codes and at most 256
16-bit data words each, enqueued in order (dte_queue) on an empty outbound
queue with SendIndirectNext clear: every Enqueue call is accepted, and
successive transmit activations (DATAO, then dte_transfer), each with an
accepted byte count of at least the frame length 8+2n of the head packet and
all mailbox writes succeeding, emit the frames 8+2n, f, d, 0, w[0..n-1] in
exactly the order the packets were enqueued, one frame per activation (after
j activations the first j frames have been written and the head cursor has
advanced by j), and after k activations the outbound queue is empty. -/
theorem C2_fifo_direct_frames (s : Dte) (ps : List (Nat × Nat × List Nat))
    (cs : List Nat) (fuel : Nat)
    (hk : ps.length ≤ 31)
    (hps : ∀ p ∈ ps, p.1 < 0o100000 ∧ p.2.1 < 65536 ∧ p.2.2.length ≤ 256 ∧
      ∀ x ∈ p.2.2, x < 65536)
    (hempty : s.dte_out_res = s.dte_out_ptr) (hptr : s.dte_out_ptr < 32)
    (hsind : s.STATUS &&& DTE_SIND = 0)
    (hwr : ∀ k, s.wrOk k = true)
    (hacc : List.Forall₂ (fun c p => 8 + 2 * p.2.2.length
      ≤ acceptedCount (c &&& (DTE_TO10IB ||| DTE_TO10BC))) cs ps)
    (hfuel : 256 ≤ fuel) :
    (∀ (i : Nat) (hi : i < ps.length),
      (queueCall (runQueue (ps.take i) s) ps[i]).1 = 1) ∧
    ∀ j, j ≤ ps.length →
      ∃ sj, runTransfers fuel (cs.take j) (runQueue ps s) = some sj ∧
        sj.wlog = s.wlog ++
          (ps.take j).flatMap (fun p => [8 + 2 * p.2.2.length, p.1, p.2.1, 0] ++ p.2.2) ∧
        sj.dte_out_ptr = (s.dte_out_ptr + j) % 32 ∧
        (j = ps.length → sj.dte_out_res = sj.dte_out_ptr) := by
  have hq0 : QueueHolds s [] :=
    ⟨hptr, by simp, by rw [hempty, List.length_nil, Nat.add_zero, Nat.mod_eq_of_lt hptr],
      fun i hi => absurd hi (by simp)⟩
  constructor
  · intro i hi
    obtain ⟨h1, _, _, _⟩ := runQueue_holds (ps.take i) s [] hq0
      (by rw [List.length_take]; simp; omega)
      (fun p hp => hps p (List.mem_of_mem_take hp))
    rw [List.nil_append] at h1
    have hlen : (ps.take i).length < 31 := by
      rw [List.length_take]
      omega
    exact (queueCall_holds _ _ ps[i] h1 hlen (hps _ (List.getElem_mem hi))).1
  · intro j hj
    obtain ⟨h1, h2, h3, h4⟩ := runQueue_holds ps s [] hq0 (by simp; omega) hps
    rw [List.nil_append] at h1
    have h1' : QueueHolds (runQueue ps s) (ps.take j ++ ps.drop j) := by
      rw [List.take_append_drop]
      exact h1
    obtain ⟨sj, k1, k2, k3, k4, _, _⟩ :=
      runTransfers_holds fuel hfuel (ps.take j) (cs.take j) (ps.drop j) (runQueue ps s) h1'
        (fun p hp => hps p (List.mem_of_mem_take hp)) (List.forall₂_take j hacc)
        (by rw [h2]; exact hsind) (by rw [h4]; exact hwr)
    have hptr' : (runQueue ps s).dte_out_ptr = s.dte_out_ptr :=
      (runQueue_cursors ps s 0 hptr (by omega)
        (by rw [hempty, Nat.add_zero, Nat.mod_eq_of_lt hptr])).1
    refine ⟨sj, k1, ?_, ?_, ?_⟩
    · rw [k4, h3]
    · rw [k3, hptr', List.length_take, Nat.min_eq_left hj]
    · intro hjk
      have hres := k2.2.2.1
      rw [hres, hjk, List.drop_length, List.length_nil, Nat.add_zero,
        Nat.mod_eq_of_lt k2.1]

/-- Witness of C2: two packets on the empty queue of the initial state are
sent as two frames in the order of their Enqueue calls. -/
theorem C2_witness :
    ∃ sj, runTransfers 256 (c2Counts.take 2) (runQueue c2Packets {}) = some sj ∧
      sj.wlog = [10, 0o4, 0o1, 0, 0x6869, 10, 0o17, 0o1, 0, 0] ∧
      sj.dte_out_ptr = 2 ∧ sj.dte_out_res = sj.dte_out_ptr := by
  obtain ⟨sj, h1, h2, h3, h4⟩ :=
    (C2_fifo_direct_frames {} c2Packets c2Counts 256 (by decide) (by decide) rfl (by decide)
      (by decide) (fun _ => rfl)
      (List.Forall₂.cons (by decide) (List.Forall₂.cons (by decide) List.Forall₂.nil))
      (by decide)).2 2 (by decide)
  exact ⟨sj, h1, h2, h3, h4 rfl⟩

/-- Counterexample to C2 as stated: Enqueue accepts a packet whose function
code is 0100000; the transmit activation, with an accepted byte count of
4095 and all writes succeeding, then sends the header and the data count
instead of the data word 5, and leaves the packet at the head of the queue.
Likewise, on an empty queue with SendIndirectNext set, the packet
4, 1, 0x6869 is accepted and the transmit activation, with an accepted byte
count of 10, sends the data word alone and no header. -/
theorem C2_counterexample :
    ((queueCall {} (0o100000, 0o1, [5])).1 = 1 ∧
     acceptedCount (1 &&& (DTE_TO10IB ||| DTE_TO10BC)) = 4095 ∧
     ∃ s1, runTransfers 256 [1] (runQueue c2BadPackets {}) = some s1 ∧
       s1.wlog = [10, 0o100000, 0o1, 0, 0] ∧
       s1.wlog ≠ [10, 0o100000, 0o1, 0, 5] ∧
       s1.dte_out_res ≠ s1.dte_out_ptr) ∧
    ((queueCall c2SindState (0o4, 0o1, [0x6869])).1 = 1 ∧
     c2SindState.dte_out_res = c2SindState.dte_out_ptr ∧
     acceptedCount (0o7766 &&& (DTE_TO10IB ||| DTE_TO10BC)) = 10 ∧
     ∃ s1, runTransfers 256 [0o7766] (runQueue [(0o4, 0o1, [0x6869])] c2SindState) = some s1 ∧
       s1.wlog = [0x6869] ∧
       s1.wlog ≠ [10, 0o4, 0o1, 0, 0x6869]) :=
  ⟨⟨by decide, by decide, _, rfl, by decide, by decide, by decide⟩,
   ⟨by decide, by decide, by decide, _, rfl, by decide, by decide⟩⟩

/-! ## Indirect transfers on the transmit path -/

/-- The state in which a transmit activation leaves the engine when the head
packet does not fit the accepted byte count. -/
theorem dte_transfer_indirect_request (t : Dte) (fuel : Nat)
    (hne : t.dte_out_res ≠ t.dte_out_ptr)
    (hsind : t.STATUS &&& DTE_SIND = 0)
    (htot : acceptedCount t.CNT
      < ((t.dte_out t.dte_out_ptr).cnt + (t.dte_out t.dte_out_ptr).dcnt) % 65536)
    (hwr : ∀ k, t.wrOk k = true) :
    dte_transfer fuel t =
      some (transferDone
        { t with STATUS := clearBits t.STATUS DTE_TO11 ||| DTE_SIND, irq := none,
                 dte_out := Function.update t.dte_out t.dte_out_ptr
                   { t.dte_out t.dte_out_ptr with
                       func := (t.dte_out t.dte_out_ptr).func ||| 0o100000 },
                 nwr := t.nwr + 5,
                 wlog := t.wlog ++ [acceptedCount t.CNT,
                            (t.dte_out t.dte_out_ptr).func ||| 0o100000,
                            (t.dte_out t.dte_out_ptr).dev, (t.dte_out t.dte_out_ptr).spare,
                            (t.dte_out t.dte_out_ptr).dcnt] }) := by
  have hs : clearBits t.STATUS DTE_TO11 &&& DTE_SIND = 0 := by
    rw [clearBits_and_disjoint _ (by decide)]
    exact hsind
  have hbit : ((t.dte_out t.dte_out_ptr).func ||| 0o100000) &&& 0o100000 ≠ 0 := by
    rw [or_and_self]
    decide
  unfold dte_transfer
  rw [if_neg hne]
  simp only [hs, ne_eq, not_true_eq_false, if_false, gt_iff_lt, htot, if_true, writeThen,
    Mem_write_byte, hwr, hbit, not_false_eq_true, List.append_assoc, List.singleton_append,
    List.cons_append, List.nil_append]

/-- C4, as it holds: for every non-empty outbound queue whose head packet's
total length as the engine computes it, (length field + data count) mod
2^16, exceeds the accepted byte count s of this round, with SendIndirectNext
clear and mailbox writes succeeding, one transmit activation (dte_transfer)
returns, for every fuel, having written a header whose length word equals s
and whose function word has bit 15 (0100000) set, followed by the device
word, the spare word and the data count; it sets SendIndirectNext and
ToTenDone and leaves the outbound head cursor and the length field of the
packet unchanged. -/
theorem C4_indirect_request (t : Dte) (fuel : Nat)
    (hne : t.dte_out_res ≠ t.dte_out_ptr)
    (hsind : t.STATUS &&& DTE_SIND = 0)
    (htot : acceptedCount t.CNT
      < ((t.dte_out t.dte_out_ptr).cnt + (t.dte_out t.dte_out_ptr).dcnt) % 65536)
    (hwr : ∀ k, t.wrOk k = true) :
    ∃ t', dte_transfer fuel t = some t' ∧
      t'.wlog = t.wlog ++ [acceptedCount t.CNT,
        (t.dte_out t.dte_out_ptr).func ||| 0o100000,
        (t.dte_out t.dte_out_ptr).dev, (t.dte_out t.dte_out_ptr).spare,
        (t.dte_out t.dte_out_ptr).dcnt] ∧
      ((t.dte_out t.dte_out_ptr).func ||| 0o100000) &&& 0o100000 = 0o100000 ∧
      t'.STATUS &&& DTE_SIND ≠ 0 ∧
      t'.STATUS &&& DTE_10DN ≠ 0 ∧
      t'.dte_out_ptr = t.dte_out_ptr ∧
      t'.dte_out_res = t.dte_out_res ∧
      (t'.dte_out t.dte_out_ptr).cnt = (t.dte_out t.dte_out_ptr).cnt := by
  rw [dte_transfer_indirect_request t fuel hne hsind htot hwr]
  refine ⟨_, rfl, ?_, or_and_self _ _, ?_, ?_, ?_, ?_, ?_⟩
  · simp only [transferDone, raiseIfEnabled_wlog]
  · simp only [transferDone, raiseIfEnabled_STATUS]
    rw [or_and_disjoint _ (by decide), or_and_self]
    decide
  · simp only [transferDone, raiseIfEnabled_STATUS, or_and_self]
    decide
  · simp only [transferDone, raiseIfEnabled_dte_out_ptr]
  · simp only [transferDone, raiseIfEnabled_dte_out_res]
  · simp only [transferDone, raiseIfEnabled_dte_out, Function.update_same]

/-- Witness of C4: total length 1000, accepted byte count 100. -/
theorem C4_witness :
    ∃ t', dte_transfer 0 c4State = some t' ∧
      t'.wlog = [100, 0o100003, 0o5, 0, 990] ∧
      (0o3 ||| 0o100000) &&& 0o100000 = 0o100000 ∧
      t'.STATUS &&& DTE_SIND ≠ 0 ∧
      t'.STATUS &&& DTE_10DN ≠ 0 ∧
      t'.dte_out_ptr = 0 ∧
      t'.dte_out_res = 1 ∧
      (t'.dte_out 0).cnt = 10 :=
  C4_indirect_request c4State 0 (by decide) (by decide) (by decide) (fun _ => rfl)

/-- Counterexample to C4 as stated: the head packet built by `dte_queue` for
an empty payload has length field 10 and data count 65534, so length field +
data count = 65544 exceeds the accepted byte count 100; with
SendIndirectNext clear and all writes succeeding the engine computes the
total in 16 bits as 8, sends the direct frame 8, 4, 1, 0 with bit 15 of the
function word clear, leaves SendIndirectNext clear, advances the head
cursor and resets the length field. -/
theorem C4_counterexample :
    c4BadState.dte_out_res ≠ c4BadState.dte_out_ptr ∧
    c4BadState.STATUS &&& DTE_SIND = 0 ∧
    acceptedCount c4BadState.CNT = 100 ∧
    (c4BadState.dte_out c4BadState.dte_out_ptr).cnt
      + (c4BadState.dte_out c4BadState.dte_out_ptr).dcnt = 65544 ∧
    ∃ t', dte_transfer 0 c4BadState = some t' ∧
      t'.wlog = [8, 0o4, 0o1, 0] ∧
      t'.STATUS &&& DTE_SIND = 0 ∧
      t'.dte_out_ptr = 1 ∧
      (t'.dte_out 0).cnt = 0 :=
  ⟨by decide, by decide, by decide, by decide, _, rfl, by decide, by decide, by decide,
    by decide⟩

/-- The indirect send loop writes the first data word of the packet once per
iteration: it never advances its pointer. -/
theorem sendIndirect_ok (out : Packet) (n : Nat) :
    ∀ (fuel : Nat) (s : Dte), n ≤ fuel → 2 * n < 65536 → (∀ k, s.wrOk k = true) →
      sendIndirect out fuel (2 * n) s =
        some (true, { s with nwr := s.nwr + n,
                             wlog := s.wlog ++ List.replicate n (out.data 0) }) := by
  induction n with
  | zero =>
    intro fuel s _ _ _
    cases fuel <;> simp [sendIndirect]
  | succ n ih =>
    intro fuel s hfuel hlt hwr
    obtain ⟨fuel, rfl⟩ : ∃ m, fuel = m + 1 := ⟨fuel - 1, by omega⟩
    have hc : 2 * (n + 1) = (2 * n + 1) + 1 := by ring
    rw [hc, sendIndirect]
    have hs : sub2 (2 * n + 1 + 1) = 2 * n := by
      rw [sub2_of_ge (by omega) (by omega)]
      omega
    simp only [Mem_write_byte, hwr, if_true, hs]
    rw [ih fuel _ (by omega) (by omega) (by intro k; exact hwr k)]
    simp only [List.replicate_succ, List.append_assoc, List.singleton_append,
      Option.some.injEq, Prod.mk.injEq, true_and]
    congr 1
    omega

/-- C5 fails on the code.  A packet of the two data words 0x4142, 0x4344 is
enqueued on the initial state; the first transmit activation (accepted byte
count 8 < 12) requests an indirect continuation and leaves SendIndirectNext
set with the packet at the head (data count 2, so n = 2 data words); the
second activation has an accepted byte count 10 >= 2n and all writes
succeed, yet it writes the first data word twice, 0x4142, 0x4142, and not
0x4142, 0x4344; it then clears SendIndirectNext, resets the length field and
advances the head cursor. -/
theorem C5_indirect_send_repeats_first_word :
    ∃ s1 s2, runTransfers 256 [0o7770] (runQueue c5Packets {}) = some s1 ∧
      s1.STATUS &&& DTE_SIND ≠ 0 ∧
      (s1.dte_out s1.dte_out_ptr).dcnt = 2 ∧
      (s1.dte_out s1.dte_out_ptr).data 0 = 0x4142 ∧
      (s1.dte_out s1.dte_out_ptr).data 1 = 0x4344 ∧
      acceptedCount (dte_devio_DATAO s1 0o7766).CNT = 10 ∧
      dte_transfer 256 (dte_devio_DATAO s1 0o7766) = some s2 ∧
      s2.wlog = s1.wlog ++ [0x4142, 0x4142] ∧
      s2.wlog ≠ s1.wlog ++ [0x4142, 0x4344] ∧
      s2.STATUS &&& DTE_SIND = 0 ∧
      (s2.dte_out s1.dte_out_ptr).cnt = 0 ∧
      s2.dte_out_ptr = (s1.dte_out_ptr + 1) % 32 :=
  ⟨_, _, rfl, by decide, by decide, by decide, by decide, by decide, rfl, by decide,
    by decide, by decide, by decide, by decide⟩

/-! ## Register interface: DATAO -/

theorem xor_allOnes (n y : Nat) (h : y < 2 ^ n) : y ^^^ (2 ^ n - 1) = 2 ^ n - 1 - y := by
  have h1 : (~~~ (BitVec.ofNat n y)).toNat = 2 ^ n - 1 - y := by
    rw [BitVec.toNat_not, BitVec.toNat_ofNat, Nat.mod_eq_of_lt h]
  have h2 : (~~~ (BitVec.ofNat n y)).toNat = y ^^^ (2 ^ n - 1) := by
    rw [BitVec.not_def, BitVec.toNat_xor, BitVec.toNat_allOnes, BitVec.toNat_ofNat,
      Nat.mod_eq_of_lt h, Nat.xor_comm]
  rw [← h2, h1]

theorem xor_mod_4096 (x : Nat) : (x ^^^ 4095) % 4096 = 4095 - x % 4096 := by
  have h : (x ^^^ 4095) % 4096 = (x % 4096) ^^^ 4095 := by
    apply Nat.eq_of_testBit_eq
    intro i
    have e1 : (4096 : Nat) = 2 ^ 12 := by norm_num
    have e2 : (4095 : Nat) = 2 ^ 12 - 1 := by norm_num
    rw [e1, e2, Nat.testBit_mod_two_pow, Nat.testBit_xor, Nat.testBit_xor,
      Nat.testBit_mod_two_pow, Nat.testBit_two_pow_sub_one]
    cases x.testBit i <;> cases decide (i < 12) <;> rfl
  rw [h]
  exact xor_allOnes 12 (x % 4096) (Nat.mod_lt _ (by norm_num))

theorem acceptedCount_eq (c : Nat) : acceptedCount c = (4096 - c % 4096) % 4096 := by
  have h1 : ((c ^^^ DTE_TO10BC) + 1) &&& DTE_TO10BC = ((c ^^^ 4095) + 1) % 4096 :=
    Nat.and_pow_two_sub_one_eq_mod _ 12
  have h2 := xor_mod_4096 c
  unfold acceptedCount
  rw [h1]
  omega

/-- C6: for every data word d passed to WriteData (DATAO in dte_devio), the
recorded count is d mod 2^13, TransferToEleven (bit 19 of LinkStatus) is
set and every other LinkStatus bit is unchanged, and the accepted byte count
that the next transmit activation computes from the recorded count is
(4096 - (d mod 4096)) mod 4096, whatever the flag bit 010000 of d is. -/
theorem C6_datao_count (s : Dte) (d : Nat) :
    (dte_devio_DATAO s d).CNT = d % 2 ^ 13 ∧
    (dte_devio_DATAO s d).STATUS &&& DTE_TO11 = DTE_TO11 ∧
    (∀ i, i ≠ 19 → (dte_devio_DATAO s d).STATUS.testBit i = s.STATUS.testBit i) ∧
    acceptedCount (dte_devio_DATAO s d).CNT = (4096 - d % 4096) % 4096 ∧
    acceptedCount (dte_devio_DATAO s (d ^^^ DTE_TO10IB)).CNT
      = acceptedCount (dte_devio_DATAO s d).CNT := by
  have hcnt : (dte_devio_DATAO s d).CNT = d % 2 ^ 13 :=
    Nat.and_pow_two_sub_one_eq_mod d 13
  have hcnt' : (dte_devio_DATAO s (d ^^^ DTE_TO10IB)).CNT = (d ^^^ DTE_TO10IB) % 2 ^ 13 :=
    Nat.and_pow_two_sub_one_eq_mod _ 13
  have hflag : (d ^^^ DTE_TO10IB) % 4096 = d % 4096 := by
    apply Nat.eq_of_testBit_eq
    intro i
    have e1 : (4096 : Nat) = 2 ^ 12 := by norm_num
    have e2 : DTE_TO10IB = 2 ^ 12 := by decide
    rw [e1, e2, Nat.testBit_mod_two_pow, Nat.testBit_mod_two_pow, Nat.testBit_xor,
      Nat.testBit_two_pow]
    by_cases hi : i < 12
    · have : ¬ (12 = i) := by omega
      simp [hi, this]
    · simp [hi]
  refine ⟨hcnt, or_and_self _ _, ?_, ?_, ?_⟩
  · intro i hi
    show (s.STATUS ||| DTE_TO11).testBit i = s.STATUS.testBit i
    have e : DTE_TO11 = 2 ^ 19 := by decide
    rw [Nat.testBit_or, e, Nat.testBit_two_pow_of_ne (Ne.symm hi), Bool.or_false]
  · rw [acceptedCount_eq, hcnt]
    omega
  · rw [acceptedCount_eq, acceptedCount_eq, hcnt, hcnt']
    omega

/-! ## Receive path: lemmas -/

theorem fillData_nil (old : Nat → Nat) (i : Nat) : fillData old i [] = old := by
  funext k
  have h : ¬ (i ≤ k ∧ k < i + ([] : List Nat).length) := by
    simp only [List.length_nil]
    omega
  simp only [fillData, if_neg h]

theorem fillData_cons (old : Nat → Nat) (i x : Nat) (xs : List Nat) :
    fillData (Function.update old i (x % 65536)) (i + 1) xs = fillData old i (x :: xs) := by
  funext k
  simp only [fillData, List.length_cons]
  by_cases h1 : i + 1 ≤ k ∧ k < i + 1 + xs.length
  · have h2 : i ≤ k ∧ k < i + (xs.length + 1) := by omega
    obtain ⟨m, rfl⟩ : ∃ m, k = i + 1 + m := ⟨k - (i + 1), by omega⟩
    have e1 : i + 1 + m - (i + 1) = m := by omega
    have e2 : i + 1 + m - i = m + 1 := by omega
    rw [if_pos h1, if_pos h2, e1, e2]
    rfl
  · rw [if_neg h1]
    by_cases hk : k = i
    · subst hk
      have h2 : k ≤ k ∧ k < k + (xs.length + 1) := by omega
      rw [if_pos h2, Function.update_same, Nat.sub_self]
      rfl
    · have h2 : ¬ (i ≤ k ∧ k < i + (xs.length + 1)) := by omega
      rw [if_neg h2, Function.update_noteq hk]

/-- The state after `n` successful reads that store `xs` from index `i` on. -/
theorem storeData_read (s : Dte) (i x : Nat) (xs : List Nat) (m : Nat) :
    ({ storeData { s with nrd := s.nrd + 1 } i (x % 65536) with
        nrd := s.nrd + 1 + m,
        dte_in := Function.update (storeData { s with nrd := s.nrd + 1 } i (x % 65536)).dte_in
          s.dte_in_ptr
          { (storeData { s with nrd := s.nrd + 1 } i (x % 65536)).dte_in s.dte_in_ptr with
              data := fillData
                ((storeData { s with nrd := s.nrd + 1 } i (x % 65536)).dte_in s.dte_in_ptr).data
                (i + 1) xs } } : Dte)
      = { s with nrd := s.nrd + (m + 1),
                 dte_in := Function.update s.dte_in s.dte_in_ptr
                   { s.dte_in s.dte_in_ptr with
                       data := fillData (s.dte_in s.dte_in_ptr).data i (x :: xs) } } := by
  simp only [storeData, setIn, Function.update_same, Function.update_idem, fillData_cons]
  have h : s.nrd + 1 + m = s.nrd + (m + 1) := by omega
  rw [h]

theorem readDirect_ok (xs : List Nat) :
    ∀ (c i : Nat) (s : Dte), (c + 1) / 2 = xs.length →
      (∀ (j : Nat) (hj : j < xs.length), s.rdIn (s.nrd + j) = some xs[j]) →
      readDirect c i s =
        (true, { s with nrd := s.nrd + xs.length,
                        dte_in := Function.update s.dte_in s.dte_in_ptr
                          { s.dte_in s.dte_in_ptr with
                              data := fillData (s.dte_in s.dte_in_ptr).data i xs } }) := by
  induction xs with
  | nil =>
    intro c i s hc _
    have hc0 : c = 0 := by
      simp only [List.length_nil] at hc
      omega
    subst hc0
    simp only [readDirect, List.length_nil, Nat.add_zero, fillData_nil,
      Function.update_eq_self]
  | cons x xs ih =>
    intro c i s hc hrd
    have h0 : s.rdIn s.nrd = some x := hrd 0 (by simp)
    have hrest : ∀ (j : Nat) (hj : j < xs.length),
        (storeData { s with nrd := s.nrd + 1 } i (x % 65536)).rdIn
          ((storeData { s with nrd := s.nrd + 1 } i (x % 65536)).nrd + j) = some xs[j] := by
      intro j hj
      have := hrd (j + 1) (by simp only [List.length_cons]; omega)
      rw [List.getElem_cons_succ] at this
      show s.rdIn (s.nrd + 1 + j) = some xs[j]
      rw [← this]
      congr 1
      omega
    simp only [List.length_cons] at hc
    match c, hc with
    | 0, hc => omega
    | 1, hc =>
      have hx : xs = [] := by
        apply List.eq_nil_of_length_eq_zero
        omega
      subst hx
      simp only [readDirect, Mem_read_byte, h0]
      have := storeData_read s i x [] 0
      simp only [fillData_nil, Function.update_eq_self, Nat.add_zero] at this
      simp only [List.length_singleton]
      rw [← this]
      rfl
    | c + 2, hc =>
      simp only [readDirect, Mem_read_byte, h0]
      rw [ih c (i + 1) _ (by omega) hrest]
      simp only [List.length_cons]
      exact congrArg (Prod.mk true) (storeData_read s i x xs xs.length)

theorem primaryDirect_reads (word : Nat) (s : Dte) (L f d sp : Nat) (xs : List Nat)
    (hL : L < 65536) (hf : f < 65536) (hd : d < 65536) (hsp : sp < 65536)
    (hlen : (L - 8 + 1) / 2 = xs.length)
    (hrd : ∀ (j : Nat) (hj : j < (L :: f :: d :: sp :: xs).length),
      s.rdIn (s.nrd + j) = some (L :: f :: d :: sp :: xs)[j]) :
    primaryDirect word s = primaryDirectEnd word (afterFrame s L f d sp xs) := by
  have h0 : s.rdIn s.nrd = some L := hrd 0 (by simp)
  have h1 : s.rdIn (s.nrd + 1) = some f := hrd 1 (by simp)
  have h2 : s.rdIn (s.nrd + 1 + 1) = some d := hrd 2 (by simp)
  have h3 : s.rdIn (s.nrd + 1 + 1 + 1) = some sp := hrd 3 (by simp)
  have hc : ((L : Int) - 2 - 2 - 2 - 2).toNat = L - 8 := by omega
  simp only [primaryDirect, readThen, Mem_read_byte, setIn, h0, h1, h2, h3,
    Nat.mod_eq_of_lt hL, Nat.mod_eq_of_lt hf, Nat.mod_eq_of_lt hd, Nat.mod_eq_of_lt hsp, hc]
  rw [readDirect_ok xs]
  · simp only [afterFrame, Function.update_same, Function.update_idem]
  · exact hlen
  · intro j hj
    have := hrd (j + 4) (by simp only [List.length_cons]; omega)
    simp only [List.getElem_cons_succ] at this
    show s.rdIn (s.nrd + 1 + 1 + 1 + 1 + j) = some xs[j]
    rw [← this]
    congr 1
    omega

theorem raiseIfEnabled_eq (s : Dte) :
    raiseIfEnabled s =
      { s with irq := if s.STATUS &&& DTE_PIE ≠ 0 then some s.STATUS else s.irq } := by
  unfold raiseIfEnabled
  split <;> rfl

theorem fillData_apply (old : Nat → Nat) (xs : List Nat) (hxs : ∀ x ∈ xs, x < 65536)
    (i : Nat) (hi : i < xs.length) : fillData old 0 xs i = xs[i] := by
  have h : 0 ≤ i ∧ i < 0 + xs.length := by omega
  simp only [fillData, if_pos h, Nat.sub_zero]
  rw [List.getD_eq_getElem xs 0 hi]
  exact Nat.mod_eq_of_lt (hxs _ (List.getElem_mem hi))

/-- The direct branch is taken when the doorbell is set, the inbound queue
has room and the status word has the queued-protocol flag and no
indirect-pending flag. -/
theorem dte_primary_direct (IP : Nat) (s : Dte) (W : Nat)
    (hdb : s.STATUS &&& DTE_11DB ≠ 0)
    (hroom : (s.dte_in_ptr + 1) % 32 ≠ s.dte_in_cmd)
    (hst : s.exam (s.dte_et11_off + PRI_CMTW_STS) = some W)
    (hqp : W &&& PRI_CMT_QP ≠ 0) (hip : W &&& IP = 0) :
    dte_primary IP s =
      primaryDirect W { s with STATUS := clearBits s.STATUS DTE_11DB, irq := none } := by
  have hroom' : ¬ ((s.dte_in_ptr + 1) &&& 0x1f = s.dte_in_cmd) := by
    rw [and_31]
    exact hroom
  unfold dte_primary
  rw [if_neg hdb, if_neg hroom']
  simp only [Mem_examine_word, hst, hqp, hip, if_false, ne_eq, not_true_eq_false]

/-- C7: for every receive activation (dte_primary) with DoorbellToEleven set,
the inbound queue not full, the mailbox status word carrying the
queued-protocol flag and no indirect-pending flag, and a frame
L, f, d, sp, x0, x1, ... of 16-bit words with L even, 8 <= L <= 520,
bit 15 of f clear and all accesses succeeding: the slot at the old inbound
tail ends with length L, function f, device d, spare sp, dispatch cursor 0
and data[i] = x_i for every i < (L-8)/2; exactly 4 + (L-8)/2 words are read;
the inbound tail advances by 1 (mod 32); DoorbellToEleven is cleared and
ToElevenDone is set. -/
theorem C7_receive_direct_frame (IP : Nat) (s : Dte) (W L f d sp : Nat) (xs : List Nat)
    (hdb : s.STATUS &&& DTE_11DB ≠ 0)
    (hroom : (s.dte_in_ptr + 1) % 32 ≠ s.dte_in_cmd)
    (hst : s.exam (s.dte_et11_off + PRI_CMTW_STS) = some W)
    (hqp : W &&& PRI_CMT_QP ≠ 0) (hip : W &&& IP = 0)
    (hLe : L % 2 = 0) (hL8 : 8 ≤ L) (hL520 : L ≤ 520)
    (hbit : f &&& 0o100000 = 0)
    (hf : f < 65536) (hd : d < 65536) (hsp : sp < 65536) (hxs : ∀ x ∈ xs, x < 65536)
    (hlen : xs.length = (L - 8) / 2)
    (hrd : ∀ (j : Nat) (hj : j < (L :: f :: d :: sp :: xs).length),
      s.rdIn (s.nrd + j) = some (L :: f :: d :: sp :: xs)[j])
    (hdep : s.depOk s.ndep = true) :
    ((dte_primary IP s).dte_in s.dte_in_ptr).cnt = L ∧
    ((dte_primary IP s).dte_in s.dte_in_ptr).func = f ∧
    ((dte_primary IP s).dte_in s.dte_in_ptr).dev = d ∧
    ((dte_primary IP s).dte_in s.dte_in_ptr).spare = sp ∧
    ((dte_primary IP s).dte_in s.dte_in_ptr).dptr = 0 ∧
    (∀ (i : Nat) (hi : i < xs.length),
      ((dte_primary IP s).dte_in s.dte_in_ptr).data i = xs[i]) ∧
    (dte_primary IP s).nrd = s.nrd + (4 + (L - 8) / 2) ∧
    (dte_primary IP s).dte_in_ptr = (s.dte_in_ptr + 1) % 32 ∧
    (dte_primary IP s).STATUS &&& DTE_11DB = 0 ∧
    (dte_primary IP s).STATUS &&& DTE_11DN ≠ 0 := by
  have key := primaryDirect_reads W
    { s with STATUS := clearBits s.STATUS DTE_11DB, irq := none } L f d sp xs
    (by omega) hf hd hsp (by omega) hrd
  rw [dte_primary_direct IP s W hdb hroom hst hqp hip, key]
  have hfun : ¬ ((f &&& 0o100000) ≠ 0) := by
    rw [hbit]
    exact fun h => h rfl
  simp only [primaryDirectEnd, afterFrame, Function.update_same, hfun, if_false, primaryDone,
    Mem_deposit_word, hdep, if_true, raiseIfEnabled_eq, and_31]
  refine ⟨trivial, trivial, trivial, trivial, trivial, ?_, ?_, trivial, ?_, ?_⟩
  · intro i hi
    exact fillData_apply _ xs hxs i hi
  · omega
  · rw [or_and_disjoint _ (by decide)]
    exact clearBits_and_self _ _
  · rw [or_and_self]
    decide

/-- Witness of C7: the frame 10, 4, 1, 0, 0x6869. -/
theorem C7_witness :
    ((dte_primary 0o400000 c7State).dte_in 0).cnt = 10 ∧
    ((dte_primary 0o400000 c7State).dte_in 0).func = 0o4 ∧
    ((dte_primary 0o400000 c7State).dte_in 0).data 0 = 0x6869 ∧
    (dte_primary 0o400000 c7State).nrd = 5 ∧
    (dte_primary 0o400000 c7State).dte_in_ptr = 1 ∧
    (dte_primary 0o400000 c7State).STATUS &&& DTE_11DB = 0 ∧
    (dte_primary 0o400000 c7State).STATUS &&& DTE_11DN ≠ 0 := by
  obtain ⟨h1, h2, _, _, _, h6, h7, h8, h9, h10⟩ :=
    C7_receive_direct_frame 0o400000 c7State PRI_CMT_QP 10 0o4 0o1 0 [0x6869]
      (by decide) (by decide) rfl (by decide) (by decide) (by decide) (by decide) (by decide)
      (by decide) (by decide) (by decide) (by decide) (by decide) (by decide) (by decide) rfl
  exact ⟨h1, h2, h6 0 (by decide), h7, h8, h9, h10⟩

/-- C9 fails on the code.  The frame 10, 0100003, 5, 0, 4 declares an indirect
continuation and all mailbox accesses succeed.  The activation deposits the
status word with the transfer-outstanding flag (PRI_CMT_TOT) set at the
to-ten deposit status offset 16 + 2, falls through to `done` and deposits
the word again at the same offset with the flag cleared: when the
activation returns the status word there has PRI_CMT_TOT clear. -/
theorem C9_tot_cleared_at_return :
    (dte_primary 0o400000 c8State).STATUS &&& DTE_IND ≠ 0 ∧
    (dte_primary 0o400000 c8State).deps
      = [(18, PRI_CMT_QP ||| PRI_CMT_TOT), (18, PRI_CMT_QP)] ∧
    depositedAt (dte_primary 0o400000 c8State).deps (c8State.dte_dt10_off + PRI_CMTW_STS)
      = some PRI_CMT_QP ∧
    PRI_CMT_QP &&& PRI_CMT_TOT = 0 := by
  decide

/-- C11: for every state in which DoorbellToEleven is set and the inbound
packet queue is full ((dte_in_ptr+1) mod 32 = dte_in_cmd), a receive
activation (dte_primary) only reschedules itself (unit 0, after 100 ticks):
it makes no mailbox read, write or deposit and leaves LinkStatus, both
inbound cursors and every packet slot unchanged. -/
theorem C11_receive_full_reschedules (IP : Nat) (s : Dte)
    (hdb : s.STATUS &&& DTE_11DB ≠ 0)
    (hfull : (s.dte_in_ptr + 1) % 32 = s.dte_in_cmd) :
    dte_primary IP s = { s with sched := s.sched ++ [(0, 100)] } ∧
    (dte_primary IP s).nrd = s.nrd ∧ (dte_primary IP s).nwr = s.nwr ∧
    (dte_primary IP s).wlog = s.wlog ∧ (dte_primary IP s).ndep = s.ndep ∧
    (dte_primary IP s).deps = s.deps ∧ (dte_primary IP s).M = s.M ∧
    (dte_primary IP s).STATUS = s.STATUS ∧
    (dte_primary IP s).dte_in_ptr = s.dte_in_ptr ∧
    (dte_primary IP s).dte_in_cmd = s.dte_in_cmd ∧
    (dte_primary IP s).dte_in = s.dte_in ∧ (dte_primary IP s).dte_out = s.dte_out := by
  have hfull' : (s.dte_in_ptr + 1) &&& 0x1f = s.dte_in_cmd := by
    rw [and_31]
    exact hfull
  have h : dte_primary IP s = { s with sched := s.sched ++ [(0, 100)] } := by
    unfold dte_primary
    rw [if_neg hdb, if_pos hfull']
  rw [h]
  exact ⟨rfl, rfl, rfl, rfl, rfl, rfl, rfl, rfl, rfl, rfl, rfl, rfl⟩

/-- Witness of C11: 31 packets are queued and the doorbell is rung. -/
theorem C11_witness :
    dte_primary 0o400000 c11State = { c11State with sched := [(0, 100)] } ∧
    (dte_primary 0o400000 c11State).nrd = 0 ∧
    (dte_primary 0o400000 c11State).STATUS = DTE_11DB ∧
    (dte_primary 0o400000 c11State).dte_in_ptr = 31 := by
  obtain ⟨h1, h2, _, _, _, _, _, h8, h9, _⟩ :=
    C11_receive_full_reschedules 0o400000 c11State (by decide) (by decide)
  exact ⟨h1, h2, h8, h9⟩

/-! ## Secondary protocol -/

theorem and_255 (x : Nat) : x &&& 0xff = x % 256 :=
  Nat.and_pow_two_sub_one_eq_mod x 8

theorem ne_zero_of_and_eq {w m c : Nat} (h : w &&& m = c) (hc : c ≠ 0) : w ≠ 0 := by
  intro hw
  rw [hw, Nat.zero_and] at h
  exact hc h.symm

theorem secondAck_post (FMASK base : Nat) (s : Dte) :
    (secondAck FMASK base s).M (SEC_DTCMD + base) = 0 ∧
    (secondAck FMASK base s).M (SEC_DTFLG + base) = FMASK ∧
    (secondAck FMASK base s).STATUS &&& DTE_10DB ≠ 0 ∧
    (secondAck FMASK base s).STATUS &&& DTE_11DB = 0 := by
  have hne : SEC_DTCMD + base ≠ SEC_DTFLG + base := by
    simp only [SEC_DTCMD, SEC_DTFLG]
    omega
  refine ⟨?_, ?_, ?_, ?_⟩
  · simp only [secondAck, setM, Function.update_noteq hne, Function.update_same]
  · simp only [secondAck, setM, Function.update_same]
  · simp only [secondAck, setM]
    rw [clearBits_and_disjoint _ (by decide), or_and_self]
    decide
  · simp only [secondAck, setM]
    exact clearBits_and_self _ _

/-- A command word whose command field is none of the seven other commands
is handled by the case `SEC_MONO`. -/
theorem dte_second_mono (FMASK : Nat) (its : Dte → Dte) (s : Dte)
    (hits : ¬ (s.KL_ITS = true ∧ s.M (SEC_DTCMD + secBase s) = 0 ∧ QITS s = true ∧
      s.STATUS &&& ITS_ON ≠ 0))
    (h1 : s.M (SEC_DTCMD + secBase s) &&& SEC_CMDMSK ≠ SEC_SETPRI)
    (h2 : s.M (SEC_DTCMD + secBase s) &&& SEC_CMDMSK ≠ SEC_SETDDT)
    (h3 : s.M (SEC_DTCMD + secBase s) &&& SEC_CMDMSK ≠ SEC_CLRDDT)
    (h4 : s.M (SEC_DTCMD + secBase s) &&& SEC_CMDMSK ≠ SEC_MONON)
    (h5 : s.M (SEC_DTCMD + secBase s) &&& SEC_CMDMSK ≠ SEC_RDSW)
    (h6 : s.M (SEC_DTCMD + secBase s) &&& SEC_CMDMSK ≠ SEC_PGMCTL)
    (h7 : s.M (SEC_DTCMD + secBase s) &&& SEC_CMDMSK ≠ SEC_CLKCTL) :
    dte_second FMASK its s
      = secondMono FMASK (secBase s) (s.M (SEC_DTCMD + secBase s)) s := by
  simp only [dte_second, hits, h1, h2, h3, h4, h5, h6, h7, if_false]

theorem dte_second_is_mono (FMASK : Nat) (its : Dte → Dte) (s : Dte)
    (hcmd : s.M (SEC_DTCMD + secBase s) &&& SEC_CMDMSK = SEC_MONO) :
    dte_second FMASK its s
      = secondMono FMASK (secBase s) (s.M (SEC_DTCMD + secBase s)) s := by
  have hw : s.M (SEC_DTCMD + secBase s) ≠ 0 := ne_zero_of_and_eq hcmd (by decide)
  apply dte_second_mono
  · exact fun h => hw h.2.1
  all_goals
    rw [hcmd]
    decide

theorem secondMono_room (FMASK base word : Nat) (s : Dte)
    (h : (s.cty_out.in_ptr + 1) % 256 ≠ s.cty_out.out_ptr) :
    secondMono FMASK base word s =
      secondAck FMASK base
        (setM (setM (setM
          { s with cty_out :=
              { s.cty_out with
                  buff := Function.update s.cty_out.buff s.cty_out.in_ptr (word &&& 0x7f),
                  in_ptr := (s.cty_out.in_ptr + 1) &&& 0xff } }
          (SEC_DTCHR + base) (u64 (s.tt_outcvt (word &&& 0o177))))
          (SEC_DTMTD + base) FMASK) (SEC_DTF11 + base) 0) := by
  have h' : ¬ ((s.cty_out.in_ptr + 1) &&& 0xff = s.cty_out.out_ptr) := by
    rw [and_255]
    exact h
  unfold secondMono
  rw [if_neg h']

theorem secondMono_room_cty_out (FMASK base word : Nat) (s : Dte)
    (h : (s.cty_out.in_ptr + 1) % 256 ≠ s.cty_out.out_ptr) :
    (secondMono FMASK base word s).cty_out.buff
      = Function.update s.cty_out.buff s.cty_out.in_ptr (word % 128) ∧
    (secondMono FMASK base word s).cty_out.in_ptr = (s.cty_out.in_ptr + 1) % 256 ∧
    (secondMono FMASK base word s).cty_out.out_ptr = s.cty_out.out_ptr := by
  rw [secondMono_room FMASK base word s h]
  have e1 : word &&& 0x7f = word % 128 := Nat.and_pow_two_sub_one_eq_mod word 7
  refine ⟨?_, ?_, rfl⟩
  · show Function.update s.cty_out.buff s.cty_out.in_ptr (word &&& 0x7f) = _
    rw [e1]
  · show (s.cty_out.in_ptr + 1) &&& 0xff = _
    exact and_255 _

/-- C13: for every secondary-mode emit-character command (SEC_MONO)
processed by dte_second while the console output channel is full
((in+1) mod 256 = out): the invocation only reschedules unit 0, so the
command word is not zeroed, the completion flag is not written (memory is
unchanged), DoorbellToTen is not set and DoorbellToEleven is not cleared
(LinkStatus is unchanged) and the channel is unchanged; and after the
consumer removes one byte from the channel, a second invocation on the same
command word appends the low 7 bits of the word to the channel, zeroes the
command word, sets the completion flag to FMASK, sets DoorbellToTen and
clears DoorbellToEleven. -/
theorem C13_emit_retry_then_acknowledge (FMASK : Nat) (its : Dte → Dte) (s : Dte)
    (hcmd : s.M (SEC_DTCMD + secBase s) &&& SEC_CMDMSK = SEC_MONO)
    (hfull : (s.cty_out.in_ptr + 1) % 256 = s.cty_out.out_ptr) :
    dte_second FMASK its s = { s with sched := s.sched ++ [(0, 1000)] } ∧
    (dte_second FMASK its s).M = s.M ∧
    (dte_second FMASK its s).STATUS = s.STATUS ∧
    (dte_second FMASK its s).cty_out = s.cty_out ∧
    (dte_second FMASK its (ctyOutRemove (dte_second FMASK its s))).cty_out.buff
        s.cty_out.in_ptr = s.M (SEC_DTCMD + secBase s) % 128 ∧
    (∀ j, j ≠ s.cty_out.in_ptr →
      (dte_second FMASK its (ctyOutRemove (dte_second FMASK its s))).cty_out.buff j
        = s.cty_out.buff j) ∧
    (dte_second FMASK its (ctyOutRemove (dte_second FMASK its s))).cty_out.in_ptr
        = (s.cty_out.in_ptr + 1) % 256 ∧
    (dte_second FMASK its (ctyOutRemove (dte_second FMASK its s))).M
        (SEC_DTCMD + secBase s) = 0 ∧
    (dte_second FMASK its (ctyOutRemove (dte_second FMASK its s))).M
        (SEC_DTFLG + secBase s) = FMASK ∧
    (dte_second FMASK its (ctyOutRemove (dte_second FMASK its s))).STATUS
        &&& DTE_10DB ≠ 0 ∧
    (dte_second FMASK its (ctyOutRemove (dte_second FMASK its s))).STATUS
        &&& DTE_11DB = 0 := by
  have hfull' : (s.cty_out.in_ptr + 1) &&& 0xff = s.cty_out.out_ptr := by
    rw [and_255]
    exact hfull
  have hfirst : dte_second FMASK its s = { s with sched := s.sched ++ [(0, 1000)] } := by
    rw [dte_second_is_mono FMASK its s hcmd]
    unfold secondMono
    rw [if_pos hfull']
  have hroom : ((ctyOutRemove { s with sched := s.sched ++ [(0, 1000)] }).cty_out.in_ptr + 1)
      % 256 ≠ (ctyOutRemove { s with sched := s.sched ++ [(0, 1000)] }).cty_out.out_ptr := by
    show (s.cty_out.in_ptr + 1) % 256 ≠ (s.cty_out.out_ptr + 1) &&& 0xff
    rw [and_255]
    omega
  have hsecond : dte_second FMASK its (ctyOutRemove { s with sched := s.sched ++ [(0, 1000)] })
      = secondMono FMASK (secBase s) (s.M (SEC_DTCMD + secBase s))
          (ctyOutRemove { s with sched := s.sched ++ [(0, 1000)] }) :=
    dte_second_is_mono FMASK its (ctyOutRemove { s with sched := s.sched ++ [(0, 1000)] }) hcmd
  rw [hfirst, hsecond]
  obtain ⟨k1, k2, k3⟩ := secondMono_room_cty_out FMASK (secBase s)
    (s.M (SEC_DTCMD + secBase s)) _ hroom
  refine ⟨rfl, rfl, rfl, rfl, ?_, ?_, ?_, ?_⟩
  · rw [k1]
    exact Function.update_same _ _ _
  · intro j hj
    rw [k1]
    exact Function.update_noteq hj _ _
  · exact k2
  · rw [secondMono_room _ _ _ _ hroom]
    exact secondAck_post _ _ _

/-- Witness of C13: the command 04101 with a full console output channel. -/
theorem C13_witness :
    (dte_second 0o777777777777 id c13State).M 0o451 = 0o4101 ∧
    (dte_second 0o777777777777 id c13State).STATUS = c13State.STATUS ∧
    (dte_second 0o777777777777 id
      (ctyOutRemove (dte_second 0o777777777777 id c13State))).cty_out.buff 5 = 0o101 ∧
    (dte_second 0o777777777777 id
      (ctyOutRemove (dte_second 0o777777777777 id c13State))).M 0o451 = 0 ∧
    (dte_second 0o777777777777 id
      (ctyOutRemove (dte_second 0o777777777777 id c13State))).M 0o444 = 0o777777777777 := by
  obtain ⟨_, h2, h3, _, h5, _, _, h8, h9, _, _⟩ :=
    C13_emit_retry_then_acknowledge 0o777777777777 id c13State (by decide) (by decide)
  exact ⟨by rw [h2]; decide, h3, h5, h8, h9⟩

theorem secondSetDDT_room (FMASK base : Nat) (s : Dte)
    (h : s.cty_in.in_ptr ≠ s.cty_in.out_ptr) :
    secondSetDDT FMASK base s =
      secondAck FMASK base
        (setM (setM
          { s with cty_in := { s.cty_in with out_ptr := (s.cty_in.out_ptr + 1) &&& 0xff } }
          (SEC_DTF11 + base) (0o177 &&& s.cty_in.buff s.cty_in.out_ptr))
          (SEC_DTMTI + base) FMASK) := by
  unfold secondSetDDT
  rw [if_neg h]

/-- C14: for every command word and state in which the secondary engine
(dte_second) takes neither the ITS fast path nor a retry path (console
output channel full for an emit-character word, that is a word whose
command field is none of the seven other commands; console input channel
empty for read-character), the post-state has the command word cell equal
to 0, the operation-complete flag cell equal to FMASK, DoorbellToTen set
and DoorbellToEleven clear. -/
theorem C14_second_acknowledges (FMASK : Nat) (its : Dte → Dte) (s : Dte)
    (hits : ¬ (s.KL_ITS = true ∧ s.M (SEC_DTCMD + secBase s) = 0 ∧ QITS s = true ∧
      s.STATUS &&& ITS_ON ≠ 0))
    (hout : s.M (SEC_DTCMD + secBase s) &&& SEC_CMDMSK ≠ SEC_SETPRI →
      s.M (SEC_DTCMD + secBase s) &&& SEC_CMDMSK ≠ SEC_SETDDT →
      s.M (SEC_DTCMD + secBase s) &&& SEC_CMDMSK ≠ SEC_CLRDDT →
      s.M (SEC_DTCMD + secBase s) &&& SEC_CMDMSK ≠ SEC_MONON →
      s.M (SEC_DTCMD + secBase s) &&& SEC_CMDMSK ≠ SEC_RDSW →
      s.M (SEC_DTCMD + secBase s) &&& SEC_CMDMSK ≠ SEC_PGMCTL →
      s.M (SEC_DTCMD + secBase s) &&& SEC_CMDMSK ≠ SEC_CLKCTL →
      (s.cty_out.in_ptr + 1) % 256 ≠ s.cty_out.out_ptr)
    (hin : s.M (SEC_DTCMD + secBase s) &&& SEC_CMDMSK = SEC_SETDDT →
      s.cty_in.in_ptr ≠ s.cty_in.out_ptr) :
    (dte_second FMASK its s).M (SEC_DTCMD + secBase s) = 0 ∧
    (dte_second FMASK its s).M (SEC_DTFLG + secBase s) = FMASK ∧
    (dte_second FMASK its s).STATUS &&& DTE_10DB ≠ 0 ∧
    (dte_second FMASK its s).STATUS &&& DTE_11DB = 0 := by
  by_cases h1 : s.M (SEC_DTCMD + secBase s) &&& SEC_CMDMSK = SEC_SETPRI
  · simp only [dte_second, hits, h1, if_false, if_true]
    exact secondAck_post _ _ _
  by_cases h2 : s.M (SEC_DTCMD + secBase s) &&& SEC_CMDMSK = SEC_SETDDT
  · simp only [dte_second, hits, h1, eq_true h2, if_false, if_true]
    rw [secondSetDDT_room _ _ _ (hin h2)]
    exact secondAck_post _ _ _
  by_cases h3 : s.M (SEC_DTCMD + secBase s) &&& SEC_CMDMSK = SEC_CLRDDT
  · simp only [dte_second, hits, h1, h2, eq_true h3, if_false, if_true]
    exact secondAck_post _ _ _
  by_cases h4 : s.M (SEC_DTCMD + secBase s) &&& SEC_CMDMSK = SEC_MONON
  · simp only [dte_second, hits, h1, h2, h3, eq_true h4, if_false, if_true]
    exact secondAck_post _ _ _
  by_cases h5 : s.M (SEC_DTCMD + secBase s) &&& SEC_CMDMSK = SEC_RDSW
  · simp only [dte_second, hits, h1, h2, h3, h4, eq_true h5, if_false, if_true]
    exact secondAck_post _ _ _
  by_cases h6 : s.M (SEC_DTCMD + secBase s) &&& SEC_CMDMSK = SEC_PGMCTL
  · simp only [dte_second, hits, h1, h2, h3, h4, h5, eq_true h6, if_false, if_true]
    split
    · exact secondAck_post _ _ _
    · exact secondAck_post _ _ _
  by_cases h7 : s.M (SEC_DTCMD + secBase s) &&& SEC_CMDMSK = SEC_CLKCTL
  · simp only [dte_second, hits, h1, h2, h3, h4, h5, h6, eq_true h7, if_false, if_true]
    exact secondAck_post _ _ _
  rw [dte_second_mono FMASK its s hits h1 h2 h3 h4 h5 h6 h7,
    secondMono_room _ _ _ _ (hout h1 h2 h3 h4 h5 h6 h7)]
  exact secondAck_post _ _ _

/-- Witness of C14: the command "read switch register". -/
theorem C14_witness :
    (dte_second 0o777777777777 id c14State).M 0o451 = 0 ∧
    (dte_second 0o777777777777 id c14State).M 0o444 = 0o777777777777 ∧
    (dte_second 0o777777777777 id c14State).STATUS &&& DTE_10DB ≠ 0 ∧
    (dte_second 0o777777777777 id c14State).STATUS &&& DTE_11DB = 0 :=
  C14_second_acknowledges 0o777777777777 id c14State (by decide) (by decide) (by decide)

theorem dte_second_setpri (FMASK : Nat) (its : Dte → Dte) (s : Dte)
    (hcmd : s.M (SEC_DTCMD + secBase s) &&& SEC_CMDMSK = SEC_SETPRI) :
    dte_second FMASK its s = secondAck FMASK (secBase s) (enterPri s) := by
  have hw : s.M (SEC_DTCMD + secBase s) ≠ 0 := ne_zero_of_and_eq hcmd (by decide)
  have hits : ¬ (s.KL_ITS = true ∧ s.M (SEC_DTCMD + secBase s) = 0 ∧ QITS s = true ∧
      s.STATUS &&& ITS_ON ≠ 0) := fun h => hw h.2.1
  simp only [dte_second, hits, hcmd, if_false, if_true]

theorem enterPri_readable (s : Dte) (W : Nat) (hW : s.exam 0 = some W) :
    enterPri s =
      { s with dte_proc_num := (W >>> 24) &&& 0o37, dte_base := ((W >>> 24) &&& 0o37) + 1,
               dte_off := ((W >>> 24) &&& 0o37) + 1 + (W &&& 0o177777),
               dte_dt10_off := 16, dte_et10_off := 16 + 16,
               dte_et11_off := ((W >>> 24) &&& 0o37) + 1 + 16,
               STATUS := clearBits s.STATUS DTE_SEC,
               STATUS1 := clearBits s.STATUS1 DTE_SEC,
               dte_in_ptr := 0, dte_out_ptr := 0, dte_in_cmd := 0, dte_out_res := 0 } := by
  simp only [enterPri, Mem_examine_word, hW]

/-- C15: for every prior state of the two packet queues (any cursor values,
any slot contents), processing the priming command SEC_SETPRI in dte_second
when the mailbox word at offset 0 is readable leaves dte_in_ptr = dte_in_cmd
= dte_out_ptr = dte_out_res = 0; priming again in any later state t yields
the same four cursor values. -/
theorem C15_priming_resets_cursors (FMASK : Nat) (its : Dte → Dte) (s t : Dte) (W V : Nat)
    (hs : s.M (SEC_DTCMD + secBase s) &&& SEC_CMDMSK = SEC_SETPRI)
    (hW : s.exam 0 = some W)
    (ht : t.M (SEC_DTCMD + secBase t) &&& SEC_CMDMSK = SEC_SETPRI)
    (hV : t.exam 0 = some V) :
    (dte_second FMASK its s).dte_in_ptr = 0 ∧ (dte_second FMASK its s).dte_in_cmd = 0 ∧
    (dte_second FMASK its s).dte_out_ptr = 0 ∧ (dte_second FMASK its s).dte_out_res = 0 ∧
    (dte_second FMASK its t).dte_in_ptr = (dte_second FMASK its s).dte_in_ptr ∧
    (dte_second FMASK its t).dte_in_cmd = (dte_second FMASK its s).dte_in_cmd ∧
    (dte_second FMASK its t).dte_out_ptr = (dte_second FMASK its s).dte_out_ptr ∧
    (dte_second FMASK its t).dte_out_res = (dte_second FMASK its s).dte_out_res := by
  rw [dte_second_setpri FMASK its s hs, dte_second_setpri FMASK its t ht,
    enterPri_readable s W hW, enterPri_readable t V hV]
  exact ⟨rfl, rfl, rfl, rfl, rfl, rfl, rfl, rfl⟩

/-- Witness of C15: priming with cursors 7, 3, 30, 2 and again with cursors
1, 1, 4, 9. -/
theorem C15_witness :
    (dte_second 0o777777777777 id c15State).dte_in_ptr = 0 ∧
    (dte_second 0o777777777777 id c15State).dte_in_cmd = 0 ∧
    (dte_second 0o777777777777 id c15State).dte_out_ptr = 0 ∧
    (dte_second 0o777777777777 id c15State).dte_out_res = 0 ∧
    (dte_second 0o777777777777 id c15Later).dte_in_ptr = 0 ∧
    (dte_second 0o777777777777 id c15Later).dte_out_res = 0 := by
  obtain ⟨h1, h2, h3, h4, h5, _, _, h8⟩ :=
    C15_priming_resets_cursors 0o777777777777 id c15State c15Later 50331712 50331712
      (by decide) rfl (by decide) rfl
  exact ⟨h1, h2, h3, h4, h5.trans h1, h8.trans h4⟩

/-- C16: for every word W successfully read at mailbox offset 0 while
dte_second processes the priming command SEC_SETPRI: processorNumber =
(W >> 24) mod 32, base = processorNumber + 1, ioOffset = base + (W mod 2^16),
toTenDepositOffset = 16, toTenExamineOffset = 32, toElevenExamineOffset =
base + 16, and SecondaryMode is cleared in the status of both the engine
unit (unit 0) and the input-service unit (unit 1). -/
theorem C16_priming_offsets (FMASK : Nat) (its : Dte → Dte) (s : Dte) (W : Nat)
    (hs : s.M (SEC_DTCMD + secBase s) &&& SEC_CMDMSK = SEC_SETPRI)
    (hW : s.exam 0 = some W) :
    (dte_second FMASK its s).dte_proc_num = (W >>> 24) % 32 ∧
    (dte_second FMASK its s).dte_base = (W >>> 24) % 32 + 1 ∧
    (dte_second FMASK its s).dte_off = (W >>> 24) % 32 + 1 + W % 2 ^ 16 ∧
    (dte_second FMASK its s).dte_dt10_off = 16 ∧
    (dte_second FMASK its s).dte_et10_off = 32 ∧
    (dte_second FMASK its s).dte_et11_off = (W >>> 24) % 32 + 1 + 16 ∧
    (dte_second FMASK its s).STATUS &&& DTE_SEC = 0 ∧
    (dte_second FMASK its s).STATUS1 &&& DTE_SEC = 0 := by
  have e1 : (W >>> 24) &&& 0o37 = (W >>> 24) % 32 := Nat.and_pow_two_sub_one_eq_mod _ 5
  have e2 : W &&& 0o177777 = W % 2 ^ 16 := Nat.and_pow_two_sub_one_eq_mod _ 16
  rw [dte_second_setpri FMASK its s hs, enterPri_readable s W hW, e1, e2]
  refine ⟨rfl, rfl, rfl, rfl, rfl, rfl, ?_, ?_⟩
  · show clearBits (clearBits s.STATUS DTE_SEC ||| DTE_10DB) DTE_11DB &&& DTE_SEC = 0
    rw [clearBits_and_disjoint _ (by decide), or_and_disjoint _ (by decide)]
    exact clearBits_and_self _ _
  · exact clearBits_and_self _ _

/-- Witness of C16: the word at offset 0 names processor 3 and offset 0100. -/
theorem C16_witness :
    (dte_second 0o777777777777 id c15State).dte_proc_num = 3 ∧
    (dte_second 0o777777777777 id c15State).dte_base = 4 ∧
    (dte_second 0o777777777777 id c15State).dte_off = 68 ∧
    (dte_second 0o777777777777 id c15State).dte_dt10_off = 16 ∧
    (dte_second 0o777777777777 id c15State).dte_et10_off = 32 ∧
    (dte_second 0o777777777777 id c15State).dte_et11_off = 20 ∧
    (dte_second 0o777777777777 id c15State).STATUS &&& DTE_SEC = 0 ∧
    (dte_second 0o777777777777 id c15State).STATUS1 &&& DTE_SEC = 0 :=
  C16_priming_offsets 0o777777777777 id c15State 50331712 (by decide) rfl

/-! ## Kick helper -/

theorem and_or_eq_zero {x a b : Nat} (ha : x &&& a = 0) (hb : x &&& b = 0) :
    x &&& (a ||| b) = 0 := by
  rw [Nat.and_or_distrib_left, ha, hb]
  rfl

theorem and_eq_zero_of_and_or_left {x a b : Nat} (h : x &&& (a ||| b) = 0) : x &&& a = 0 := by
  apply Nat.eq_of_testBit_eq
  intro i
  have hi : (x &&& (a ||| b)).testBit i = false := by rw [h, Nat.zero_testBit]
  rw [Nat.testBit_and, Nat.testBit_or] at hi
  rw [Nat.testBit_and, Nat.zero_testBit]
  revert hi
  cases x.testBit i <;> cases a.testBit i <;> cases b.testBit i <;> simp

theorem and_eq_zero_of_and_or_right {x a b : Nat} (h : x &&& (a ||| b) = 0) :
    x &&& b = 0 := by
  rw [Nat.or_comm] at h
  exact and_eq_zero_of_and_or_left h

theorem or_and_ne_zero (x : Nat) {m k : Nat} (h : m &&& k ≠ 0) : (x ||| m) &&& k ≠ 0 := by
  intro h0
  apply h
  apply Nat.eq_of_testBit_eq
  intro i
  have hi : ((x ||| m) &&& k).testBit i = false := by rw [h0, Nat.zero_testBit]
  rw [Nat.testBit_and, Nat.testBit_or] at hi
  rw [Nat.testBit_and, Nat.zero_testBit]
  revert hi
  cases x.testBit i <;> cases m.testBit i <;> cases k.testBit i <;> simp

theorem testBit_10IC (i : Nat) :
    PRI_CMT_10IC.testBit i = (decide (i ≥ 8) && decide (i - 8 < 8)) := by
  have e : PRI_CMT_10IC = 2 ^ 8 * (2 ^ 8 - 1) := by decide
  rw [e, Nat.testBit_mul_pow_two, Nat.testBit_two_pow_sub_one]

theorem and_10IC (x : Nat) : x &&& PRI_CMT_10IC = (x / 256 % 256) * 256 := by
  apply Nat.eq_of_testBit_eq
  intro i
  have e : (x / 256 % 256) * 256 = 2 ^ 8 * ((x >>> 8) % 2 ^ 8) := by
    rw [Nat.shiftRight_eq_div_pow]
    norm_num
    ring
  rw [Nat.testBit_and, testBit_10IC, e, Nat.testBit_mul_pow_two, Nat.testBit_mod_two_pow,
    Nat.testBit_shiftRight]
  by_cases h8 : i ≥ 8
  · have e2 : 8 + (i - 8) = i := by omega
    rw [e2]
    cases x.testBit i <;> simp [h8]
  · simp [h8]

/-- The status word that `dte_start` deposits. -/
theorem kick_status_word (IP W : Nat) (hipf : IP &&& PRI_CMT_10IC = 0) :
    (clearBits W (PRI_CMT_10IC ||| IP) ||| ((W + 0o400) &&& PRI_CMT_10IC)) &&& IP = 0 ∧
    (clearBits W (PRI_CMT_10IC ||| IP) ||| ((W + 0o400) &&& PRI_CMT_10IC)) &&& PRI_CMT_10IC
      = ((W / 256 + 1) % 256) * 256 ∧
    (∀ i, PRI_CMT_10IC.testBit i = false → IP.testBit i = false →
      (clearBits W (PRI_CMT_10IC ||| IP) ||| ((W + 0o400) &&& PRI_CMT_10IC)).testBit i
        = W.testBit i) := by
  refine ⟨?_, ?_, ?_⟩
  · apply Nat.eq_of_testBit_eq
    intro i
    have hi : (IP &&& PRI_CMT_10IC).testBit i = false := by rw [hipf, Nat.zero_testBit]
    rw [Nat.testBit_and] at hi
    rw [Nat.testBit_and, Nat.testBit_or, clearBits, Nat.testBit_xor, Nat.testBit_and,
      Nat.testBit_or, Nat.testBit_and, Nat.zero_testBit]
    revert hi
    cases W.testBit i <;> cases PRI_CMT_10IC.testBit i <;> cases IP.testBit i <;>
      cases (W + 0o400).testBit i <;> simp
  · have h : (clearBits W (PRI_CMT_10IC ||| IP) ||| ((W + 0o400) &&& PRI_CMT_10IC))
        &&& PRI_CMT_10IC = (W + 0o400) &&& PRI_CMT_10IC := by
      apply Nat.eq_of_testBit_eq
      intro i
      rw [Nat.testBit_and, Nat.testBit_or, clearBits, Nat.testBit_xor, Nat.testBit_and,
        Nat.testBit_or, Nat.testBit_and]
      cases W.testBit i <;> cases PRI_CMT_10IC.testBit i <;> cases IP.testBit i <;>
        cases (W + 0o400).testBit i <;> rfl
    rw [h, and_10IC]
    have e : (W + 0o400) / 256 = W / 256 + 1 := by omega
    rw [e]
  · intro i hc hp
    rw [Nat.testBit_or, clearBits, Nat.testBit_xor, Nat.testBit_and, Nat.testBit_or,
      Nat.testBit_and, hc, hp]
    cases W.testBit i <;> cases (W + 0o400).testBit i <;> rfl

/-- C17: for every state with a non-empty outbound queue, IndirectNext,
DoorbellToTen and DoorbellToEleven all clear, and a readable mailbox status
word W without the transfer-outstanding flag, with both deposits
succeeding, KickIfIdle (dte_start) makes exactly two deposits: at the
to-ten status offset a word V that is W with the indirect-pending bit
cleared, the 8-bit messages-sent field (mask 0177400) replaced by
(old field + 1) mod 256 and every other bit unchanged, and at the to-ten
count offset the length field plus the data count of the head packet; it
sets DoorbellToTen and returns 1.  The indirect-pending flag (a constant of
kx10_defs.h) lies outside the messages-sent field. -/
theorem C17_kick_deposits (IP : Nat) (s : Dte) (W : Nat)
    (hne : s.dte_out_ptr ≠ s.dte_out_res)
    (hind : s.STATUS &&& DTE_IND = 0) (h10 : s.STATUS &&& DTE_10DB = 0)
    (h11 : s.STATUS &&& DTE_11DB = 0)
    (hst : s.exam (s.dte_et11_off + PRI_CMTW_STS) = some W)
    (htot : W &&& PRI_CMT_TOT = 0)
    (hipf : IP &&& PRI_CMT_10IC = 0)
    (hd1 : s.depOk s.ndep = true) (hd2 : s.depOk (s.ndep + 1) = true) :
    ∃ V, (dte_start IP s).1 = 1 ∧
      (dte_start IP s).2.deps = s.deps ++
        [(s.dte_dt10_off + PRI_CMTW_STS, V),
         (s.dte_dt10_off + PRI_CMTW_CNT,
           (s.dte_out s.dte_out_ptr).cnt + (s.dte_out s.dte_out_ptr).dcnt)] ∧
      V &&& IP = 0 ∧
      V &&& PRI_CMT_10IC = ((W / 256 + 1) % 256) * 256 ∧
      (∀ i, PRI_CMT_10IC.testBit i = false → IP.testBit i = false →
        V.testBit i = W.testBit i) ∧
      (dte_start IP s).2.STATUS &&& DTE_10DB ≠ 0 := by
  have hflags : ¬ (s.STATUS &&& (DTE_IND ||| DTE_10DB ||| DTE_11DB) ≠ 0) := by
    intro h
    exact h (and_or_eq_zero (and_or_eq_zero hind h10) h11)
  have htot' : ¬ (W &&& PRI_CMT_TOT ≠ 0) := fun h => h htot
  obtain ⟨k1, k2, k3⟩ := kick_status_word IP W hipf
  refine ⟨clearBits W (PRI_CMT_10IC ||| IP) ||| ((W + 0o400) &&& PRI_CMT_10IC),
    ?_, ?_, k1, k2, k3, ?_⟩
  · simp only [dte_start, if_neg hne, if_neg hflags, Mem_examine_word, hst, if_neg htot',
      Mem_deposit_word, hd1, hd2, if_true]
  · simp only [dte_start, if_neg hne, if_neg hflags, Mem_examine_word, hst, if_neg htot',
      Mem_deposit_word, hd1, hd2, if_true, raiseIfEnabled_eq, List.append_assoc,
      List.singleton_append]
  · simp only [dte_start, if_neg hne, if_neg hflags, Mem_examine_word, hst, if_neg htot',
      Mem_deposit_word, hd1, hd2, if_true, raiseIfEnabled_eq, or_and_self]
    decide

/-- Witness of C17: the messages-sent field 255 wraps to 0 and the
indirect-pending bit is cleared, so the deposited status word is the
queued-protocol flag alone; the count word is 10. -/
theorem C17_witness :
    ∃ V, (dte_start 0o400000 c17State).1 = 1 ∧
      (dte_start 0o400000 c17State).2.deps = [(18, V), (19, 10)] ∧
      V &&& 0o400000 = 0 ∧
      V &&& PRI_CMT_10IC = 0 ∧
      (∀ i, PRI_CMT_10IC.testBit i = false → (0o400000 : Nat).testBit i = false →
        V.testBit i = (PRI_CMT_QP ||| 0o400000 ||| 0o177400).testBit i) ∧
      (dte_start 0o400000 c17State).2.STATUS &&& DTE_10DB ≠ 0 :=
  C17_kick_deposits 0o400000 c17State (PRI_CMT_QP ||| 0o400000 ||| 0o177400)
    (by decide) (by decide) (by decide) (by decide) rfl (by decide) (by decide) rfl rfl

/-- C18: for every state in which the outbound queue is empty, or any of
IndirectNext, DoorbellToTen, DoorbellToEleven is set, or the mailbox status
word is readable and has the transfer-outstanding flag set, KickIfIdle
(dte_start) returns 1 and leaves the whole state unchanged: it deposits no
mailbox word, leaves LinkStatus and the outbound cursors unchanged and
raises no interrupt. -/
theorem C18_kick_holds_off (IP : Nat) (s : Dte)
    (h : s.dte_out_ptr = s.dte_out_res ∨ s.STATUS &&& DTE_IND ≠ 0 ∨
      s.STATUS &&& DTE_10DB ≠ 0 ∨ s.STATUS &&& DTE_11DB ≠ 0 ∨
      ∃ W, s.exam (s.dte_et11_off + PRI_CMTW_STS) = some W ∧ W &&& PRI_CMT_TOT ≠ 0) :
    dte_start IP s = (1, s) ∧
    (dte_start IP s).1 = 1 ∧
    (dte_start IP s).2.deps = s.deps ∧ (dte_start IP s).2.ndep = s.ndep ∧
    (dte_start IP s).2.STATUS = s.STATUS ∧
    (dte_start IP s).2.dte_out_ptr = s.dte_out_ptr ∧
    (dte_start IP s).2.dte_out_res = s.dte_out_res ∧
    (dte_start IP s).2.irq = s.irq := by
  have key : dte_start IP s = (1, s) := by
    by_cases hempty : s.dte_out_ptr = s.dte_out_res
    · simp only [dte_start, if_pos hempty]
    by_cases hflags : s.STATUS &&& (DTE_IND ||| DTE_10DB ||| DTE_11DB) ≠ 0
    · simp only [dte_start, if_neg hempty, if_pos hflags]
    have hz : s.STATUS &&& (DTE_IND ||| DTE_10DB ||| DTE_11DB) = 0 := by
      by_contra hc
      exact hflags hc
    have z11 := and_eq_zero_of_and_or_right hz
    have z10 := and_eq_zero_of_and_or_right (and_eq_zero_of_and_or_left hz)
    have zind := and_eq_zero_of_and_or_left (and_eq_zero_of_and_or_left hz)
    rcases h with h | h | h | h | ⟨W, hW, hT⟩
    · exact absurd h hempty
    · exact absurd zind h
    · exact absurd z10 h
    · exact absurd z11 h
    · simp only [dte_start, if_neg hempty, if_neg hflags, Mem_examine_word, hW, if_pos hT]
  rw [key]
  exact ⟨rfl, rfl, rfl, rfl, rfl, rfl, rfl, rfl⟩

/-- Witness of C18: a packet waits but the TO10 doorbell is already rung. -/
theorem C18_witness :
    (dte_start 0o400000 c18State).1 = 1 ∧
    (dte_start 0o400000 c18State).2.deps = [] ∧
    (dte_start 0o400000 c18State).2.STATUS = DTE_10DB ∧
    (dte_start 0o400000 c18State).2.irq = none := by
  obtain ⟨_, h2, h3, _, h5, _, _, h8⟩ :=
    C18_kick_holds_off 0o400000 c18State (Or.inr (Or.inr (Or.inl (by decide))))
  exact ⟨h2, h3, h5, h8⟩

/-- C19: for every kick attempt (dte_start with a non-empty outbound queue
and IndirectNext, DoorbellToTen and DoorbellToEleven clear) in which
reading the mailbox status word fails, SecondaryMode and ToTenError are
both set in LinkStatus, DoorbellToTen is not set, nothing is deposited, the
outbound cursors are unchanged, the interrupt is raised (with the new
LinkStatus as data) when InterruptEnable is set, and 0 is returned. -/
theorem C19_kick_read_failure (IP : Nat) (s : Dte)
    (hne : s.dte_out_ptr ≠ s.dte_out_res)
    (hind : s.STATUS &&& DTE_IND = 0) (h10 : s.STATUS &&& DTE_10DB = 0)
    (h11 : s.STATUS &&& DTE_11DB = 0)
    (hst : s.exam (s.dte_et11_off + PRI_CMTW_STS) = none) :
    (dte_start IP s).1 = 0 ∧
    (dte_start IP s).2.STATUS &&& DTE_SEC ≠ 0 ∧
    (dte_start IP s).2.STATUS &&& DTE_10ER ≠ 0 ∧
    (dte_start IP s).2.STATUS &&& DTE_10DB = 0 ∧
    (dte_start IP s).2.deps = s.deps ∧
    (dte_start IP s).2.dte_out_ptr = s.dte_out_ptr ∧
    (dte_start IP s).2.dte_out_res = s.dte_out_res ∧
    (s.STATUS &&& DTE_PIE ≠ 0 →
      (dte_start IP s).2.irq = some (dte_start IP s).2.STATUS) := by
  have hflags : ¬ (s.STATUS &&& (DTE_IND ||| DTE_10DB ||| DTE_11DB) ≠ 0) := by
    intro h
    exact h (and_or_eq_zero (and_or_eq_zero hind h10) h11)
  have key : dte_start IP s
      = (0, raiseIfEnabled { s with STATUS := s.STATUS ||| (DTE_SEC ||| DTE_10ER) }) := by
    simp only [dte_start, if_neg hne, if_neg hflags, Mem_examine_word, hst, startError]
  rw [key]
  simp only [raiseIfEnabled_eq]
  refine ⟨trivial, or_and_ne_zero _ (by decide), or_and_ne_zero _ (by decide), ?_, trivial,
    trivial, trivial, ?_⟩
  · rw [or_and_disjoint _ (by decide)]
    exact h10
  · intro hpie
    have hp : (s.STATUS ||| (DTE_SEC ||| DTE_10ER)) &&& DTE_PIE ≠ 0 := by
      rw [or_and_disjoint _ (by decide)]
      exact hpie
    rw [if_pos hp]

/-- Witness of C19: the status word cannot be read and the interrupt is
enabled. -/
theorem C19_witness :
    (dte_start 0o400000 c19State).1 = 0 ∧
    (dte_start 0o400000 c19State).2.STATUS &&& DTE_SEC ≠ 0 ∧
    (dte_start 0o400000 c19State).2.STATUS &&& DTE_10ER ≠ 0 ∧
    (dte_start 0o400000 c19State).2.STATUS &&& DTE_10DB = 0 ∧
    (dte_start 0o400000 c19State).2.deps = [] ∧
    (dte_start 0o400000 c19State).2.dte_out_ptr = 0 ∧
    (dte_start 0o400000 c19State).2.dte_out_res = 1 ∧
    (dte_start 0o400000 c19State).2.irq = some (dte_start 0o400000 c19State).2.STATUS := by
  obtain ⟨h1, h2, h3, h4, h5, h6, h7, h8⟩ :=
    C19_kick_read_failure 0o400000 c19State (by decide) (by decide) (by decide) (by decide) rfl
  exact ⟨h1, h2, h3, h4, h5, h6, h7, h8 (by decide)⟩

/-! ## Receive path: failed accesses -/

theorem cleanRun_frame {s a b : Dte} (h : CleanRun s a)
    (hr : b.rdIn = a.rdIn) (hd : b.depOk = a.depOk) (hn : b.nrd = a.nrd)
    (hm : b.ndep = a.ndep)
    (h11 : b.STATUS &&& DTE_11DN = a.STATUS &&& DTE_11DN)
    (hsec : a.STATUS &&& DTE_SEC ≠ 0 → b.STATUS &&& DTE_SEC ≠ 0) : CleanRun s b := by
  obtain ⟨q1, q2, q3, q4, q5, q6, q7, q8⟩ := h
  refine ⟨hr.trans q1, hd.trans q2, by omega, by omega, ?_, ?_, h11.trans q7,
    fun l => hsec (q8 l)⟩
  · intro k h1 h2
    exact q5 k h1 (by omega)
  · intro k h1 h2
    exact q6 k h1 (by omega)

theorem cleanRun_read {s a b : Dte} (h : CleanRun s a) (hok : a.rdIn a.nrd ≠ none)
    (hr : b.rdIn = a.rdIn) (hd : b.depOk = a.depOk) (hn : b.nrd = a.nrd + 1)
    (hm : b.ndep = a.ndep) (hst : b.STATUS = a.STATUS) : CleanRun s b := by
  obtain ⟨q1, q2, q3, q4, q5, q6, q7, q8⟩ := h
  refine ⟨hr.trans q1, hd.trans q2, by omega, by omega, ?_, ?_, by rw [hst]; exact q7,
    fun l => by rw [hst]; exact q8 l⟩
  · intro k h1 h2
    by_cases hk : k < a.nrd
    · exact q5 k h1 hk
    · have hk' : k = a.nrd := by omega
      rw [hk', ← q1]
      exact hok
  · intro k h1 h2
    exact q6 k h1 (by omega)

theorem cleanRun_dep {s a b : Dte} (h : CleanRun s a) (hok : a.depOk a.ndep = true)
    (hr : b.rdIn = a.rdIn) (hd : b.depOk = a.depOk) (hn : b.nrd = a.nrd)
    (hm : b.ndep = a.ndep + 1) (hst : b.STATUS = a.STATUS) : CleanRun s b := by
  obtain ⟨q1, q2, q3, q4, q5, q6, q7, q8⟩ := h
  refine ⟨hr.trans q1, hd.trans q2, by omega, by omega, ?_, ?_, by rw [hst]; exact q7,
    fun l => by rw [hst]; exact q8 l⟩
  · intro k h1 h2
    exact q5 k h1 (by omega)
  · intro k h1 h2
    by_cases hk : k < a.ndep
    · exact q6 k h1 hk
    · have hk' : k = a.ndep := by omega
      rw [hk', ← q2]
      exact hok

theorem error_outcome {s a : Dte} (h11 : a.STATUS &&& DTE_11DN = s.STATUS &&& DTE_11DN) :
    Outcome s (primaryError a) := by
  refine Or.inl ⟨?_, ?_⟩
  · show (a.STATUS ||| DTE_SEC) &&& DTE_SEC ≠ 0
    rw [or_and_self]
    decide
  · show (a.STATUS ||| DTE_SEC) &&& DTE_11DN = s.STATUS &&& DTE_11DN
    rw [or_and_disjoint _ (by decide)]
    exact h11

theorem readThen_outcome {s a : Dte} (k : Nat → Dte → Dte) (hq : CleanRun s a)
    (hk : ∀ w b, CleanRun s b → Outcome s (k w b)) : Outcome s (readThen a k) := by
  cases h : a.rdIn a.nrd with
  | none =>
    simp only [readThen, Mem_read_byte, h]
    exact error_outcome hq.2.2.2.2.2.2.1
  | some w =>
    simp only [readThen, Mem_read_byte, h]
    apply hk
    exact cleanRun_read hq (by rw [h]; exact Option.some_ne_none w) rfl rfl rfl rfl rfl

theorem storeData_clean {s a : Dte} (w i : Nat) (hq : CleanRun s a)
    (hok : a.rdIn a.nrd ≠ none) :
    CleanRun s (storeData { a with nrd := a.nrd + 1 } i w) :=
  cleanRun_read hq hok rfl rfl rfl rfl rfl

theorem readDirect_outcome {s : Dte} :
    ∀ (c i : Nat) (a : Dte), CleanRun s a →
      ((readDirect c i a).1 = false ∧ (readDirect c i a).2.STATUS = a.STATUS) ∨
      ((readDirect c i a).1 = true ∧ CleanRun s (readDirect c i a).2) := by
  intro c
  induction c using Nat.strong_induction_on with
  | _ c ih =>
    intro i a hq
    match c with
    | 0 => exact Or.inr ⟨rfl, hq⟩
    | 1 =>
      cases h : a.rdIn a.nrd with
      | none =>
        simp only [readDirect, Mem_read_byte, h]
        exact Or.inl ⟨trivial, trivial⟩
      | some w =>
        simp only [readDirect, Mem_read_byte, h]
        exact Or.inr ⟨trivial, storeData_clean _ _ hq (by rw [h]; exact Option.some_ne_none w)⟩
    | c + 2 =>
      cases h : a.rdIn a.nrd with
      | none =>
        simp only [readDirect, Mem_read_byte, h]
        exact Or.inl ⟨trivial, trivial⟩
      | some w =>
        simp only [readDirect, Mem_read_byte, h]
        have hb := storeData_clean (w % 65536) i hq (by rw [h]; exact Option.some_ne_none w)
        rcases ih c (by omega) (i + 1) _ hb with ⟨h1, h2⟩ | ⟨h1, h2⟩
        · exact Or.inl ⟨h1, h2⟩
        · exact Or.inr ⟨h1, h2⟩

theorem readIndirect_outcome {s : Dte} :
    ∀ (c i : Nat) (a : Dte), CleanRun s a →
      ((readIndirect c i a).1 = false ∧ (readIndirect c i a).2.STATUS = a.STATUS) ∨
      ((readIndirect c i a).1 = true ∧ CleanRun s (readIndirect c i a).2) := by
  intro c
  induction c using Nat.strong_induction_on with
  | _ c ih =>
    intro i a hq
    match c with
    | 0 =>
      cases h : a.rdIn a.nrd with
      | none =>
        simp only [readIndirect, Mem_read_byte, h]
        exact Or.inl ⟨trivial, trivial⟩
      | some w =>
        simp only [readIndirect, Mem_read_byte, h]
        exact Or.inr ⟨trivial, storeData_clean _ _ hq (by rw [h]; exact Option.some_ne_none w)⟩
    | 1 =>
      cases h : a.rdIn a.nrd with
      | none =>
        simp only [readIndirect, Mem_read_byte, h]
        exact Or.inl ⟨trivial, trivial⟩
      | some w =>
        simp only [readIndirect, Mem_read_byte, h]
        exact Or.inr ⟨trivial, storeData_clean _ _ hq (by rw [h]; exact Option.some_ne_none w)⟩
    | c + 2 =>
      cases h : a.rdIn a.nrd with
      | none =>
        simp only [readIndirect, Mem_read_byte, h]
        exact Or.inl ⟨trivial, trivial⟩
      | some w =>
        simp only [readIndirect, Mem_read_byte, h]
        have hb := storeData_clean (w % 65536) i hq (by rw [h]; exact Option.some_ne_none w)
        rcases ih c (by omega) (i + 1) _ hb with ⟨h1, h2⟩ | ⟨h1, h2⟩
        · exact Or.inl ⟨h1, h2⟩
        · exact Or.inr ⟨h1, h2⟩

theorem raiseIfEnabled_nrd (s : Dte) : (raiseIfEnabled s).nrd = s.nrd := by
  unfold raiseIfEnabled
  split <;> rfl

theorem raiseIfEnabled_ndep (s : Dte) : (raiseIfEnabled s).ndep = s.ndep := by
  unfold raiseIfEnabled
  split <;> rfl

theorem primaryDone_outcome {s a : Dte} (word : Nat) (hq : CleanRun s a) :
    Outcome s (primaryDone a word) := by
  obtain ⟨q1, q2, q3, q4, q5, q6, q7, q8⟩ := hq
  by_cases hd : a.depOk a.ndep = true
  · rw [primaryDone, Mem_deposit_word, if_pos hd]
    refine Or.inr ⟨?_, ?_, ?_⟩
    · intro k h1 h2
      rw [raiseIfEnabled_nrd] at h2
      exact q5 k h1 h2
    · intro k h1 h2
      rw [raiseIfEnabled_ndep] at h2
      by_cases hk : k < a.ndep
      · exact q6 k h1 hk
      · have h3 : k < a.ndep + 1 := h2
        have hk' : k = a.ndep := by omega
        rw [hk', ← q2]
        exact hd
    · intro l
      rw [raiseIfEnabled_STATUS]
      show (a.STATUS ||| DTE_11DN) &&& DTE_SEC ≠ 0
      rw [or_and_disjoint _ (by decide)]
      exact q8 l
  · rw [primaryDone, Mem_deposit_word, if_neg hd]
    exact error_outcome q7

theorem loop_outcome {s : Dte} (p : Bool × Dte) (k : Dte → Dte) (a : Dte) :
    ((p.1 = false ∧ p.2.STATUS = a.STATUS) ∨ (p.1 = true ∧ CleanRun s p.2)) →
    CleanRun s a → (∀ b, CleanRun s b → Outcome s (k b)) →
    Outcome s (match p with
      | (false, b) => primaryError b
      | (true, b) => k b) := by
  intro h ha hk
  obtain ⟨r, b⟩ := p
  cases r with
  | false =>
    rcases h with ⟨_, h2⟩ | ⟨h1, _⟩
    · exact error_outcome ((congrArg (· &&& DTE_11DN) h2).trans ha.2.2.2.2.2.2.1)
    · exact Bool.noConfusion h1
  | true =>
    rcases h with ⟨h1, _⟩ | ⟨_, h2⟩
    · exact Bool.noConfusion h1
    · exact hk b h2

theorem deposit_outcome {s a : Dte} (off w : Nat) (k : Dte → Dte) (hq : CleanRun s a)
    (hk : ∀ b, CleanRun s b → Outcome s (k b)) :
    Outcome s (match Mem_deposit_word a off w with
      | (false, b) => primaryError b
      | (true, b) => k b) := by
  by_cases hd : a.depOk a.ndep = true
  · rw [Mem_deposit_word, if_pos hd]
    exact hk _ (cleanRun_dep hq hd rfl rfl rfl rfl rfl)
  · rw [Mem_deposit_word, if_neg hd]
    exact error_outcome hq.2.2.2.2.2.2.1

theorem primaryDirectEnd_outcome {s a : Dte} (word : Nat) (hq : CleanRun s a) :
    Outcome s (primaryDirectEnd word a) := by
  unfold primaryDirectEnd
  split
  · have h13 : CleanRun s (setIn { a with STATUS := a.STATUS ||| DTE_IND }
        fun p => { p with dcnt := p.data 0, sdev := p.data 0 }) :=
      cleanRun_frame hq rfl rfl rfl rfl (or_and_disjoint _ (by decide))
        (fun h => by
          show (a.STATUS ||| DTE_IND) &&& DTE_SEC ≠ 0
          rw [or_and_disjoint _ (by decide)]
          exact h)
    exact deposit_outcome _ _ _ h13 (fun b hb => primaryDone_outcome _ hb)
  · exact primaryDone_outcome _ (cleanRun_frame hq rfl rfl rfl rfl rfl id)

theorem primaryDirect_outcome {s a : Dte} (word : Nat) (hq : CleanRun s a) :
    Outcome s (primaryDirect word a) := by
  unfold primaryDirect
  dsimp only
  refine readThen_outcome _ ?_ ?_
  · exact cleanRun_frame hq rfl rfl rfl rfl rfl id
  intro d1 b1 h1
  dsimp only
  refine readThen_outcome _ ?_ ?_
  · exact cleanRun_frame h1 rfl rfl rfl rfl rfl id
  intro d2 b2 h2
  dsimp only
  refine readThen_outcome _ ?_ ?_
  · exact cleanRun_frame h2 rfl rfl rfl rfl rfl id
  intro d3 b3 h3
  dsimp only
  refine readThen_outcome _ ?_ ?_
  · exact cleanRun_frame h3 rfl rfl rfl rfl rfl id
  intro d4 b4 h4
  dsimp only
  have h5 : CleanRun s (setIn b4 fun p => { p with spare := d4 }) :=
    cleanRun_frame h4 rfl rfl rfl rfl rfl id
  exact loop_outcome _ _ _ (readDirect_outcome _ _ _ h5) h5
    (fun b hb => primaryDirectEnd_outcome word hb)

theorem primaryIndirect_outcome {s a : Dte} (c : Nat) (hq : CleanRun s a)
    (hc : a.exam (a.dte_et11_off + PRI_CMTW_CNT) = some c) :
    Outcome s (primaryIndirect a) := by
  unfold primaryIndirect
  simp only [Mem_examine_word, hc]
  have h3 : CleanRun s (setIn a fun p => { p with dcnt := c &&& 0o177777 }) :=
    cleanRun_frame hq rfl rfl rfl rfl rfl id
  refine loop_outcome _ _ _ (readIndirect_outcome _ _ _ h3) h3 ?_
  intro b hb
  refine primaryDone_outcome _ (cleanRun_frame hb rfl rfl rfl rfl ?_ ?_)
  · exact clearBits_and_disjoint b.STATUS (show DTE_IND &&& DTE_11DN = 0 by decide)
  · intro h
    show clearBits b.STATUS DTE_IND &&& DTE_SEC ≠ 0
    rw [clearBits_and_disjoint b.STATUS (show DTE_IND &&& DTE_SEC = 0 by decide)]
    exact h

theorem error_settled {IP : Nat} {s a : Dte}
    (h11 : a.STATUS &&& DTE_11DN = s.STATUS &&& DTE_11DN) :
    Settled IP s (primaryError a) := by
  refine Or.inl ⟨?_, ?_⟩
  · show (a.STATUS ||| DTE_SEC) &&& DTE_SEC ≠ 0
    rw [or_and_self]
    decide
  · show (a.STATUS ||| DTE_SEC) &&& DTE_11DN = s.STATUS &&& DTE_11DN
    rw [or_and_disjoint _ (by decide)]
    exact h11

theorem outcome_settled {IP : Nat} {s s' : Dte} (h : Outcome s s')
    (h1 : s.exam (s.dte_et11_off + PRI_CMTW_STS) ≠ none)
    (h2 : ¬ ∃ W, s.exam (s.dte_et11_off + PRI_CMTW_STS) = some W ∧ W &&& IP ≠ 0 ∧
      s.STATUS &&& DTE_IND ≠ 0 ∧ s.exam (s.dte_et11_off + PRI_CMTW_CNT) = none) :
    Settled IP s s' := by
  rcases h with h | ⟨r, d, q⟩
  · exact Or.inl h
  · refine Or.inr ⟨?_, q⟩
    rintro (f | f | ⟨k, k1, k2, k3⟩ | ⟨k, k1, k2, k3⟩)
    · exact h1 f
    · exact h2 f
    · exact r k k1 k2 k3
    · have hk := d k k1 k2
      rw [k3] at hk
      exact Bool.noConfusion hk

theorem primaryBranch_settled (IP W : Nat) (s s2 : Dte)
    (hW : s.exam (s.dte_et11_off + PRI_CMTW_STS) = some W)
    (hq : CleanRun s s2) (hex : s2.exam = s.exam)
    (het : s2.dte_et11_off = s.dte_et11_off)
    (hnr : s2.nrd = s.nrd) (hnd : s2.ndep = s.ndep)
    (hind : s2.STATUS &&& DTE_IND = s.STATUS &&& DTE_IND) :
    Settled IP s
      (if W &&& IP ≠ 0 then
        if s2.STATUS &&& DTE_IND = 0 then s2 else primaryIndirect s2
      else primaryDirect W s2) := by
  have h1 : s.exam (s.dte_et11_off + PRI_CMTW_STS) ≠ none := by
    rw [hW]
    exact Option.some_ne_none W
  by_cases hip : W &&& IP ≠ 0
  · rw [if_pos hip]
    by_cases hi : s2.STATUS &&& DTE_IND = 0
    · rw [if_pos hi]
      refine Or.inr ⟨?_, hq.2.2.2.2.2.2.2⟩
      rintro (f | ⟨W', _, _, f, _⟩ | ⟨k, k1, k2, _⟩ | ⟨k, k1, k2, _⟩)
      · exact h1 f
      · rw [hind] at hi
        exact f hi
      · omega
      · omega
    · rw [if_neg hi]
      cases hc : s.exam (s.dte_et11_off + PRI_CMTW_CNT) with
      | none =>
        have e : primaryIndirect s2 = primaryError s2 := by
          unfold primaryIndirect
          simp only [Mem_examine_word, hex, het, hc]
        rw [e]
        exact error_settled hq.2.2.2.2.2.2.1
      | some c =>
        apply outcome_settled (primaryIndirect_outcome c hq (by rw [hex, het]; exact hc)) h1
        rintro ⟨W', _, _, _, f⟩
        rw [hc] at f
        exact Option.noConfusion f
  · rw [if_neg hip]
    apply outcome_settled (primaryDirect_outcome W hq) h1
    rintro ⟨W', e, f, _⟩
    rw [hW] at e
    cases e
    exact hip f

theorem receive_settled (IP : Nat) (s : Dte) (hdb : s.STATUS &&& DTE_11DB ≠ 0)
    (hroom : (s.dte_in_ptr + 1) &&& 0x1f ≠ s.dte_in_cmd) :
    Settled IP s (dte_primary IP s) := by
  rw [dte_primary, if_neg hdb, if_neg hroom]
  cases hW : s.exam (s.dte_et11_off + PRI_CMTW_STS) with
  | none =>
    simp only [Mem_examine_word, hW]
    exact error_settled (clearBits_and_disjoint s.STATUS (show DTE_11DB &&& DTE_11DN = 0 by decide))
  | some W =>
    simp only [Mem_examine_word, hW]
    by_cases hqp : W &&& PRI_CMT_QP = 0
    · rw [if_pos hqp]
      refine primaryBranch_settled IP W s _ hW ⟨rfl, rfl, Nat.le_refl _, Nat.le_refl _,
        fun k a b => absurd (Nat.lt_of_le_of_lt a b) (Nat.lt_irrefl _),
        fun k a b => absurd (Nat.lt_of_le_of_lt a b) (Nat.lt_irrefl _), ?_, ?_⟩
        rfl rfl rfl rfl ?_
      · show (clearBits s.STATUS DTE_11DB ||| DTE_SEC) &&& DTE_11DN = s.STATUS &&& DTE_11DN
        rw [or_and_disjoint _ (by decide), clearBits_and_disjoint _ (by decide)]
      · intro _
        show (clearBits s.STATUS DTE_11DB ||| DTE_SEC) &&& DTE_SEC ≠ 0
        rw [or_and_self]
        decide
      · show (clearBits s.STATUS DTE_11DB ||| DTE_SEC) &&& DTE_IND = s.STATUS &&& DTE_IND
        rw [or_and_disjoint _ (by decide), clearBits_and_disjoint _ (by decide)]
    · rw [if_neg hqp]
      refine primaryBranch_settled IP W s _ hW ⟨rfl, rfl, Nat.le_refl _, Nat.le_refl _,
        fun k a b => absurd (Nat.lt_of_le_of_lt a b) (Nat.lt_irrefl _),
        fun k a b => absurd (Nat.lt_of_le_of_lt a b) (Nat.lt_irrefl _), ?_, ?_⟩
        rfl rfl rfl rfl ?_
      · exact clearBits_and_disjoint s.STATUS (show DTE_11DB &&& DTE_11DN = 0 by decide)
      · rintro ⟨W', e, f⟩
        rw [hW] at e
        cases e
        exact absurd f hqp
      · exact clearBits_and_disjoint s.STATUS (show DTE_11DB &&& DTE_IND = 0 by decide)

/-- C20: when `dte_primary` runs with the TO11 doorbell set and room in the
inbound queue, the unit is in secondary mode afterwards (`DTE_SEC` set) if
the status word could not be read (the first case of `accessFailed`), if it
lacks the queued-protocol flag, or if any further mailbox access of the
activation failed; and when any access failed, the ToElevenDone flag
`DTE_11DN` is left as it was. -/
theorem C20_receive_failure_falls_back (IP : Nat) (s : Dte)
    (hdb : s.STATUS &&& DTE_11DB ≠ 0)
    (hroom : (s.dte_in_ptr + 1) &&& 0x1f ≠ s.dte_in_cmd) :
    (lacksQP s ∨ accessFailed IP s (dte_primary IP s) →
      (dte_primary IP s).STATUS &&& DTE_SEC ≠ 0) ∧
    (accessFailed IP s (dte_primary IP s) →
      (dte_primary IP s).STATUS &&& DTE_11DN = s.STATUS &&& DTE_11DN) := by
  rcases receive_settled IP s hdb hroom with ⟨a, b⟩ | ⟨nf, q⟩
  · exact ⟨fun _ => a, fun _ => b⟩
  · exact ⟨fun h => h.elim q (fun f => absurd f nf), fun f => absurd f nf⟩

/-- C20 at a concrete state: the third read of the frame fails, so the unit
falls back to secondary mode and ToElevenDone stays clear. -/
theorem C20_witness :
    c20State.STATUS &&& DTE_11DB ≠ 0 ∧
    (c20State.dte_in_ptr + 1) &&& 0x1f ≠ c20State.dte_in_cmd ∧
    accessFailed 0o400000 c20State (dte_primary 0o400000 c20State) ∧
    (dte_primary 0o400000 c20State).STATUS &&& DTE_SEC ≠ 0 ∧
    (dte_primary 0o400000 c20State).STATUS &&& DTE_11DN = 0 := by
  have hf : accessFailed 0o400000 c20State (dte_primary 0o400000 c20State) :=
    Or.inr (Or.inr (Or.inl ⟨2, by decide, by decide, by decide⟩))
  have h := C20_receive_failure_falls_back 0o400000 c20State (by decide) (by decide)
  exact ⟨by decide, by decide, hf, h.1 (Or.inr hf), h.2 hf⟩

/-! ## Dispatch of received packets -/

theorem loopEnd_snd (r : Bool × Dte) : (loopEnd r).2 = r.2 := by
  obtain ⟨b, t⟩ := r
  cases b
  · rfl
  · unfold loopEnd
    dsimp only
    split <;> rfl

theorem testBit_clearBits (x m i : Nat) :
    (clearBits x m).testBit i = (x.testBit i && !m.testBit i) := by
  rw [clearBits, Nat.testBit_xor, Nat.testBit_and]
  cases x.testBit i <;> cases m.testBit i <;> rfl

/-- C22: for every receive activation (`dte_primary` with DoorbellToEleven
set and room in the inbound queue) whose mailbox status word has the
queued-protocol and indirect-pending flags set while IndirectNext is clear,
the activation only clears DoorbellToEleven and the interrupt line: the
inbound cursors, every packet slot, memory and the deposits are unchanged,
no word is read, ToElevenDone, IndirectNext and SecondaryMode keep their
values, and every bit of LinkStatus other than DoorbellToEleven is as
before. -/
theorem C22_out_of_sync_abandons (IP : Nat) (s : Dte) (W : Nat)
    (hdb : s.STATUS &&& DTE_11DB ≠ 0)
    (hroom : (s.dte_in_ptr + 1) % 32 ≠ s.dte_in_cmd)
    (hW : s.exam (s.dte_et11_off + PRI_CMTW_STS) = some W)
    (hqp : W &&& PRI_CMT_QP ≠ 0) (hip : W &&& IP ≠ 0)
    (hind : s.STATUS &&& DTE_IND = 0) :
    dte_primary IP s = { s with STATUS := clearBits s.STATUS DTE_11DB, irq := none } ∧
    (dte_primary IP s).dte_in_ptr = s.dte_in_ptr ∧
    (dte_primary IP s).dte_in_cmd = s.dte_in_cmd ∧
    (dte_primary IP s).dte_in = s.dte_in ∧
    (dte_primary IP s).M = s.M ∧ (dte_primary IP s).deps = s.deps ∧
    (dte_primary IP s).ndep = s.ndep ∧ (dte_primary IP s).nrd = s.nrd ∧
    (dte_primary IP s).STATUS &&& DTE_11DN = s.STATUS &&& DTE_11DN ∧
    (dte_primary IP s).STATUS &&& DTE_IND = s.STATUS &&& DTE_IND ∧
    (dte_primary IP s).STATUS &&& DTE_SEC = s.STATUS &&& DTE_SEC ∧
    (dte_primary IP s).STATUS &&& DTE_11DB = 0 ∧
    (∀ i, DTE_11DB.testBit i = false →
      (dte_primary IP s).STATUS.testBit i = s.STATUS.testBit i) := by
  have hroom' : ¬ (s.dte_in_ptr + 1) &&& 0x1f = s.dte_in_cmd := by
    rw [and_31]
    exact hroom
  have key : dte_primary IP s = { s with STATUS := clearBits s.STATUS DTE_11DB, irq := none } := by
    rw [dte_primary, if_neg hdb, if_neg hroom']
    simp only [Mem_examine_word, hW]
    rw [if_neg hqp, if_pos hip, if_pos]
    show clearBits s.STATUS DTE_11DB &&& DTE_IND = 0
    rw [clearBits_and_disjoint _ (by decide)]
    exact hind
  rw [key]
  refine ⟨rfl, rfl, rfl, rfl, rfl, rfl, rfl, rfl, ?_, ?_, ?_, ?_, ?_⟩
  · exact clearBits_and_disjoint s.STATUS (show DTE_11DB &&& DTE_11DN = 0 by decide)
  · exact clearBits_and_disjoint s.STATUS (show DTE_11DB &&& DTE_IND = 0 by decide)
  · exact clearBits_and_disjoint s.STATUS (show DTE_11DB &&& DTE_SEC = 0 by decide)
  · exact clearBits_and_self s.STATUS DTE_11DB
  · intro i hi
    show (clearBits s.STATUS DTE_11DB).testBit i = _
    rw [testBit_clearBits, hi]
    simp

theorem clearIf_and_disjoint (c : Prop) [Decidable c] (x : Nat) {a m : Nat}
    (h : a &&& m = 0) : clearIf c x a &&& m = x &&& m := by
  unfold clearIf
  split
  · exact clearBits_and_disjoint x h
  · rfl

theorem setIf_and_disjoint (c : Prop) [Decidable c] (x : Nat) {a m : Nat}
    (h : a &&& m = 0) : setIf c x a &&& m = x &&& m := by
  unfold setIf
  split
  · exact or_and_disjoint x h
  · rfl

theorem clearIf_and_self (c : Prop) [Decidable c] (x a : Nat) :
    clearIf c x a &&& a = if c then 0 else x &&& a := by
  unfold clearIf
  split
  · exact clearBits_and_self x a
  · rfl

theorem setIf_and_self (c : Prop) [Decidable c] (x a : Nat) :
    setIf c x a &&& a = if c then a else x &&& a := by
  unfold setIf
  split
  · exact or_and_self x a
  · rfl

theorem and_and_disjoint (r : Nat) {a m : Nat} (h : a &&& m = 0) : (r &&& a) &&& m = 0 := by
  rw [Nat.land_assoc, h, Nat.and_zero]

theorem load_and_self (x r a : Nat) : (clearBits x a ||| (r &&& a)) &&& a = r &&& a := by
  apply Nat.eq_of_testBit_eq
  intro i
  rw [Nat.testBit_and, Nat.testBit_or, Nat.testBit_and, clearBits, Nat.testBit_xor,
    Nat.testBit_and]
  cases x.testBit i <;> cases a.testBit i <;> cases r.testBit i <;> rfl

theorem load_and_disjoint (x r : Nat) {a m : Nat} (h : a &&& m = 0) :
    (clearBits x a ||| (r &&& a)) &&& m = x &&& m := by
  rw [Nat.land_comm, Nat.and_or_distrib_left, Nat.land_comm m (clearBits x a),
    Nat.land_comm m (r &&& a), and_and_disjoint r h, Nat.or_zero,
    clearBits_and_disjoint x h]

theorem conoLoad_and_disjoint (c : Prop) [Decidable c] (x r : Nat) {a m : Nat}
    (h : a &&& m = 0) :
    (if c then clearBits x a ||| (r &&& a) else x) &&& m = x &&& m := by
  split
  · exact load_and_disjoint x r h
  · rfl

theorem cono_res (RMASK b : Nat) (hR : RMASK = 0o777777) :
    (b &&& RMASK) % 4294967296 = b % 262144 := by
  subst hR
  have h : b &&& 0o777777 = b % 262144 := Nat.and_pow_two_sub_one_eq_mod b 18
  rw [h]
  exact Nat.mod_eq_of_lt (Nat.lt_trans (Nat.mod_lt _ (by decide)) (by decide))

theorem dte_devio_CONO_STATUS (RMASK : Nat) (s : Dte) (b : Nat) :
    (dte_devio_CONO RMASK s b).STATUS = conoStatus ((b &&& RMASK) % 4294967296) s.STATUS := by
  unfold dte_devio_CONO
  dsimp only
  split <;> rfl

theorem and_comm_zero {a m : Nat} (h : m &&& a = 0) : a &&& m = 0 := by
  rw [Nat.land_comm]
  exact h

/-- C23: for every LinkStatus and control word `b`, taken mod 2^18 (the mask
`RMASK` of `kx10_defs.h`), the case CONO of `dte_devio` leaves a status in
which InterruptEnable and InterruptChannel are the low 4 bits of `b` iff
bit 020 of `b` is set; ToElevenDone and ToElevenError are cleared iff bit
0100 is set; ToTenDone and ToTenError are cleared iff bit 040 is set;
DoorbellToTen is cleared iff bit 01000 is set; ReloadEleven is set if bit
04000 is set, else cleared if bit 010000 is set, else unchanged;
DoorbellToEleven is set iff bit 020000 is set; and every bit outside these
fields (any mask `m` disjoint from them, such as TransferToEleven,
SecondaryMode, IndirectNext, SendIndirectNext, RestrictedMode, Dead11) is
unchanged. -/
theorem C23_write_control_status (RMASK : Nat) (s : Dte) (b : Nat)
    (hR : RMASK = 0o777777) :
    (dte_devio_CONO RMASK s b).STATUS &&& (DTE_PIA ||| DTE_PIE) =
      (if b % 262144 &&& DTE_PIENB ≠ 0 then b % 262144 &&& (DTE_PIA ||| DTE_PIE)
       else s.STATUS &&& (DTE_PIA ||| DTE_PIE)) ∧
    (dte_devio_CONO RMASK s b).STATUS &&& (DTE_11DN ||| DTE_11ER) =
      (if b % 262144 &&& DTE_CO11CL ≠ 0 then 0 else s.STATUS &&& (DTE_11DN ||| DTE_11ER)) ∧
    (dte_devio_CONO RMASK s b).STATUS &&& (DTE_10DN ||| DTE_10ER) =
      (if b % 262144 &&& DTE_CO10CL ≠ 0 then 0 else s.STATUS &&& (DTE_10DN ||| DTE_10ER)) ∧
    (dte_devio_CONO RMASK s b).STATUS &&& DTE_10DB =
      (if b % 262144 &&& DTE_CO10DB ≠ 0 then 0 else s.STATUS &&& DTE_10DB) ∧
    (dte_devio_CONO RMASK s b).STATUS &&& DTE_11RELD =
      (if b % 262144 &&& DTE_CO11SR ≠ 0 then DTE_11RELD
       else if b % 262144 &&& DTE_CO11CR ≠ 0 then 0 else s.STATUS &&& DTE_11RELD) ∧
    (dte_devio_CONO RMASK s b).STATUS &&& DTE_11DB =
      (if b % 262144 &&& DTE_CO11DB ≠ 0 then DTE_11DB else s.STATUS &&& DTE_11DB) ∧
    (∀ m, m &&& (DTE_PIA ||| DTE_PIE ||| DTE_11DN ||| DTE_11ER ||| DTE_10DN ||| DTE_10ER
          ||| DTE_10DB ||| DTE_11RELD ||| DTE_11DB) = 0 →
      (dte_devio_CONO RMASK s b).STATUS &&& m = s.STATUS &&& m) := by
  rw [dte_devio_CONO_STATUS, cono_res RMASK b hR]
  unfold conoStatus
  dsimp only
  refine ⟨?_, ?_, ?_, ?_, ?_, ?_, ?_⟩
  · rw [setIf_and_disjoint _ _ (by decide), setIf_and_disjoint _ _ (by decide),
      clearIf_and_disjoint _ _ (by decide), clearIf_and_disjoint _ _ (by decide),
      clearIf_and_disjoint _ _ (by decide), clearIf_and_disjoint _ _ (by decide)]
    split
    · exact load_and_self _ _ _
    · rfl
  · rw [setIf_and_disjoint _ _ (by decide), setIf_and_disjoint _ _ (by decide),
      clearIf_and_disjoint _ _ (by decide), clearIf_and_disjoint _ _ (by decide),
      clearIf_and_disjoint _ _ (by decide), clearIf_and_self,
      conoLoad_and_disjoint _ _ _ (by decide)]
  · rw [setIf_and_disjoint _ _ (by decide), setIf_and_disjoint _ _ (by decide),
      clearIf_and_disjoint _ _ (by decide), clearIf_and_disjoint _ _ (by decide),
      clearIf_and_self, clearIf_and_disjoint _ _ (by decide),
      conoLoad_and_disjoint _ _ _ (by decide)]
  · rw [setIf_and_disjoint _ _ (by decide), setIf_and_disjoint _ _ (by decide),
      clearIf_and_disjoint _ _ (by decide), clearIf_and_self,
      clearIf_and_disjoint _ _ (by decide), clearIf_and_disjoint _ _ (by decide),
      conoLoad_and_disjoint _ _ _ (by decide)]
  · rw [setIf_and_disjoint _ _ (by decide), setIf_and_self, clearIf_and_self,
      clearIf_and_disjoint _ _ (by decide), clearIf_and_disjoint _ _ (by decide),
      clearIf_and_disjoint _ _ (by decide), conoLoad_and_disjoint _ _ _ (by decide)]
  · rw [setIf_and_self, setIf_and_disjoint _ _ (by decide),
      clearIf_and_disjoint _ _ (by decide), clearIf_and_disjoint _ _ (by decide),
      clearIf_and_disjoint _ _ (by decide), clearIf_and_disjoint _ _ (by decide),
      conoLoad_and_disjoint _ _ _ (by decide)]
  · intro m hm
    have h1 := and_eq_zero_of_and_or_right hm
    have hm := and_eq_zero_of_and_or_left hm
    have h2 := and_eq_zero_of_and_or_right hm
    have hm := and_eq_zero_of_and_or_left hm
    have h3 := and_eq_zero_of_and_or_right hm
    have hm := and_eq_zero_of_and_or_left hm
    have h4 := and_eq_zero_of_and_or_right hm
    have hm := and_eq_zero_of_and_or_left hm
    have h5 := and_eq_zero_of_and_or_right hm
    have hm := and_eq_zero_of_and_or_left hm
    have h6 := and_eq_zero_of_and_or_right hm
    have hm := and_eq_zero_of_and_or_left hm
    have h7 := and_eq_zero_of_and_or_right hm
    have hm := and_eq_zero_of_and_or_left hm
    have h8 := and_eq_zero_of_and_or_right hm
    have h9 := and_eq_zero_of_and_or_left hm
    rw [setIf_and_disjoint _ _ (and_comm_zero h1), setIf_and_disjoint _ _ (and_comm_zero h2),
      clearIf_and_disjoint _ _ (and_comm_zero h2),
      clearIf_and_disjoint _ _ (and_comm_zero h3),
      clearIf_and_disjoint _ _ (and_comm_zero (and_or_eq_zero h5 h4)),
      clearIf_and_disjoint _ _ (and_comm_zero (and_or_eq_zero h7 h6)),
      conoLoad_and_disjoint _ _ _ (and_comm_zero (and_or_eq_zero h9 h8))]

theorem lor_eq_zero_iff (a b : Nat) : a ||| b = 0 ↔ a = 0 ∧ b = 0 := by
  constructor
  · intro h
    constructor
    · apply Nat.eq_of_testBit_eq
      intro i
      have hi : (a ||| b).testBit i = false := by rw [h, Nat.zero_testBit]
      rw [Nat.testBit_or] at hi
      rw [Nat.zero_testBit]
      revert hi
      cases a.testBit i <;> simp
    · apply Nat.eq_of_testBit_eq
      intro i
      have hi : (a ||| b).testBit i = false := by rw [h, Nat.zero_testBit]
      rw [Nat.testBit_or] at hi
      rw [Nat.zero_testBit]
      revert hi
      cases b.testBit i <;> simp
  · rintro ⟨rfl, rfl⟩
    rfl

theorem and_or_ne_zero_iff (x a b : Nat) :
    x &&& (a ||| b) ≠ 0 ↔ x &&& a ≠ 0 ∨ x &&& b ≠ 0 := by
  rw [Nat.and_or_distrib_left, Ne, lor_eq_zero_iff]
  tauto

theorem dte_devio_CONO_irq (RMASK : Nat) (s : Dte) (b : Nat) :
    (dte_devio_CONO RMASK s b).irq =
      if (dte_devio_CONO RMASK s b).STATUS &&& DTE_PIE ≠ 0 ∧
          (dte_devio_CONO RMASK s b).STATUS &&&
            (DTE_10DB ||| DTE_11DN ||| DTE_10DN ||| DTE_11ER ||| DTE_10ER) ≠ 0
      then some (dte_devio_CONO RMASK s b).STATUS else none := by
  rw [dte_devio_CONO_STATUS]
  unfold dte_devio_CONO
  dsimp only
  split
  · rfl
  · rfl

/-- C24, as the code has it: for every LinkStatus and control word, after the
case CONO of `dte_devio` the interrupt line is raised, with the resulting
LinkStatus as data, if InterruptEnable is set and at least one of
DoorbellToTen, ToElevenDone, ToTenDone, ToElevenError, ToTenError is set in
the resulting LinkStatus; otherwise the line is left cleared.
DoorbellToEleven is not among the bits that raise it. -/
theorem C24_write_control_interrupt (RMASK : Nat) (s : Dte) (b : Nat) :
    ((dte_devio_CONO RMASK s b).STATUS &&& DTE_PIE ≠ 0 ∧
      ((dte_devio_CONO RMASK s b).STATUS &&& DTE_10DB ≠ 0 ∨
       (dte_devio_CONO RMASK s b).STATUS &&& DTE_11DN ≠ 0 ∨
       (dte_devio_CONO RMASK s b).STATUS &&& DTE_10DN ≠ 0 ∨
       (dte_devio_CONO RMASK s b).STATUS &&& DTE_11ER ≠ 0 ∨
       (dte_devio_CONO RMASK s b).STATUS &&& DTE_10ER ≠ 0) →
      (dte_devio_CONO RMASK s b).irq = some (dte_devio_CONO RMASK s b).STATUS) ∧
    (¬ ((dte_devio_CONO RMASK s b).STATUS &&& DTE_PIE ≠ 0 ∧
      ((dte_devio_CONO RMASK s b).STATUS &&& DTE_10DB ≠ 0 ∨
       (dte_devio_CONO RMASK s b).STATUS &&& DTE_11DN ≠ 0 ∨
       (dte_devio_CONO RMASK s b).STATUS &&& DTE_10DN ≠ 0 ∨
       (dte_devio_CONO RMASK s b).STATUS &&& DTE_11ER ≠ 0 ∨
       (dte_devio_CONO RMASK s b).STATUS &&& DTE_10ER ≠ 0)) →
      (dte_devio_CONO RMASK s b).irq = none) := by
  have h := dte_devio_CONO_irq RMASK s b
  have e : (dte_devio_CONO RMASK s b).STATUS &&&
        (DTE_10DB ||| DTE_11DN ||| DTE_10DN ||| DTE_11ER ||| DTE_10ER) ≠ 0 ↔
      ((dte_devio_CONO RMASK s b).STATUS &&& DTE_10DB ≠ 0 ∨
       (dte_devio_CONO RMASK s b).STATUS &&& DTE_11DN ≠ 0 ∨
       (dte_devio_CONO RMASK s b).STATUS &&& DTE_10DN ≠ 0 ∨
       (dte_devio_CONO RMASK s b).STATUS &&& DTE_11ER ≠ 0 ∨
       (dte_devio_CONO RMASK s b).STATUS &&& DTE_10ER ≠ 0) := by
    rw [and_or_ne_zero_iff, and_or_ne_zero_iff, and_or_ne_zero_iff, and_or_ne_zero_iff]
    tauto
  constructor
  · rintro ⟨h1, h2⟩
    rw [h, if_pos ⟨h1, e.mpr h2⟩]
  · intro hn
    rw [h, if_neg (fun hc => hn ⟨hc.1, e.mp hc.2⟩)]

/-- C24 fails as stated: from the initial state the control word 020030
(ring the TO11 doorbell, load PI with the enable bit) leaves InterruptEnable
and DoorbellToEleven set, and the interrupt line cleared. -/
theorem C24_counterexample :
    (dte_devio_CONO 0o777777 {} 0o20030).STATUS &&& DTE_PIE ≠ 0 ∧
    (dte_devio_CONO 0o777777 {} 0o20030).STATUS &&& DTE_11DB ≠ 0 ∧
    (dte_devio_CONO 0o777777 {} 0o20030).irq = none := by
  decide

theorem functionCase_default (s : Dte)
    (h1 : (s.dte_in s.dte_in_cmd).func &&& 0o377 ≠ PRI_EM2EI)
    (h2 : (s.dte_in s.dte_in_cmd).func &&& 0o377 ≠ PRI_EMSTR)
    (h3 : (s.dte_in s.dte_in_cmd).func &&& 0o377 ≠ PRI_EMSNA)
    (h4 : (s.dte_in s.dte_in_cmd).func &&& 0o377 ≠ PRI_EMFLO)
    (h5 : (s.dte_in s.dte_in_cmd).func &&& 0o377 ≠ PRI_EMHUD)
    (h6 : (s.dte_in s.dte_in_cmd).func &&& 0o377 ≠ PRI_EMXOF)
    (h7 : (s.dte_in s.dte_in_cmd).func &&& 0o377 ≠ PRI_EMXON)
    (h8 : (s.dte_in s.dte_in_cmd).func &&& 0o377 ≠ PRI_EMEDR) :
    functionCase s = (true, s) := by
  unfold functionCase
  dsimp only
  rw [if_neg h1, if_neg h2, if_neg h3, if_neg h4, if_neg h5, if_neg h6, if_neg h7, if_neg h8]

theorem markFinished_eq (s : Dte) :
    markFinished s =
      { s with dte_in := Function.update s.dte_in s.dte_in_cmd
                 { s.dte_in s.dte_in_cmd with cnt := 0 },
               dte_in_cmd := (s.dte_in_cmd + 1) % 32 } := by
  unfold markFinished setCmd
  simp only [and_31]

/-- C25: for every inbound head packet whose function code (low 8 bits) is
0, 006, 010 or at least 032, with the inbound queue not empty and the
outbound queue not full, the switch of `dte_function` changes nothing, and
the activation goes on from the state that differs from the prior one only
in the length of the packet, reset to zero, and the inbound head, advanced
by 1 mod 32. -/
theorem C25_unknown_function_noop (fuel : Nat) (s : Dte)
    (hne : s.dte_in_cmd ≠ s.dte_in_ptr)
    (hout : (s.dte_out_res + 1) % 32 ≠ s.dte_out_ptr)
    (hf : (s.dte_in s.dte_in_cmd).func % 256 = 0 ∨ (s.dte_in s.dte_in_cmd).func % 256 = 0o6 ∨
      (s.dte_in s.dte_in_cmd).func % 256 = 0o10 ∨ 0o32 ≤ (s.dte_in s.dte_in_cmd).func % 256) :
    functionCase s = (true, s) ∧
    dte_function (fuel + 1) s =
      dte_function fuel
        { s with dte_in := Function.update s.dte_in s.dte_in_cmd
                   { s.dte_in s.dte_in_cmd with cnt := 0 },
                 dte_in_cmd := (s.dte_in_cmd + 1) % 32 } := by
  have hm : (s.dte_in s.dte_in_cmd).func &&& 0o377 = (s.dte_in s.dte_in_cmd).func % 256 :=
    and_255 _
  have hc : functionCase s = (true, s) := by
    apply functionCase_default <;> rw [hm] <;>
      simp only [PRI_EM2EI, PRI_EMSTR, PRI_EMSNA, PRI_EMFLO, PRI_EMHUD, PRI_EMXOF, PRI_EMXON,
        PRI_EMEDR] <;> omega
  refine ⟨hc, ?_⟩
  rw [dte_function, if_neg hne, if_neg (by rw [and_31]; exact hout), hc]
  dsimp only
  rw [markFinished_eq]

/-- C26 fails: a flush-output packet for the combined lines whose line byte
is 0 selects `ln = -1`, and dispatch zeroes the cursors stored before
`tty_out[0]`; an XOFF packet that selects line 254 while 16 lines are
configured makes dispatch write `tty_ldsc[254].rcve`. -/
theorem C26_line_select_unchecked :
    packetLine (c26State.dte_in c26State.dte_in_cmd) = -1 ∧
    (c26State.tty_out (-1)).in_ptr = 5 ∧
    (dte_function 32 c26State).map (fun t => ((t.tty_out (-1)).in_ptr, (t.tty_out (-1)).out_ptr))
      = some (0, 0) ∧
    packetLine (c26XoffState.dte_in c26XoffState.dte_in_cmd) = 254 ∧
    c26XoffState.tty_lines = 16 ∧ c26XoffState.tty_rcve 254 = 1 ∧
    (dte_function 32 c26XoffState).map (fun t => t.tty_rcve 254) = some 0 := by
  decide

/-- C29: for every prior state, `dte_reset` leaves the status of the engine
unit and of the input-service unit equal to exactly `DTE_SEC` (so every
other bit is clear) and the status of the clock unit equal to 0, and leaves
the four packet-queue cursors, all packet slots and all character channels
unchanged. -/
theorem C29_reset_status (s : Dte) :
    (dte_reset s).STATUS = DTE_SEC ∧ (dte_reset s).STATUS1 = DTE_SEC ∧
    (dte_reset s).STATUS2 = 0 ∧
    (∀ m, DTE_SEC &&& m = 0 → (dte_reset s).STATUS &&& m = 0 ∧ (dte_reset s).STATUS1 &&& m = 0) ∧
    (dte_reset s).dte_in_ptr = s.dte_in_ptr ∧ (dte_reset s).dte_in_cmd = s.dte_in_cmd ∧
    (dte_reset s).dte_out_ptr = s.dte_out_ptr ∧ (dte_reset s).dte_out_res = s.dte_out_res ∧
    (dte_reset s).dte_in = s.dte_in ∧ (dte_reset s).dte_out = s.dte_out ∧
    (dte_reset s).cty_in = s.cty_in ∧ (dte_reset s).cty_out = s.cty_out ∧
    (dte_reset s).lpt_queue = s.lpt_queue ∧ (dte_reset s).tty_out = s.tty_out := by
  refine ⟨rfl, rfl, rfl, ?_, rfl, rfl, rfl, rfl, rfl, rfl, rfl, rfl, rfl, rfl⟩
  intro m hm
  exact ⟨hm, hm⟩

theorem lptDrain_takes :
    ∀ (d fuel : Nat) (s : Dte), s.lpt_queue.in_ptr < 256 → s.lpt_queue.out_ptr < 256 →
      (s.lpt_queue.in_ptr + 255 - s.lpt_queue.out_ptr) % 256 = d → d ≤ fuel →
      ∃ t, lptDrain fuel s = some t ∧ t.lpt_queue.in_ptr = s.lpt_queue.in_ptr ∧
        t.lpt_queue.out_ptr = (s.lpt_queue.in_ptr + 255) % 256 ∧
        t.lpt_taken = s.lpt_taken ++
          (List.range d).map (fun i => s.lpt_queue.buff ((s.lpt_queue.out_ptr + i) % 256)) := by
  intro d
  induction d with
  | zero =>
    intro fuel s hin hout hd _
    have hc : ¬ (s.lpt_queue.out_ptr + 1) &&& 0xff ≠ s.lpt_queue.in_ptr := by
      rw [and_255]
      omega
    refine ⟨s, ?_, rfl, by omega, by simp⟩
    cases fuel with
    | zero => rw [lptDrain, if_neg hc]
    | succ f => rw [lptDrain, if_neg hc]
  | succ d ih =>
    intro fuel s hin hout hd hfuel
    obtain ⟨f, rfl⟩ : ∃ f, fuel = f + 1 := ⟨fuel - 1, by omega⟩
    have hc : (s.lpt_queue.out_ptr + 1) &&& 0xff ≠ s.lpt_queue.in_ptr := by
      rw [and_255]
      omega
    rw [lptDrain, if_pos hc]
    have ho : (lptTake s).lpt_queue.out_ptr = (s.lpt_queue.out_ptr + 1) % 256 := and_255 _
    have hi : (lptTake s).lpt_queue.in_ptr = s.lpt_queue.in_ptr := rfl
    have hb : (lptTake s).lpt_queue.buff = s.lpt_queue.buff := rfl
    have hl : (lptTake s).lpt_taken = s.lpt_taken ++ [s.lpt_queue.buff s.lpt_queue.out_ptr] :=
      rfl
    obtain ⟨t, e, t1, t2, t3⟩ := ih f (lptTake s) (by rw [hi]; exact hin)
      (by rw [ho]; omega) (by rw [hi, ho]; omega) (by omega)
    refine ⟨t, e, t1.trans hi, by rw [t2, hi], ?_⟩
    rw [t3, hl, hb, ho, List.append_assoc, List.range_succ_eq_map, List.map_cons, List.map_map]
    congr 1
    have h0 : (s.lpt_queue.out_ptr + 0) % 256 = s.lpt_queue.out_ptr := by omega
    rw [h0, List.singleton_append]
    congr 1
    apply List.map_congr_left
    intro i _
    show s.lpt_queue.buff (((s.lpt_queue.out_ptr + 1) % 256 + i) % 256) =
      s.lpt_queue.buff ((s.lpt_queue.out_ptr + (i + 1)) % 256)
    congr 1
    omega

theorem dte_queue_lpt (s : Dte) (f d n : Nat) (l : List Nat) :
    (dte_queue s f d n l).2.lpt_queue = s.lpt_queue ∧
    (dte_queue s f d n l).2.lpt_taken = s.lpt_taken := by
  unfold dte_queue
  split
  · exact ⟨rfl, rfl⟩
  · exact ⟨rfl, rfl⟩

/-- C30 fails: for every state of the printer channel with cursors in range
and the printer attached, one activation of `lpt_svc` returns and has taken
`(in + 255 - out) mod 256` bytes, in order from `out` on: one byte fewer
than the `k = (in - out) mod 256` buffered bytes when `k >= 1`, and 255
stale bytes when the channel is empty.  It always stops at
`out = (in + 255) mod 256`, so it never leaves the channel empty. -/
theorem C30_drain_keeps_one_byte (fuel : Nat) (s : Dte)
    (hatt : s.lpt_attached = true)
    (hin : s.lpt_queue.in_ptr < 256) (hout : s.lpt_queue.out_ptr < 256)
    (hfuel : 255 ≤ fuel) :
    ∃ t, lpt_svc fuel s = some t ∧ t.lpt_queue.in_ptr = s.lpt_queue.in_ptr ∧
      t.lpt_queue.out_ptr = (s.lpt_queue.in_ptr + 255) % 256 ∧
      t.lpt_queue.out_ptr ≠ t.lpt_queue.in_ptr ∧
      t.lpt_taken = s.lpt_taken ++
        (List.range ((s.lpt_queue.in_ptr + 255 - s.lpt_queue.out_ptr) % 256)).map
          (fun i => s.lpt_queue.buff ((s.lpt_queue.out_ptr + i) % 256)) := by
  obtain ⟨u, e, u1, u2, u3⟩ := lptDrain_takes _ fuel s hin hout rfl
    (Nat.le_trans (Nat.le_of_lt_succ (Nat.mod_lt _ (by decide))) hfuel)
  have hq := dte_queue_lpt u PRI_EMACK PRI_EMLPT 1 [0]
  rw [lpt_svc, if_neg (by rw [hatt]; decide), e]
  dsimp only
  split
  · refine ⟨_, rfl, ?_, ?_, ?_, ?_⟩
    · show (dte_queue u PRI_EMACK PRI_EMLPT 1 [0]).2.lpt_queue.in_ptr = _
      rw [hq.1, u1]
    · show (dte_queue u PRI_EMACK PRI_EMLPT 1 [0]).2.lpt_queue.out_ptr = _
      rw [hq.1, u2]
    · show (dte_queue u PRI_EMACK PRI_EMLPT 1 [0]).2.lpt_queue.out_ptr ≠
        (dte_queue u PRI_EMACK PRI_EMLPT 1 [0]).2.lpt_queue.in_ptr
      rw [hq.1, u1, u2]
      omega
    · show (dte_queue u PRI_EMACK PRI_EMLPT 1 [0]).2.lpt_taken = _
      rw [hq.2, u3]
  · refine ⟨_, rfl, ?_, ?_, ?_, ?_⟩
    · rw [hq.1, u1]
    · rw [hq.1, u2]
    · rw [hq.1, u1, u2]
      omega
    · rw [hq.2, u3]

/-- C30 at a channel that holds the one byte 0x41: the activation takes
nothing and leaves the byte in the channel. -/
theorem C30_witness :
    (lpt_svc 255 c30State).map
        (fun t => (t.lpt_taken, t.lpt_queue.out_ptr, t.lpt_queue.in_ptr)) = some ([], 0, 1) ∧
    ∃ t, lpt_svc 255 c30State = some t ∧ t.lpt_queue.in_ptr = c30State.lpt_queue.in_ptr ∧
      t.lpt_queue.out_ptr = (c30State.lpt_queue.in_ptr + 255) % 256 ∧
      t.lpt_queue.out_ptr ≠ t.lpt_queue.in_ptr ∧
      t.lpt_taken = c30State.lpt_taken ++
        (List.range ((c30State.lpt_queue.in_ptr + 255 - c30State.lpt_queue.out_ptr) % 256)).map
          (fun i => c30State.lpt_queue.buff ((c30State.lpt_queue.out_ptr + i) % 256)) :=
  ⟨by decide, C30_drain_keeps_one_byte 255 c30State rfl (by decide) (by decide) (by decide)⟩

theorem rtcClock_frame (FMASK : Nat) (v : Dte) :
    (rtcClock FMASK v).eb_ptr = v.eb_ptr ∧ (rtcClock FMASK v).dte_off = v.dte_off ∧
    (rtcClock FMASK v).STATUS &&& DTE_SEC = v.STATUS &&& DTE_SEC ∧
    QITS (rtcClock FMASK v) = QITS v := by
  unfold rtcClock
  split
  · dsimp only
    split
    · exact ⟨rfl, rfl, rfl, rfl⟩
    · exact ⟨rfl, rfl, or_and_disjoint _ (by decide), rfl⟩
  · exact ⟨rfl, rfl, rfl, rfl⟩

theorem dtertc_srv_noits (FMASK RMASK : Nat) (s : Dte) (hits : QITS s = false) :
    dtertc_srv FMASK RMASK s = rtcKeepAlive FMASK RMASK (rtcClock FMASK (rtcSchedule s)) := by
  have h : QITS (rtcClock FMASK (rtcSchedule s)) = false :=
    (rtcClock_frame FMASK (rtcSchedule s)).2.2.2.trans hits
  unfold dtertc_srv
  dsimp only
  rw [h]
  rfl

theorem dtertc_srv_secondary (FMASK RMASK : Nat) (s : Dte) (hits : QITS s = false)
    (hsec : s.STATUS &&& DTE_SEC ≠ 0) :
    dtertc_srv FMASK RMASK s = rtcClock FMASK (rtcSchedule s) := by
  rw [dtertc_srv_noits FMASK RMASK s hits, rtcKeepAlive, if_neg]
  rw [(rtcClock_frame FMASK (rtcSchedule s)).2.2.1]
  exact hsec

/-- C27, as the code has it: for every tick (`dtertc_srv`) with the secondary
clock armed, the engine unit in secondary mode and ITS paging not
selected: the 16-bit tick counter increases by 1 mod 2^16; if the wait
countdown is not zero it is decremented by 1 and memory, the deposits,
LinkStatus and the interrupt line are unchanged; if the wait countdown is
zero the clock-interrupt flag cell is set to `FMASK` and no other cell
changes, DoorbellToTen (not ToElevenDone) is set in LinkStatus and the
interrupt is raised with the new LinkStatus. -/
theorem C27_clock_tick (FMASK RMASK : Nat) (s : Dte)
    (harm : s.STATUS2 &&& SEC_CLK ≠ 0) (hsec : s.STATUS &&& DTE_SEC ≠ 0)
    (hits : QITS s = false) (hw : s.rtc_wait < 65536) :
    (dtertc_srv FMASK RMASK s).rtc_tick = (s.rtc_tick + 1) % 65536 ∧
    (s.rtc_wait ≠ 0 →
      (dtertc_srv FMASK RMASK s).rtc_wait = s.rtc_wait - 1 ∧
      (dtertc_srv FMASK RMASK s).M = s.M ∧
      (dtertc_srv FMASK RMASK s).deps = s.deps ∧
      (dtertc_srv FMASK RMASK s).STATUS = s.STATUS ∧
      (dtertc_srv FMASK RMASK s).irq = s.irq) ∧
    (s.rtc_wait = 0 →
      (dtertc_srv FMASK RMASK s).rtc_wait = 0 ∧
      (dtertc_srv FMASK RMASK s).M (SEC_DTCLK + (if s.KI_22BIT then s.eb_ptr else 0)) = FMASK ∧
      (∀ a, a ≠ SEC_DTCLK + (if s.KI_22BIT then s.eb_ptr else 0) →
        (dtertc_srv FMASK RMASK s).M a = s.M a) ∧
      (dtertc_srv FMASK RMASK s).STATUS = s.STATUS ||| DTE_10DB ∧
      (dtertc_srv FMASK RMASK s).STATUS &&& DTE_10DB ≠ 0 ∧
      (dtertc_srv FMASK RMASK s).irq = some (dtertc_srv FMASK RMASK s).STATUS) := by
  rw [dtertc_srv_secondary FMASK RMASK s hits hsec]
  have harm' : (rtcSchedule s).STATUS2 &&& SEC_CLK ≠ 0 := harm
  by_cases hz : s.rtc_wait = 0
  · have hz' : ¬ (rtcSchedule s).rtc_wait ≠ 0 := not_not.mpr hz
    have e : rtcClock FMASK (rtcSchedule s) =
        { setM { rtcSchedule s with rtc_tick := (s.rtc_tick + 1) % 65536 }
            (SEC_DTCLK + (if s.KI_22BIT then s.eb_ptr else 0)) FMASK with
          STATUS := s.STATUS ||| DTE_10DB, irq := some (s.STATUS ||| DTE_10DB) } := by
      rw [rtcClock, if_pos harm']
      dsimp only
      rw [if_neg hz']
      rfl
    rw [e]
    refine ⟨rfl, fun h => absurd hz h, fun _ => ⟨hz, ?_, ?_, rfl, ?_, rfl⟩⟩
    · exact Function.update_same _ _ _
    · intro a ha
      exact Function.update_noteq ha _ _
    · show (s.STATUS ||| DTE_10DB) &&& DTE_10DB ≠ 0
      rw [or_and_self]
      decide
  · have hz' : (rtcSchedule s).rtc_wait ≠ 0 := hz
    have e : rtcClock FMASK (rtcSchedule s) =
        { rtcSchedule s with rtc_tick := (s.rtc_tick + 1) % 65536,
                             rtc_wait := u16 ((s.rtc_wait : Int) - 1) } := by
      rw [rtcClock, if_pos harm']
      dsimp only
      rw [if_pos hz']
      rfl
    rw [e]
    refine ⟨rfl, fun _ => ⟨?_, rfl, rfl, rfl, rfl⟩, fun h => absurd h hz⟩
    show u16 ((s.rtc_wait : Int) - 1) = s.rtc_wait - 1
    unfold u16
    omega

/-- C27 fails as stated: with the clock armed and the wait countdown zero,
the tick leaves ToElevenDone clear and sets DoorbellToTen; and with the
clock armed, a wait countdown of 3 and SecondaryMode clear, the tick
changes the memory word 5 (the keep alive word). -/
theorem C27_counterexample :
    c27State.STATUS2 &&& SEC_CLK ≠ 0 ∧ c27State.rtc_wait = 0 ∧
    (dtertc_srv 0o777777777777 0o777777 c27State).STATUS &&& DTE_11DN = 0 ∧
    (dtertc_srv 0o777777777777 0o777777 c27State).STATUS &&& DTE_10DB ≠ 0 ∧
    c27Primary.STATUS2 &&& SEC_CLK ≠ 0 ∧ c27Primary.rtc_wait ≠ 0 ∧
    c27Primary.M 5 = 0 ∧ (dtertc_srv 0o777777777777 0o777777 c27Primary).M 5 = 1 := by
  decide

/-- C27 at a concrete state in secondary mode with a wait countdown of
zero. -/
theorem C27_witness :
    (dtertc_srv 0o777777777777 0o777777 c27State).rtc_tick = 1 ∧
    (dtertc_srv 0o777777777777 0o777777 c27State).M 0o445 = 0o777777777777 ∧
    (dtertc_srv 0o777777777777 0o777777 c27State).STATUS = DTE_SEC ||| DTE_10DB ∧
    (dtertc_srv 0o777777777777 0o777777 c27State).irq = some (DTE_SEC ||| DTE_10DB) := by
  have h := C27_clock_tick 0o777777777777 0o777777 c27State (by decide) (by decide) rfl
    (by decide)
  obtain ⟨h1, _, h3⟩ := h
  obtain ⟨_, m1, _, s1, _, i1⟩ := h3 rfl
  exact ⟨h1, m1, s1, by rw [i1, s1]; rfl⟩

theorem mask18 (x : Nat) : (x % 18446744073709551616) &&& 0o777777 = x % 262144 := by
  have h : (x % 18446744073709551616) &&& 0o777777 = (x % 18446744073709551616) % 262144 :=
    Nat.and_pow_two_sub_one_eq_mod _ 18
  rw [h]
  omega

theorem mask36 (x : Nat) : (x % 18446744073709551616) &&& 0o777777777777 = x % 68719476736 := by
  have h : (x % 18446744073709551616) &&& 0o777777777777 =
      (x % 18446744073709551616) % 68719476736 :=
    Nat.and_pow_two_sub_one_eq_mod _ 36
  rw [h]
  omega

/-- C28: for every tick (`dtertc_srv`) with ITS paging not selected, `FMASK`
the 36-bit mask and `RMASK` the 18-bit mask: while SecondaryMode is clear
in the engine unit's status, the keep alive word at address
(M[0145 + eb_ptr] + dte_off + 5) mod 2^18 is replaced by (old value + 1)
mod 2^36 and the keep alive part changes no other memory word; while
SecondaryMode is set the keep alive part writes nothing.  Memory before the
keep alive part is memory after the clock part of the same tick, which is
memory before the tick unless the clock is armed with a zero countdown. -/
theorem C28_keepalive_word (FMASK RMASK : Nat) (s : Dte)
    (hR : RMASK = 0o777777) (hF : FMASK = 0o777777777777) (hits : QITS s = false) :
    (s.STATUS &&& DTE_SEC = 0 →
      (dtertc_srv FMASK RMASK s).M
          (((rtcClock FMASK (rtcSchedule s)).M (0o145 + s.eb_ptr) + s.dte_off + 5) % 262144) =
        ((rtcClock FMASK (rtcSchedule s)).M
          (((rtcClock FMASK (rtcSchedule s)).M (0o145 + s.eb_ptr) + s.dte_off + 5) % 262144)
          + 1) % 68719476736 ∧
      ∀ a, a ≠ ((rtcClock FMASK (rtcSchedule s)).M (0o145 + s.eb_ptr) + s.dte_off + 5) % 262144 →
        (dtertc_srv FMASK RMASK s).M a = (rtcClock FMASK (rtcSchedule s)).M a) ∧
    (s.STATUS &&& DTE_SEC ≠ 0 →
      (dtertc_srv FMASK RMASK s).M = (rtcClock FMASK (rtcSchedule s)).M) ∧
    (s.STATUS2 &&& SEC_CLK = 0 ∨ s.rtc_wait ≠ 0 → (rtcClock FMASK (rtcSchedule s)).M = s.M) := by
  obtain ⟨f1, f2, f3, _⟩ := rtcClock_frame FMASK (rtcSchedule s)
  have f1' : (rtcClock FMASK (rtcSchedule s)).eb_ptr = s.eb_ptr := f1
  have f2' : (rtcClock FMASK (rtcSchedule s)).dte_off = s.dte_off := f2
  have f3' : (rtcClock FMASK (rtcSchedule s)).STATUS &&& DTE_SEC = s.STATUS &&& DTE_SEC := f3
  refine ⟨?_, ?_, ?_⟩
  · intro hsec
    rw [dtertc_srv_noits FMASK RMASK s hits, rtcKeepAlive, if_pos (by rw [f3']; exact hsec)]
    dsimp only
    subst hR hF
    rw [f1', f2', mask18, mask36]
    have ha : 0o144 + s.eb_ptr + 1 = 0o145 + s.eb_ptr := by omega
    have hk : PRI_CMTW_KAC = 5 := rfl
    rw [ha, hk]
    refine ⟨Function.update_same _ _ _, ?_⟩
    intro a hne
    exact Function.update_noteq hne _ _
  · intro hsec
    rw [dtertc_srv_secondary FMASK RMASK s hits hsec]
  · intro h
    unfold rtcClock
    split
    · rename_i harm
      dsimp only
      split
      · rfl
      · rename_i hz
        rcases h with h | h
        · exact absurd h harm
        · exact absurd h hz
    · rfl

/-- C28 at a concrete state: the keep alive word at 01017 holds all ones and
wraps to 0, the pointer word at 0145 is unchanged. -/
theorem C28_witness :
    (dtertc_srv 0o777777777777 0o777777 c28State).M 0o1017 = 0 ∧
    (dtertc_srv 0o777777777777 0o777777 c28State).M 0o145 = 0o1000 := by
  have h := (C28_keepalive_word 0o777777777777 0o777777 c28State rfl rfl rfl).1 (by decide)
  exact ⟨h.1.trans (by decide), (h.2 0o145 (by decide)).trans (by decide)⟩

theorem sendClean_write {s a b : Dte} (h : SendClean s a) (hok : a.wrOk a.nwr = true)
    (h1 : b.wrOk = a.wrOk) (h2 : b.nwr = a.nwr + 1) (h3 : b.dte_out_ptr = a.dte_out_ptr)
    (h4 : b.dte_out = a.dte_out) (h5 : b.STATUS = a.STATUS) (h6 : b.irq = a.irq) :
    SendClean s b := by
  obtain ⟨q1, q2, q3, q4, q5, q6, q7⟩ := h
  refine ⟨h1.trans q1, by omega, ?_, h3.trans q4, by rw [h4]; exact q5, h5.trans q6,
    h6.trans q7⟩
  intro k k1 k2
  by_cases hk : k < a.nwr
  · exact q3 k k1 hk
  · have hk' : k = a.nwr := by omega
    rw [hk', ← q1]
    exact hok

theorem absorbed_of_failed {s a b : Dte} (h : SendClean s a)
    (h3 : b.dte_out_ptr = a.dte_out_ptr)
    (h4 : b.dte_out = a.dte_out) (h5 : b.STATUS = a.STATUS) (h6 : b.irq = a.irq) :
    Absorbed s b := by
  obtain ⟨_, _, _, q4, q5, q6, q7⟩ := h
  exact ⟨h3.trans q4, by rw [h4]; exact q5, h5.trans q6, h6.trans q7⟩

theorem sendClean_ahead {s a : Dte} (h : SendClean s a) {k0 : Nat}
    (hfail : s.wrOk k0 = false) (hok : a.wrOk a.nwr = true) : k0 ≠ a.nwr := by
  intro e
  rw [← e, h.1, hfail] at hok
  exact Bool.noConfusion hok

theorem sendDirect_result {s : Dte} (out : Packet) {k0 : Nat}
    (hfail : s.wrOk k0 = false) (hk0 : s.nwr ≤ k0) :
    ∀ (fuel cnt i : Nat) (a : Dte), SendClean s a → k0 < a.nwr + fuel →
      ∃ r, sendDirect out fuel cnt i a = some r ∧
        ((r.1 = false ∧ Absorbed s r.2) ∨ (r.1 = true ∧ SendClean s r.2)) := by
  intro fuel
  induction fuel with
  | zero =>
    intro cnt i a ha hf
    cases cnt with
    | zero => exact ⟨(true, a), by rw [sendDirect], Or.inr ⟨rfl, ha⟩⟩
    | succ c =>
      have hlt : k0 < a.nwr := by omega
      have := ha.2.2.1 k0 hk0 hlt
      rw [hfail] at this
      exact Bool.noConfusion this
  | succ fuel ih =>
    intro cnt i a ha hf
    cases cnt with
    | zero => exact ⟨(true, a), by rw [sendDirect], Or.inr ⟨rfl, ha⟩⟩
    | succ c =>
      by_cases hok : a.wrOk a.nwr = true
      · have e : sendDirect out (fuel + 1) (c + 1) i a =
            sendDirect out fuel (sub2 (c + 1)) (i + 1)
              { a with nwr := a.nwr + 1, wlog := a.wlog ++ [out.data i] } := by
          rw [sendDirect, Mem_write_byte, if_pos hok]
        rw [e]
        have hne : k0 ≠ a.nwr := sendClean_ahead ha hfail hok
        exact ih _ _ _ (sendClean_write ha hok rfl rfl rfl rfl rfl rfl)
          (by show k0 < a.nwr + 1 + fuel; omega)
      · have e : sendDirect out (fuel + 1) (c + 1) i a =
            some (false, { a with nwr := a.nwr + 1 }) := by
          rw [sendDirect, Mem_write_byte, if_neg hok]
        rw [e]
        exact ⟨_, rfl, Or.inl ⟨rfl, absorbed_of_failed ha rfl rfl rfl rfl⟩⟩

theorem sendIndirect_result {s : Dte} (out : Packet) {k0 : Nat}
    (hfail : s.wrOk k0 = false) (hk0 : s.nwr ≤ k0) :
    ∀ (fuel cnt : Nat) (a : Dte), SendClean s a → k0 < a.nwr + fuel →
      ∃ r, sendIndirect out fuel cnt a = some r ∧
        ((r.1 = false ∧ Absorbed s r.2) ∨ (r.1 = true ∧ SendClean s r.2)) := by
  intro fuel
  induction fuel with
  | zero =>
    intro cnt a ha hf
    cases cnt with
    | zero => exact ⟨(true, a), by rw [sendIndirect], Or.inr ⟨rfl, ha⟩⟩
    | succ c =>
      have hlt : k0 < a.nwr := by omega
      have := ha.2.2.1 k0 hk0 hlt
      rw [hfail] at this
      exact Bool.noConfusion this
  | succ fuel ih =>
    intro cnt a ha hf
    cases cnt with
    | zero => exact ⟨(true, a), by rw [sendIndirect], Or.inr ⟨rfl, ha⟩⟩
    | succ c =>
      by_cases hok : a.wrOk a.nwr = true
      · have e : sendIndirect out (fuel + 1) (c + 1) a =
            sendIndirect out fuel (sub2 (c + 1))
              { a with nwr := a.nwr + 1, wlog := a.wlog ++ [out.data 0] } := by
          rw [sendIndirect, Mem_write_byte, if_pos hok]
        rw [e]
        have hne : k0 ≠ a.nwr := sendClean_ahead ha hfail hok
        exact ih _ _ (sendClean_write ha hok rfl rfl rfl rfl rfl rfl)
          (by show k0 < a.nwr + 1 + fuel; omega)
      · have e : sendIndirect out (fuel + 1) (c + 1) a =
            some (false, { a with nwr := a.nwr + 1 }) := by
          rw [sendIndirect, Mem_write_byte, if_neg hok]
        rw [e]
        exact ⟨_, rfl, Or.inl ⟨rfl, absorbed_of_failed ha rfl rfl rfl rfl⟩⟩

theorem writeThen_result {s a : Dte} (w : Nat) (k : Dte → Option Dte) (ha : SendClean s a)
    (hk : ∀ b, SendClean s b → ∃ t, k b = some t ∧ (Absorbed s t ∨ NoFailedWrite s t)) :
    ∃ t, writeThen a w k = some t ∧ (Absorbed s t ∨ NoFailedWrite s t) := by
  by_cases hok : a.wrOk a.nwr = true
  · have e : writeThen a w k = k { a with nwr := a.nwr + 1, wlog := a.wlog ++ [w] } := by
      rw [writeThen, Mem_write_byte, if_pos hok]
    rw [e]
    exact hk _ (sendClean_write ha hok rfl rfl rfl rfl rfl rfl)
  · have e : writeThen a w k = some { a with nwr := a.nwr + 1 } := by
      rw [writeThen, Mem_write_byte, if_neg hok]
    rw [e]
    exact ⟨_, rfl, Or.inl (absorbed_of_failed ha rfl rfl rfl rfl)⟩

theorem transferDone_nwr (a : Dte) : (transferDone a).nwr = a.nwr := by
  unfold transferDone
  rw [raiseIfEnabled_nwr]

theorem transfer_result (fuel : Nat) (s : Dte) (k0 : Nat)
    (hk0 : s.nwr ≤ k0) (hfail : s.wrOk k0 = false) (hfuel : k0 < s.nwr + fuel) :
    ∃ t, dte_transfer fuel s = some t ∧ (Absorbed s t ∨ NoFailedWrite s t) := by
  unfold dte_transfer
  split
  · exact ⟨s, rfl, Or.inr (fun k k1 k2 => absurd (Nat.lt_of_le_of_lt k1 k2) (Nat.lt_irrefl _))⟩
  · dsimp only
    have h1 : SendClean s { s with STATUS := clearBits s.STATUS DTE_TO11, irq := none } :=
      ⟨rfl, Nat.le_refl _,
        fun k k1 k2 => absurd (Nat.lt_of_le_of_lt k1 k2) (Nat.lt_irrefl _), rfl, rfl, rfl, rfl⟩
    split
    · generalize hg : sendIndirect _ _ _ _ = o
      have key : ∃ r, o = some r ∧
          ((r.1 = false ∧ Absorbed s r.2) ∨ (r.1 = true ∧ SendClean s r.2)) := by
        rw [← hg]
        exact sendIndirect_result _ hfail hk0 _ _ _ h1 hfuel
      obtain ⟨⟨r1, b⟩, rfl, h⟩ := key
      cases r1 with
      | false =>
        rcases h with ⟨_, h2⟩ | ⟨h1, _⟩
        · exact ⟨b, rfl, Or.inl h2⟩
        · exact Bool.noConfusion h1
      | true =>
        rcases h with ⟨h1, _⟩ | ⟨_, h2⟩
        · exact Bool.noConfusion h1
        · refine ⟨_, rfl, Or.inr ?_⟩
          intro j j1 j2
          rw [transferDone_nwr] at j2
          exact h2.2.2.1 j j1 j2
    · refine writeThen_result _ _ ?_ ?_
      · refine ⟨rfl, Nat.le_refl _,
          fun k k1 k2 => absurd (Nat.lt_of_le_of_lt k1 k2) (Nat.lt_irrefl _), rfl, ?_, rfl, rfl⟩
        show (Function.update s.dte_out s.dte_out_ptr _ s.dte_out_ptr).cnt = _
        rw [Function.update_same]
      intro b3 h3
      refine writeThen_result _ _ h3 ?_
      intro b4 h4
      refine writeThen_result _ _ h4 ?_
      intro b5 h5
      refine writeThen_result _ _ h5 ?_
      intro b6 h6
      split <;> split
      · refine writeThen_result _ _ h6 ?_
        intro b7 h7
        refine ⟨_, rfl, Or.inr ?_⟩
        intro j j1 j2
        rw [transferDone_nwr] at j2
        exact h7.2.2.1 j j1 j2
      · generalize hg : sendDirect _ _ _ _ _ = o
        have key : ∃ r, o = some r ∧
            ((r.1 = false ∧ Absorbed s r.2) ∨ (r.1 = true ∧ SendClean s r.2)) := by
          rw [← hg]
          exact sendDirect_result _ hfail hk0 _ _ _ _ h6 (by have := h6.2.1; omega)
        obtain ⟨⟨r1, b⟩, rfl, h⟩ := key
        cases r1 with
        | false =>
          rcases h with ⟨_, h2⟩ | ⟨h1, _⟩
          · exact ⟨b, rfl, Or.inl h2⟩
          · exact Bool.noConfusion h1
        | true =>
          rcases h with ⟨h1, _⟩ | ⟨_, h2⟩
          · exact Bool.noConfusion h1
          · refine ⟨_, rfl, Or.inr ?_⟩
            intro j j1 j2
            rw [transferDone_nwr] at j2
            exact h2.2.2.1 j j1 j2
      · refine writeThen_result _ _ h6 ?_
        intro b7 h7
        refine ⟨_, rfl, Or.inr ?_⟩
        intro j j1 j2
        rw [transferDone_nwr] at j2
        exact h7.2.2.1 j j1 j2
      · generalize hg : sendDirect _ _ _ _ _ = o
        have key : ∃ r, o = some r ∧
            ((r.1 = false ∧ Absorbed s r.2) ∨ (r.1 = true ∧ SendClean s r.2)) := by
          rw [← hg]
          exact sendDirect_result _ hfail hk0 _ _ _ _ h6 (by have := h6.2.1; omega)
        obtain ⟨⟨r1, b⟩, rfl, h⟩ := key
        cases r1 with
        | false =>
          rcases h with ⟨_, h2⟩ | ⟨h1, _⟩
          · exact ⟨b, rfl, Or.inl h2⟩
          · exact Bool.noConfusion h1
        | true =>
          rcases h with ⟨h1, _⟩ | ⟨_, h2⟩
          · exact Bool.noConfusion h1
          · refine ⟨_, rfl, Or.inr ?_⟩
            intro j j1 j2
            rw [transferDone_nwr] at j2
            exact h2.2.2.1 j j1 j2

/-- C21: for every transmit activation (`dte_transfer`) that has a failing
write ahead of it (call number `k0`, with fuel for the writes up to it),
the activation returns; and if some write made by the activation failed,
then the outbound head cursor is unchanged, the length of the head packet
is not reset, LinkStatus has lost `DTE_TO11` only, so that ToTenDone,
SecondaryMode, ToTenError and ToElevenError are as before, and no interrupt
is raised. -/
theorem C21_write_failure_absorbed (fuel : Nat) (s : Dte) (k0 : Nat)
    (hk0 : s.nwr ≤ k0) (hfail : s.wrOk k0 = false) (hfuel : k0 < s.nwr + fuel) :
    ∃ t, dte_transfer fuel s = some t ∧
      ((∃ k, s.nwr ≤ k ∧ k < t.nwr ∧ s.wrOk k = false) →
        t.dte_out_ptr = s.dte_out_ptr ∧
        (t.dte_out s.dte_out_ptr).cnt = (s.dte_out s.dte_out_ptr).cnt ∧
        t.STATUS = clearBits s.STATUS DTE_TO11 ∧
        t.STATUS &&& DTE_10DN = s.STATUS &&& DTE_10DN ∧
        t.STATUS &&& DTE_SEC = s.STATUS &&& DTE_SEC ∧
        t.STATUS &&& DTE_10ER = s.STATUS &&& DTE_10ER ∧
        t.STATUS &&& DTE_11ER = s.STATUS &&& DTE_11ER ∧
        t.irq = none) := by
  obtain ⟨t, e, h⟩ := transfer_result fuel s k0 hk0 hfail hfuel
  refine ⟨t, e, ?_⟩
  rintro ⟨k, k1, k2, k3⟩
  rcases h with ⟨a1, a2, a3, a4⟩ | h
  · refine ⟨a1, a2, a3, ?_, ?_, ?_, ?_, a4⟩
    · rw [a3]
      exact clearBits_and_disjoint _ (by decide)
    · rw [a3]
      exact clearBits_and_disjoint _ (by decide)
    · rw [a3]
      exact clearBits_and_disjoint _ (by decide)
    · rw [a3]
      exact clearBits_and_disjoint _ (by decide)
  · have := h k k1 k2
    rw [k3] at this
    exact Bool.noConfusion this

/-- C21 at a concrete state: the third write fails, after the two header
words 10 and 4 have been written. -/
theorem C21_witness :
    (dte_transfer 3 c21State).map
        (fun t => (t.nwr, t.wlog, t.dte_out_ptr, (t.dte_out 0).cnt, t.STATUS))
      = some (3, [10, 0o4], 0, 10, 0) ∧
    ∃ t, dte_transfer 3 c21State = some t ∧
      ((∃ k, c21State.nwr ≤ k ∧ k < t.nwr ∧ c21State.wrOk k = false) →
        t.dte_out_ptr = c21State.dte_out_ptr ∧
        (t.dte_out c21State.dte_out_ptr).cnt = (c21State.dte_out c21State.dte_out_ptr).cnt ∧
        t.STATUS = clearBits c21State.STATUS DTE_TO11 ∧
        t.STATUS &&& DTE_10DN = c21State.STATUS &&& DTE_10DN ∧
        t.STATUS &&& DTE_SEC = c21State.STATUS &&& DTE_SEC ∧
        t.STATUS &&& DTE_10ER = c21State.STATUS &&& DTE_10ER ∧
        t.STATUS &&& DTE_11ER = c21State.STATUS &&& DTE_11ER ∧
        t.irq = none) :=
  ⟨by decide, C21_write_failure_absorbed 3 c21State 2 (by decide) (by decide) (by decide)⟩

/-- C22 at a concrete state with InterruptEnable set. -/
theorem C22_witness :
    (dte_primary 0o400000 c22State).STATUS = DTE_PIE ∧
    (dte_primary 0o400000 c22State).dte_in_ptr = 3 ∧
    (dte_primary 0o400000 c22State).STATUS &&& DTE_11DB = 0 := by
  have h := C22_out_of_sync_abandons 0o400000 c22State (PRI_CMT_QP ||| 0o400000)
    (by decide) (by decide) (by decide) (by decide) (by decide) (by decide)
  exact ⟨by rw [h.1]; decide, h.2.1, h.2.2.2.2.2.2.2.2.2.2.2.1⟩

/-- C23 at a concrete status and the control word 020130. -/
theorem C23_witness :
    (dte_devio_CONO 0o777777 c23State 0o20130).STATUS &&& (DTE_PIA ||| DTE_PIE) = 0o10 ∧
    (dte_devio_CONO 0o777777 c23State 0o20130).STATUS &&& (DTE_11DN ||| DTE_11ER) = 0 ∧
    (dte_devio_CONO 0o777777 c23State 0o20130).STATUS &&& DTE_11DB = DTE_11DB ∧
    (dte_devio_CONO 0o777777 c23State 0o20130).STATUS &&& DTE_SEC = DTE_SEC := by
  have h := C23_write_control_status 0o777777 c23State 0o20130 rfl
  exact ⟨h.1.trans (by decide), h.2.1.trans (by decide), h.2.2.2.2.2.1.trans (by decide),
    (h.2.2.2.2.2.2 DTE_SEC (by decide)).trans (by decide)⟩

/-- C24 at a concrete state: DoorbellToTen is up and the control word 030
enables the interrupt. -/
theorem C24_witness :
    (dte_devio_CONO 0o777777 c24State 0o30).irq = some (DTE_10DB ||| DTE_PIE) :=
  ((C24_write_control_interrupt 0o777777 c24State 0o30).1
    ⟨by decide, Or.inl (by decide)⟩).trans (by decide)

/-- C25 at a packet with the function code 032. -/
theorem C25_witness :
    functionCase c25State = (true, c25State) ∧
    (dte_function 2 c25State).map (fun t => (t.dte_in_cmd, (t.dte_in 0).cnt)) = some (1, 0) := by
  have h := C25_unknown_function_noop 1 c25State (by decide) (by decide)
    (Or.inr (Or.inr (Or.inr (by decide))))
  exact ⟨h.1, by rw [h.2]; decide⟩

/-! ## Secondary commands, odd counts, stores past the data area,
console input batching, the services -/

theorem or_and_distrib (x m k : Nat) : (x ||| m) &&& k = (x &&& k) ||| (m &&& k) := by
  apply Nat.eq_of_testBit_eq
  intro i
  simp only [Nat.testBit_and, Nat.testBit_or]
  cases x.testBit i <;> cases m.testBit i <;> cases k.testBit i <;> rfl

theorem clearBits_and (x m k : Nat) : clearBits x m &&& k = clearBits (x &&& k) m := by
  apply Nat.eq_of_testBit_eq
  intro i
  simp only [Nat.testBit_and, testBit_clearBits]
  cases x.testBit i <;> cases m.testBit i <;> cases k.testBit i <;> rfl

theorem and_and_of_and_eq (x : Nat) {r k : Nat} (h : r &&& k = k) :
    (x &&& r) &&& k = x &&& k := by
  rw [Nat.land_assoc, h]

theorem dte_second_monon (FMASK : Nat) (its : Dte → Dte) (s : Dte)
    (hcmd : s.M (SEC_DTCMD + secBase s) &&& SEC_CMDMSK = SEC_MONON) :
    dte_second FMASK its s
      = secondAck FMASK (secBase s) { s with STATUS := s.STATUS ||| DTE_MON } := by
  have hw : s.M (SEC_DTCMD + secBase s) ≠ 0 := ne_zero_of_and_eq hcmd (by decide)
  have hits : ¬ (s.KL_ITS = true ∧ s.M (SEC_DTCMD + secBase s) = 0 ∧ QITS s = true ∧
      s.STATUS &&& ITS_ON ≠ 0) := fun h => hw h.2.1
  have h1 : ¬ (SEC_MONON = SEC_SETPRI) := by decide
  have h2 : ¬ (SEC_MONON = SEC_SETDDT) := by decide
  have h3 : ¬ (SEC_MONON = SEC_CLRDDT) := by decide
  simp only [dte_second, hits, hcmd, h1, h2, h3, if_false, if_true]

theorem dte_second_clrddt (FMASK : Nat) (its : Dte → Dte) (s : Dte)
    (hcmd : s.M (SEC_DTCMD + secBase s) &&& SEC_CMDMSK = SEC_CLRDDT) :
    dte_second FMASK its s
      = secondAck FMASK (secBase s) { s with STATUS := clearBits s.STATUS DTE_MON } := by
  have hw : s.M (SEC_DTCMD + secBase s) ≠ 0 := ne_zero_of_and_eq hcmd (by decide)
  have hits : ¬ (s.KL_ITS = true ∧ s.M (SEC_DTCMD + secBase s) = 0 ∧ QITS s = true ∧
      s.STATUS &&& ITS_ON ≠ 0) := fun h => hw h.2.1
  have h1 : ¬ (SEC_CLRDDT = SEC_SETPRI) := by decide
  have h2 : ¬ (SEC_CLRDDT = SEC_SETDDT) := by decide
  simp only [dte_second, hits, hcmd, h1, h2, if_false, if_true]

/-- C38: for every command word whose opcode field is none of program
control, clock control, read switches, clear DDT, set DDT, monitor on and
set primary, outside the ITS fast path, `dte_second` gives the post-state of
the case SEC_MONO applied to that word (the case that every word with
opcode SEC_MONO takes): when the console output channel has room the low 7
bits of the word are appended to it and the command is acknowledged, and
when it is full the only effect is the retry after 1000 ticks. -/
theorem C38_other_opcodes_emit_character (FMASK : Nat) (its : Dte → Dte) (s : Dte)
    (hits : ¬ (s.KL_ITS = true ∧ s.M (SEC_DTCMD + secBase s) = 0 ∧ QITS s = true ∧
      s.STATUS &&& ITS_ON ≠ 0))
    (hop : s.M (SEC_DTCMD + secBase s) &&& 0o7400 ∉
      [0o400, 0o1000, 0o1400, 0o3000, 0o3400, 0o4400, 0o5000]) :
    dte_second FMASK its s
      = secondMono FMASK (secBase s) (s.M (SEC_DTCMD + secBase s)) s ∧
    (∀ u : Dte, u.M (SEC_DTCMD + secBase u) &&& SEC_CMDMSK = SEC_MONO →
      dte_second FMASK its u
        = secondMono FMASK (secBase u) (u.M (SEC_DTCMD + secBase u)) u) ∧
    ((s.cty_out.in_ptr + 1) % 256 ≠ s.cty_out.out_ptr →
      (dte_second FMASK its s).cty_out.buff
        = Function.update s.cty_out.buff s.cty_out.in_ptr
            (s.M (SEC_DTCMD + secBase s) % 128) ∧
      (dte_second FMASK its s).cty_out.in_ptr = (s.cty_out.in_ptr + 1) % 256 ∧
      (dte_second FMASK its s).cty_out.out_ptr = s.cty_out.out_ptr ∧
      (dte_second FMASK its s).M (SEC_DTCMD + secBase s) = 0) ∧
    ((s.cty_out.in_ptr + 1) % 256 = s.cty_out.out_ptr →
      dte_second FMASK its s = { s with sched := s.sched ++ [(0, 1000)] }) := by
  have hm : dte_second FMASK its s
      = secondMono FMASK (secBase s) (s.M (SEC_DTCMD + secBase s)) s := by
    simp only [List.mem_cons, List.mem_singleton, List.not_mem_nil, not_or, or_false] at hop
    obtain ⟨h1, h2, h3, h4, h5, h6, h7⟩ := hop
    apply dte_second_mono FMASK its s hits
    · exact h7
    · exact h5
    · exact h4
    · exact h6
    · exact h3
    · exact h1
    · exact h2
  refine ⟨hm, fun u hu => dte_second_is_mono FMASK its u hu, ?_, ?_⟩
  · intro hroom
    rw [hm]
    obtain ⟨e1, e2, e3⟩ := secondMono_room_cty_out FMASK (secBase s) _ s hroom
    refine ⟨e1, e2, e3, ?_⟩
    rw [secondMono_room FMASK (secBase s) _ s hroom]
    exact (secondAck_post FMASK (secBase s) _).1
  · intro hfull
    rw [hm]
    have h' : (s.cty_out.in_ptr + 1) &&& 0xff = s.cty_out.out_ptr := by
      rw [and_255]
      exact hfull
    simp only [secondMono, h', if_true]

/-- Witness of C38: the command SEC_RTM (05400) carrying the character 0101
is treated as the emission of that character. -/
theorem C38_witness :
    (dte_second 0o777777777777 id c38State).cty_out.buff 0 = 0o101 ∧
    (dte_second 0o777777777777 id c38State).cty_out.in_ptr = 1 := by
  obtain ⟨_, _, h, _⟩ :=
    C38_other_opcodes_emit_character 0o777777777777 id c38State (by decide) (by decide)
  obtain ⟨e1, e2, _, _⟩ := h (by decide)
  constructor
  · rw [e1]
    decide
  · rw [e2]
    decide

/-- C40: when the read of the mailbox word at offset 0 fails while
`dte_second` processes the priming command SEC_SETPRI, the secondary-mode
bit of both units, the protocol offsets and the four queue cursors are
unchanged, and the command is acknowledged: command word zero, operation
complete flag all ones, TO10 doorbell set, TO11 doorbell clear. -/
theorem C40_failed_priming_read (FMASK : Nat) (its : Dte → Dte) (s : Dte)
    (hcmd : s.M (SEC_DTCMD + secBase s) &&& SEC_CMDMSK = SEC_SETPRI)
    (hfail : Mem_examine_word s 0 = none) :
    (dte_second FMASK its s).STATUS &&& DTE_SEC = s.STATUS &&& DTE_SEC ∧
    (dte_second FMASK its s).STATUS1 = s.STATUS1 ∧
    ((dte_second FMASK its s).dte_proc_num = s.dte_proc_num ∧
     (dte_second FMASK its s).dte_base = s.dte_base ∧
     (dte_second FMASK its s).dte_off = s.dte_off ∧
     (dte_second FMASK its s).dte_dt10_off = s.dte_dt10_off ∧
     (dte_second FMASK its s).dte_et10_off = s.dte_et10_off ∧
     (dte_second FMASK its s).dte_et11_off = s.dte_et11_off) ∧
    ((dte_second FMASK its s).dte_in_ptr = s.dte_in_ptr ∧
     (dte_second FMASK its s).dte_in_cmd = s.dte_in_cmd ∧
     (dte_second FMASK its s).dte_out_ptr = s.dte_out_ptr ∧
     (dte_second FMASK its s).dte_out_res = s.dte_out_res) ∧
    (dte_second FMASK its s).M (SEC_DTCMD + secBase s) = 0 ∧
    (dte_second FMASK its s).M (SEC_DTFLG + secBase s) = FMASK ∧
    (dte_second FMASK its s).STATUS &&& DTE_10DB ≠ 0 ∧
    (dte_second FMASK its s).STATUS &&& DTE_11DB = 0 := by
  have he : enterPri s = s := by
    simp only [enterPri, hfail]
  rw [dte_second_setpri FMASK its s hcmd, he]
  obtain ⟨a1, a2, a3, a4⟩ := secondAck_post FMASK (secBase s) s
  refine ⟨?_, rfl, ⟨rfl, rfl, rfl, rfl, rfl, rfl⟩, ⟨rfl, rfl, rfl, rfl⟩, a1, a2, a3, a4⟩
  show clearBits (s.STATUS ||| DTE_10DB) DTE_11DB &&& DTE_SEC = _
  rw [clearBits_and_disjoint _ (by decide), or_and_disjoint _ (by decide)]

/-- Witness of C40: priming with an unreadable mailbox leaves secondary mode
set and the cursors 7, 3, 30, 2 in place. -/
theorem C40_witness :
    (dte_second 0o777777777777 id c40State).STATUS &&& DTE_SEC = DTE_SEC ∧
    (dte_second 0o777777777777 id c40State).dte_in_ptr = 7 ∧
    (dte_second 0o777777777777 id c40State).dte_out_ptr = 30 ∧
    (dte_second 0o777777777777 id c40State).M 0o451 = 0 := by
  obtain ⟨h1, _, _, ⟨h2, _, h3, _⟩, h4, _⟩ :=
    C40_failed_priming_read 0o777777777777 id c40State (by decide) rfl
  exact ⟨h1.trans (by decide), h2, h3, h4⟩

/-- C39: the commands monitor-mode-on and clear-DDT of `dte_second` change
the interrupt channel field of the status that CONI returns: SEC_MONON sets
bit 0 of the field and SEC_CLRDDT clears it, because the flag `DTE_MON` is
kept in the STATUS of unit 0, where bit 0 belongs to `DTE_PIA`. -/
theorem C39_monitor_flag_in_channel (FMASK RMASK : Nat) (its : Dte → Dte) (s : Dte)
    (hR : RMASK &&& DTE_PIA = DTE_PIA) :
    (s.M (SEC_DTCMD + secBase s) &&& SEC_CMDMSK = SEC_MONON →
      dte_devio_CONI RMASK (dte_second FMASK its s) &&& DTE_PIA
        = (dte_devio_CONI RMASK s &&& DTE_PIA) ||| 1) ∧
    (s.M (SEC_DTCMD + secBase s) &&& SEC_CMDMSK = SEC_CLRDDT →
      dte_devio_CONI RMASK (dte_second FMASK its s) &&& DTE_PIA
        = clearBits (dte_devio_CONI RMASK s &&& DTE_PIA) 1) := by
  constructor
  · intro hcmd
    rw [dte_second_monon FMASK its s hcmd]
    unfold dte_devio_CONI
    rw [and_and_of_and_eq _ hR, and_and_of_and_eq _ hR]
    show clearBits ((s.STATUS ||| DTE_MON) ||| DTE_10DB) DTE_11DB &&& DTE_PIA = _
    rw [clearBits_and_disjoint _ (by decide), or_and_disjoint _ (by decide), or_and_distrib]
    rfl
  · intro hcmd
    rw [dte_second_clrddt FMASK its s hcmd]
    unfold dte_devio_CONI
    rw [and_and_of_and_eq _ hR, and_and_of_and_eq _ hR]
    show clearBits (clearBits s.STATUS DTE_MON ||| DTE_10DB) DTE_11DB &&& DTE_PIA = _
    rw [clearBits_and_disjoint _ (by decide), or_and_disjoint _ (by decide), clearBits_and]
    rfl

/-- Witness of C39: with interrupt channel 2 the command SEC_MONON makes
CONI report channel 3, and with channel 3 the command SEC_CLRDDT makes it
report channel 2. -/
theorem C39_witness :
    dte_devio_CONI 0o777777 c39State &&& DTE_PIA = 2 ∧
    dte_devio_CONI 0o777777 (dte_second 0o777777777777 id c39State) &&& DTE_PIA = 3 ∧
    dte_devio_CONI 0o777777 c39Clear &&& DTE_PIA = 3 ∧
    dte_devio_CONI 0o777777 (dte_second 0o777777777777 id c39Clear) &&& DTE_PIA = 2 := by
  have h1 := (C39_monitor_flag_in_channel 0o777777777777 0o777777 id c39State (by decide)).1
    (by decide)
  have h2 := (C39_monitor_flag_in_channel 0o777777777777 0o777777 id c39Clear (by decide)).2
    (by decide)
  refine ⟨by decide, h1.trans (by decide), by decide, h2.trans (by decide)⟩

theorem c35_received (s : Dte) (hdb : s.STATUS &&& DTE_11DB ≠ 0)
    (hroom : (s.dte_in_ptr + 1) % 32 ≠ s.dte_in_cmd)
    (hst : s.exam (s.dte_et11_off + PRI_CMTW_STS) = some PRI_CMT_QP)
    (hrd : ∀ (j : Nat) (hj : j < [12, PRI_EMSTR, PRI_EMLPT, 0, 0x4142, 0x4344].length),
      s.rdIn (s.nrd + j) = some [12, PRI_EMSTR, PRI_EMLPT, 0, 0x4142, 0x4344][j]) :
    dte_primary 0o400000 s
      = primaryDirectEnd PRI_CMT_QP
          (afterFrame { s with STATUS := clearBits s.STATUS DTE_11DB, irq := none }
            12 PRI_EMSTR PRI_EMLPT 0 [0x4142, 0x4344]) := by
  rw [dte_primary_direct 0o400000 s PRI_CMT_QP hdb hroom hst (by decide) (by decide)]
  exact primaryDirect_reads _ _ 12 PRI_EMSTR PRI_EMLPT 0 [0x4142, 0x4344] (by decide)
    (by decide) (by decide) (by decide) (by decide) hrd

/-- C35 fails on the code.  The direct branch of `dte_primary` never stores
the data count of the slot, and the dispatch loop of `dte_function` runs
while `dptr < dcnt`.  Two executions receive the same frame 12, PRI_EMSTR,
PRI_EMLPT, 0, 0x4142, 0x4344 into slot 0 with identical (empty) channels:
with a fresh slot no byte reaches the printer channel, with the data count 3
left in the slot by an earlier packet the three bytes 0x41, 0x42, 0x43 do. -/
theorem C35_dispatch_uses_stale_count :
    c35Stale.rdIn = c35Fresh.rdIn ∧
    c35Stale.lpt_log = c35Fresh.lpt_log ∧
    c35Stale.lpt_queue.in_ptr = c35Fresh.lpt_queue.in_ptr ∧
    c35Stale.lpt_queue.out_ptr = c35Fresh.lpt_queue.out_ptr ∧
    (let p := (dte_primary 0o400000 c35Fresh).dte_in 0
     (p.cnt, p.func, p.dev, p.data 0, p.data 1, p.dcnt)
       = (12, PRI_EMSTR, PRI_EMLPT, 0x4142, 0x4344, 0)) ∧
    (let p := (dte_primary 0o400000 c35Stale).dte_in 0
     (p.cnt, p.func, p.dev, p.data 0, p.data 1, p.dcnt)
       = (12, PRI_EMSTR, PRI_EMLPT, 0x4142, 0x4344, 3)) ∧
    (dte_function 2 (dte_primary 0o400000 c35Fresh)).map
        (fun t => (t.lpt_log, t.lpt_queue.in_ptr, t.dte_in_cmd)) = some ([], 0, 1) ∧
    (dte_function 2 (dte_primary 0o400000 c35Stale)).map
        (fun t => (t.lpt_log, t.lpt_queue.in_ptr, t.dte_in_cmd))
      = some ([0x41, 0x42, 0x43], 3, 1) := by
  rw [c35_received c35Fresh (by decide) (by decide) rfl (by decide),
    c35_received c35Stale (by decide) (by decide) rfl (by decide)]
  refine ⟨rfl, rfl, rfl, rfl, ?_, ?_, ?_, ?_⟩
  · decide
  · decide
  · decide
  · decide

theorem sendIndirect_odd (out : Packet) :
    ∀ (fuel cnt : Nat) (s : Dte), cnt % 2 = 1 → cnt < 65536 →
      (∀ k, s.wrOk k = true) → sendIndirect out fuel cnt s = none := by
  intro fuel
  induction fuel with
  | zero =>
    intro cnt s hodd _ _
    obtain ⟨c, rfl⟩ : ∃ c, cnt = c + 1 := ⟨cnt - 1, by omega⟩
    rfl
  | succ n ih =>
    intro cnt s hodd hlt hw
    obtain ⟨c, rfl⟩ : ∃ c, cnt = c + 1 := ⟨cnt - 1, by omega⟩
    have h1 : (sub2 (c + 1)) % 2 = 1 := by
      unfold sub2 u16
      omega
    have h2 : sub2 (c + 1) < 65536 := by
      unfold sub2 u16
      omega
    simp only [sendIndirect, Mem_write_byte, hw, if_true]
    exact ih _ _ h1 h2 hw

/-- C36 fails on the code.  In the indirect branch of `dte_transfer` the
counter is a `uint16` that starts at the accepted byte count when the
packet has more data, and the loop subtracts 2 while it is greater than 0:
from an odd accepted count it never reaches 0.  For every state with the
outbound queue not empty, `DTE_SIND` set, an odd accepted byte count smaller
than the data count plus 2 and all mailbox writes succeeding, the activation
does not return, whatever the number of loop passes allowed. -/
theorem C36_odd_count_never_returns (s : Dte)
    (hq : s.dte_out_res ≠ s.dte_out_ptr)
    (hsind : s.STATUS &&& DTE_SIND ≠ 0)
    (hodd : acceptedCount s.CNT % 2 = 1)
    (hmore : acceptedCount s.CNT < ((s.dte_out s.dte_out_ptr).dcnt + 2) % 65536)
    (hw : ∀ k, s.wrOk k = true) :
    ∀ fuel : Nat, dte_transfer fuel s = none := by
  intro fuel
  have hs : clearBits s.STATUS DTE_TO11 &&& DTE_SIND ≠ 0 := by
    rw [clearBits_and_disjoint _ (by decide)]
    exact hsind
  have hlt : acceptedCount s.CNT < 65536 := by
    unfold acceptedCount
    omega
  unfold dte_transfer
  rw [if_neg hq]
  dsimp only
  rw [if_pos hs, if_pos hmore,
    sendIndirect_odd _ fuel _ { s with STATUS := clearBits s.STATUS DTE_TO11, irq := none }
      hodd hlt hw]

/-- Witness of C36: the accepted byte count 3 with a head packet of data
count 2; neither no loop pass nor a million loop passes let the activation
return. -/
theorem C36_witness :
    dte_transfer 0 c36State = none ∧ dte_transfer 1000000 c36State = none :=
  ⟨C36_odd_count_never_returns c36State (by decide) (by decide) (by decide) (by decide)
      (fun _ => rfl) 0,
   C36_odd_count_never_returns c36State (by decide) (by decide) (by decide) (by decide)
      (fun _ => rfl) 1000000⟩

theorem primaryDone_dte_in (t : Dte) (w : Nat) : (primaryDone t w).dte_in = t.dte_in := by
  unfold primaryDone Mem_deposit_word
  by_cases hd : t.depOk t.ndep = true
  · rw [if_pos hd]
    dsimp only
    unfold raiseIfEnabled
    split <;> rfl
  · rw [if_neg hd]
    rfl

theorem depositDone_dte_in (u : Dte) (off w W2 : Nat) :
    (match Mem_deposit_word u off w with
      | (false, s14) => primaryError s14
      | (true, s14) => primaryDone s14 W2).dte_in = u.dte_in := by
  unfold Mem_deposit_word
  by_cases hd : u.depOk u.ndep = true
  · rw [if_pos hd]
    dsimp only
    rw [primaryDone_dte_in]
  · rw [if_neg hd]
    rfl

theorem primaryDirectEnd_data (W : Nat) (t : Dte) (k : Nat) :
    ((primaryDirectEnd W t).dte_in k).data = (t.dte_in k).data := by
  have hset : ((setIn { t with STATUS := t.STATUS ||| DTE_IND }
      fun p => { p with dcnt := p.data 0, sdev := p.data 0 }).dte_in k).data
      = (t.dte_in k).data := by
    unfold setIn
    by_cases hk : k = t.dte_in_ptr
    · subst hk
      show ((Function.update t.dte_in t.dte_in_ptr _) t.dte_in_ptr).data = _
      rw [Function.update_same]
    · show ((Function.update t.dte_in t.dte_in_ptr _) k).data = _
      rw [Function.update_noteq hk]
  unfold primaryDirectEnd
  split
  · exact (congrArg (fun f => (f k).data) (depositDone_dte_in _ _ _ _)).trans hset
  · rw [primaryDone_dte_in]

/-- C37 fails on the code.  The direct branch of `dte_primary` takes the
number of data words from the length word of the frame without a bound: for
every length word L with 522 <= L < 65536, with all reads succeeding, the
data words x0, x1, ... of the frame are stored at the indices 0, 1, ... of
the data area of the slot at the inbound tail, so the word x256 is stored
at index 256, past the 256 words `data[0 .. 255]`. -/
theorem C37_store_past_data_area (IP : Nat) (s : Dte) (W L f d sp : Nat) (xs : List Nat)
    (hdb : s.STATUS &&& DTE_11DB ≠ 0)
    (hroom : (s.dte_in_ptr + 1) % 32 ≠ s.dte_in_cmd)
    (hst : s.exam (s.dte_et11_off + PRI_CMTW_STS) = some W)
    (hqp : W &&& PRI_CMT_QP ≠ 0) (hip : W &&& IP = 0)
    (hL522 : 522 ≤ L) (hL : L < 65536)
    (hf : f < 65536) (hd : d < 65536) (hsp : sp < 65536) (hxs : ∀ x ∈ xs, x < 65536)
    (hlen : xs.length = (L - 8 + 1) / 2)
    (hrd : ∀ (j : Nat) (hj : j < (L :: f :: d :: sp :: xs).length),
      s.rdIn (s.nrd + j) = some (L :: f :: d :: sp :: xs)[j]) :
    256 < xs.length ∧
    ∀ (i : Nat) (hi : i < xs.length),
      ((dte_primary IP s).dte_in s.dte_in_ptr).data i = xs[i] := by
  have key := primaryDirect_reads W
    { s with STATUS := clearBits s.STATUS DTE_11DB, irq := none } L f d sp xs
    hL hf hd hsp (by omega) hrd
  refine ⟨by omega, ?_⟩
  intro i hi
  rw [dte_primary_direct IP s W hdb hroom hst hqp hip, key, primaryDirectEnd_data]
  simp only [afterFrame, Function.update_same]
  exact fillData_apply _ xs hxs i hi

/-- Witness of C37: the frame of length 522 with 257 data words 0x4142
changes the word at index 256 of the data area of slot 0 from 0 to 0x4142. -/
theorem C37_witness :
    (c37State.dte_in 0).data 256 = 0 ∧
    ((dte_primary 0o400000 c37State).dte_in 0).data 256 = 0x4142 := by
  obtain ⟨_, h⟩ := C37_store_past_data_area 0o400000 c37State PRI_CMT_QP 522 PRI_EMSTR
    PRI_EMLPT 0 (List.replicate 257 0x4142) (by decide) (by decide) rfl (by decide) (by decide)
    (by decide) (by decide) (by decide) (by decide) (by decide)
    (fun x hx => by rw [List.eq_of_mem_replicate hx]; decide)
    (by rw [List.length_replicate])
    (fun j hj => by
      show c37Frame[0 + j]? = some c37Frame[j]
      simp only [Nat.zero_add]
      exact List.getElem?_eq_getElem hj)
  have h256 := h 256 (by rw [List.length_replicate]; omega)
  rw [List.getElem_replicate] at h256
  have h0 : c37State.dte_in_ptr = 0 := rfl
  rw [h0] at h256
  exact ⟨rfl, h256⟩

theorem inputWords_succ (s : Dte) (n : Nat) (hout : s.cty_in.out_ptr < 256) :
    inputWords s (n + 1)
      = charWord s (s.cty_in.buff s.cty_in.out_ptr)
          :: inputWords { s with cty_in := bufDrop s.cty_in } n := by
  unfold inputWords
  rw [List.range_succ_eq_map, List.map_cons, List.map_map]
  congr 1
  · rw [Nat.add_zero, Nat.mod_eq_of_lt hout]
  · apply List.map_congr_left
    intro i _
    show charWord s (s.cty_in.buff ((s.cty_in.out_ptr + (i + 1)) % 256))
      = charWord s (s.cty_in.buff ((((s.cty_in.out_ptr + 1) &&& 0xff) + i) % 256))
    rw [and_255]
    congr 2
    omega

theorem inputLoop_spec :
    ∀ (m : Nat) (s : Dte) (q : List Nat), s.cty_in.in_ptr < 256 → s.cty_in.out_ptr < 256 →
      inputLoop m s q
        = (withOut s ((s.cty_in.out_ptr + min (ctyInHeld s) m) % 256),
           q ++ inputWords s (min (ctyInHeld s) m)) := by
  intro m
  induction m with
  | zero =>
    intro s q _ hout
    rw [inputLoop, Nat.min_zero, Nat.add_zero, Nat.mod_eq_of_lt hout]
    simp only [inputWords, List.range_zero, List.map_nil, List.append_nil]
    rfl
  | succ m ih =>
    intro s q hin hout
    rw [inputLoop]
    by_cases he : s.cty_in.in_ptr = s.cty_in.out_ptr
    · have hk : ctyInHeld s = 0 := by
        unfold ctyInHeld
        omega
      rw [if_neg (not_not.mpr he), hk, Nat.zero_min, Nat.add_zero, Nat.mod_eq_of_lt hout]
      simp only [inputWords, List.range_zero, List.map_nil, List.append_nil]
      rfl
    · rw [if_pos he]
      have hin' : ({ s with cty_in := bufDrop s.cty_in } : Dte).cty_in.in_ptr < 256 := hin
      have ho' : ({ s with cty_in := bufDrop s.cty_in } : Dte).cty_in.out_ptr
          = (s.cty_in.out_ptr + 1) % 256 := and_255 _
      have hout' : ({ s with cty_in := bufDrop s.cty_in } : Dte).cty_in.out_ptr < 256 := by
        rw [ho']
        omega
      have hk' : ctyInHeld { s with cty_in := bufDrop s.cty_in } + 1 = ctyInHeld s := by
        unfold ctyInHeld
        rw [ho']
        show (s.cty_in.in_ptr + 256 - (s.cty_in.out_ptr + 1) % 256) % 256 + 1 = _
        omega
      have hmin : min (ctyInHeld s) (m + 1)
          = min (ctyInHeld { s with cty_in := bufDrop s.cty_in }) m + 1 := by
        omega
      rw [ih _ _ hin' hout', hmin, inputWords_succ s _ hout, ho']
      congr 1
      · show withOut s _ = withOut s _
        congr 1
        omega
      · rw [List.append_assoc, List.singleton_append]

theorem dte_queue_full (s : Dte) (func dev dcnt : Nat) (data : List Nat)
    (h : (s.dte_out_res + 1) % 32 = s.dte_out_ptr) :
    dte_queue s func dev dcnt data = (0, s) := by
  have h' : (s.dte_out_res + 1) &&& 0x1f = s.dte_out_ptr := by
    rw [and_31]
    exact h
  unfold dte_queue
  rw [if_pos h']

theorem dte_queue_cty_in (s : Dte) (func dev dcnt : Nat) (data : List Nat) :
    (dte_queue s func dev dcnt data).2.cty_in = s.cty_in := by
  unfold dte_queue
  split <;> rfl

theorem dte_queue_zero (s : Dte) (func dev dcnt : Nat) (data : List Nat)
    (h : (dte_queue s func dev dcnt data).1 = 0) :
    (dte_queue s func dev dcnt data).2 = s := by
  unfold dte_queue at h ⊢
  split
  · rfl
  · rename_i hn
    rw [if_neg hn] at h
    exact absurd h Nat.one_ne_zero

theorem inputAck_cty_in (s : Dte) : (inputAck s).2.cty_in = s.cty_in := by
  unfold inputAck
  split
  · split
    · exact dte_queue_cty_in s _ _ _ _
    · exact dte_queue_cty_in s _ _ _ _
  · rfl

theorem dte_queue_signed (s : Dte) (func dev dcnt : Nat) (data : List Nat) :
    (dte_queue s func dev dcnt data).2.CHAR_SIGNED = s.CHAR_SIGNED := by
  unfold dte_queue
  split <;> rfl

theorem inputAck_signed (s : Dte) : (inputAck s).2.CHAR_SIGNED = s.CHAR_SIGNED := by
  unfold inputAck
  split
  · split
    · exact dte_queue_signed s _ _ _ _
    · exact dte_queue_signed s _ _ _ _
  · rfl

theorem inputAck_false (s : Dte) (h : (inputAck s).1 = false) : (inputAck s).2 = s := by
  unfold inputAck at h ⊢
  split
  · split
    · rename_i h0
      exact dte_queue_zero s _ _ _ _ h0
    · rename_i h1 h0
      rw [if_pos h1, if_neg h0] at h
      exact Bool.noConfusion h
  · rfl

theorem dte_input_eq (s : Dte) :
    dte_input s = if (inputAck s).1 = true then inputLine (inputAck s).2 else (inputAck s).2 := by
  unfold dte_input
  generalize inputAck s = r
  obtain ⟨b, t⟩ := r
  cases b <;> rfl

theorem charWord_small (s : Dte) {c : Nat} (h : c < 128) : charWord s c = c := by
  have h1 : c % 256 = c := Nat.mod_eq_of_lt (by omega)
  have h2 : ¬ (128 ≤ c) := by omega
  simp only [charWord, h1, h2, decide_False, Bool.and_false, Bool.false_eq_true, if_false]

theorem charWord_lt (s : Dte) (c : Nat) : charWord s c < 65536 := by
  unfold charWord
  split <;> omega

theorem inputWords_length (s : Dte) (n : Nat) : (inputWords s n).length = n := by
  simp only [inputWords, List.length_map, List.length_range]

theorem inputWords_getD (s : Dte) (n i : Nat) (hi : i < n) :
    (inputWords s n).getD i 0 = charWord s (s.cty_in.buff ((s.cty_in.out_ptr + i) % 256)) := by
  have hl : i < (inputWords s n).length := by
    rw [inputWords_length]
    exact hi
  rw [List.getD_eq_getElem _ _ hl]
  simp only [inputWords, List.getElem_map, List.getElem_range]

theorem inputLine_of_loop (u w : Dte) (q : List Nat) (h : inputLoop 32 u [] = (w, q)) :
    inputLine u =
      if q.length > 0 then
        if (dte_queue w PRI_EMLNC PRI_EMCTY q.length q).1 = 0 then
          withOut (dte_queue w PRI_EMLNC PRI_EMCTY q.length q).2 u.cty_in.out_ptr
        else (dte_queue w PRI_EMLNC PRI_EMCTY q.length q).2
      else w := by
  unfold inputLine
  rw [h]
  rfl

/-- C31: for every state whose console input channel has its indices below
256 and holds k bytes, `dte_input` does one of the following.  When its
acknowledge packet is refused, the state is unchanged.  Otherwise, with u
the state after the acknowledge step (which leaves the console input
channel alone): when k = 0 nothing is enqueued for input, the result is u;
when k > 0 and the outbound queue of u is full, the result is u, so the
remove pointer has its value before the call; when k > 0 and the queue has
room, the slot at the reserve cursor holds a packet of length 10, function
PRI_EMLNC, device PRI_EMCTY, data count 2 min(k, 32) - 2, whose data words
0 .. min(k, 32) - 1 are the buffered bytes in order from the remove pointer
on, each converted from `char` (a byte below 128 is the word itself), the
other slots are those of u, the reserve cursor advances by one and the
remove pointer by min(k, 32), modulo 256. -/
theorem C31_console_input_batching (s : Dte)
    (hin : s.cty_in.in_ptr < 256) (hout : s.cty_in.out_ptr < 256) :
    (inputAck s).2.cty_in = s.cty_in ∧
    ((inputAck s).1 = false → dte_input s = s) ∧
    ((inputAck s).1 = true →
      (ctyInHeld s = 0 → dte_input s = (inputAck s).2) ∧
      (0 < ctyInHeld s →
        ((inputAck s).2.dte_out_res + 1) % 32 = (inputAck s).2.dte_out_ptr →
        dte_input s = (inputAck s).2 ∧
        (dte_input s).cty_in.out_ptr = s.cty_in.out_ptr) ∧
      (0 < ctyInHeld s →
        ((inputAck s).2.dte_out_res + 1) % 32 ≠ (inputAck s).2.dte_out_ptr →
        (dte_input s).cty_in.out_ptr = (s.cty_in.out_ptr + min (ctyInHeld s) 32) % 256 ∧
        (dte_input s).cty_in.in_ptr = s.cty_in.in_ptr ∧
        (dte_input s).dte_out_res = ((inputAck s).2.dte_out_res + 1) % 32 ∧
        ((dte_input s).dte_out (inputAck s).2.dte_out_res).cnt = 10 ∧
        ((dte_input s).dte_out (inputAck s).2.dte_out_res).func = PRI_EMLNC ∧
        ((dte_input s).dte_out (inputAck s).2.dte_out_res).dev = PRI_EMCTY ∧
        ((dte_input s).dte_out (inputAck s).2.dte_out_res).dcnt
          = 2 * min (ctyInHeld s) 32 - 2 ∧
        (∀ i, i < min (ctyInHeld s) 32 →
          ((dte_input s).dte_out (inputAck s).2.dte_out_res).data i
            = charWord s (s.cty_in.buff ((s.cty_in.out_ptr + i) % 256)) ∧
          (s.cty_in.buff ((s.cty_in.out_ptr + i) % 256) < 128 →
            ((dte_input s).dte_out (inputAck s).2.dte_out_res).data i
              = s.cty_in.buff ((s.cty_in.out_ptr + i) % 256))) ∧
        ∀ j, j ≠ (inputAck s).2.dte_out_res →
          (dte_input s).dte_out j = (inputAck s).2.dte_out j)) := by
  have hc := inputAck_cty_in s
  refine ⟨hc, ?_, ?_⟩
  · intro hf
    have hnt : ¬ ((inputAck s).1 = true) := by
      rw [hf]
      exact Bool.false_ne_true
    rw [dte_input_eq, if_neg hnt]
    exact inputAck_false s hf
  · intro ht
    rw [dte_input_eq, if_pos ht]
    have hsg := inputAck_signed s
    generalize inputAck s = r at hc hsg
    obtain ⟨b, u⟩ := r
    have hcu : u.cty_in = s.cty_in := hc
    have hsu : u.CHAR_SIGNED = s.CHAR_SIGNED := hsg
    have hin' : u.cty_in.in_ptr < 256 := by
      rw [hcu]
      exact hin
    have hout' : u.cty_in.out_ptr < 256 := by
      rw [hcu]
      exact hout
    have hk : ctyInHeld u = ctyInHeld s := by
      unfold ctyInHeld
      rw [hcu]
    have hsp := inputLoop_spec 32 u [] hin' hout'
    rw [hk, List.nil_append] at hsp
    show (ctyInHeld s = 0 → inputLine u = u) ∧
      (0 < ctyInHeld s → (u.dte_out_res + 1) % 32 = u.dte_out_ptr →
        inputLine u = u ∧ (inputLine u).cty_in.out_ptr = s.cty_in.out_ptr) ∧
      (0 < ctyInHeld s → (u.dte_out_res + 1) % 32 ≠ u.dte_out_ptr → _)
    refine ⟨?_, ?_, ?_⟩
    · intro h0
      rw [h0, Nat.zero_min, Nat.add_zero, Nat.mod_eq_of_lt hout'] at hsp
      have hl : ¬ ((inputWords u 0).length > 0) := by
        rw [inputWords_length]
        omega
      rw [inputLine_of_loop u _ _ hsp, if_neg hl]
      rfl
    · intro hpos hfull
      have hl : (inputWords u (min (ctyInHeld s) 32)).length > 0 := by
        rw [inputWords_length]
        omega
      have e : inputLine u = u := by
        rw [inputLine_of_loop u _ _ hsp, if_pos hl]
        rw [dte_queue_full (withOut u ((u.cty_in.out_ptr + min (ctyInHeld s) 32) % 256))
          _ _ _ _ hfull]
        rw [if_pos rfl]
        rfl
      rw [e]
      exact ⟨rfl, congrArg Buffer.out_ptr hcu⟩
    · intro hpos hroom
      have hl : (inputWords u (min (ctyInHeld s) 32)).length > 0 := by
        rw [inputWords_length]
        omega
      have hroom' : ((withOut u ((u.cty_in.out_ptr + min (ctyInHeld s) 32) % 256)).dte_out_res
          + 1) &&& 0x1f ≠ (withOut u ((u.cty_in.out_ptr + min (ctyInHeld s) 32) % 256)).dte_out_ptr := by
        rw [and_31]
        exact hroom
      have hne : ¬ ((1 : Nat) = 0) := by decide
      rw [inputLine_of_loop u _ _ hsp, if_pos hl, dte_queue_not_full _ _ _ _ _ hroom',
        if_neg hne, inputWords_length]
      have hmin : 1 ≤ min (ctyInHeld s) 32 := by omega
      have hmin2 : min (ctyInHeld s) 32 ≤ 256 := by omega
      refine ⟨?_, ?_, ?_, ?_, ?_, ?_, ?_, ?_, ?_⟩
      · show (u.cty_in.out_ptr + min (ctyInHeld s) 32) % 256 = _
        rw [hcu]
      · show u.cty_in.in_ptr = _
        rw [hcu]
      · show (u.dte_out_res + 1) &&& 0x1f = _
        exact and_31 _
      · show ((Function.update u.dte_out u.dte_out_res _) u.dte_out_res).cnt = 10
        rw [Function.update_same]
      · show ((Function.update u.dte_out u.dte_out_res _) u.dte_out_res).func = PRI_EMLNC
        rw [Function.update_same]
        rfl
      · show ((Function.update u.dte_out u.dte_out_res _) u.dte_out_res).dev = PRI_EMCTY
        rw [Function.update_same]
        rfl
      · show ((Function.update u.dte_out u.dte_out_res _) u.dte_out_res).dcnt = _
        rw [Function.update_same]
        exact u16_dcnt hmin hmin2
      · intro i hi
        have hw : ∀ x : Nat, x = charWord s (s.cty_in.buff ((s.cty_in.out_ptr + i) % 256)) →
            x = charWord s (s.cty_in.buff ((s.cty_in.out_ptr + i) % 256)) ∧
            (s.cty_in.buff ((s.cty_in.out_ptr + i) % 256) < 128 →
              x = s.cty_in.buff ((s.cty_in.out_ptr + i) % 256)) :=
          fun x hx => ⟨hx, fun hs => hx.trans (charWord_small s hs)⟩
        apply hw
        show ((Function.update u.dte_out u.dte_out_res _) u.dte_out_res).data i = _
        rw [Function.update_same]
        show dte_queue_copy _ _ 0 _ i = _
        rw [dte_queue_copy_apply, if_pos (by omega), inputWords_getD _ _ _ hi]
        show charWord u (u.cty_in.buff ((u.cty_in.out_ptr + i) % 256)) % 65536 = _
        rw [hcu, Nat.mod_eq_of_lt (charWord_lt _ _)]
        unfold charWord
        rw [hsu]
      · intro j hj
        show (Function.update u.dte_out u.dte_out_res _) j = _
        rw [Function.update_noteq hj]

/-- Witness of C31: with the three bytes 0x68, 0x69, 0x0d in the console
input channel and an empty outbound queue, one packet with these three data
words is enqueued and the remove pointer advances from 0 to 3. -/
theorem C31_witness :
    (dte_input c31State).cty_in.out_ptr = 3 ∧
    (dte_input c31State).dte_out_res = 1 ∧
    ((dte_input c31State).dte_out 0).func = PRI_EMLNC ∧
    ((dte_input c31State).dte_out 0).dev = PRI_EMCTY ∧
    ((dte_input c31State).dte_out 0).dcnt = 4 ∧
    ((dte_input c31State).dte_out 0).data 0 = 0x68 ∧
    ((dte_input c31State).dte_out 0).data 1 = 0x69 ∧
    ((dte_input c31State).dte_out 0).data 2 = 0x0d := by
  obtain ⟨_, _, h⟩ := C31_console_input_batching c31State (by decide) (by decide)
  obtain ⟨_, _, h3⟩ := h rfl
  obtain ⟨a1, _, a3, _, a5, a6, a7, a8, _⟩ := h3 (by decide) (by decide)
  exact ⟨a1, a3, a5, a6, a7, ((a8 0 (by decide)).2 (by decide)),
    ((a8 1 (by decide)).2 (by decide)), ((a8 2 (by decide)).2 (by decide))⟩

/-- C33 fails on the code.  The spool loop of `ttyi_svc` tests the output
channel `tty_out[ln]` for room and stores into the input channel
`tty_in[ln]`.  With the input channel of line 0 full (insert pointer 4, remove
pointer 5) and its output channel empty, the poll appends both received
bytes: the first makes the insert pointer equal to the remove pointer, so the
full channel appears empty, and the second overwrites the unread byte 0x41
at index 5. -/
theorem C33_input_appended_when_full :
    ((c33State.tty_in 0).in_ptr + 1) % 256 = (c33State.tty_in 0).out_ptr ∧
    (c33State.tty_in 0).buff 5 = 0x41 ∧
    ((c33State.tty_out 0).in_ptr + 1) % 256 ≠ (c33State.tty_out 0).out_ptr ∧
    ((ttyi_svc { c33State with tty_rx := fun ln => if ln = 0 then [0x58] else [] }).tty_in 0).in_ptr
      = (c33State.tty_in 0).out_ptr ∧
    ((ttyi_svc c33State).tty_in 0).in_ptr = 6 ∧
    ((ttyi_svc c33State).tty_in 0).out_ptr = 5 ∧
    ((ttyi_svc c33State).tty_in 0).buff 4 = 0x58 ∧
    ((ttyi_svc c33State).tty_in 0).buff 5 = 0x59 := by
  decide

theorem c32_fallback : dte_primary 0o400000 c32State = c32Fallen := rfl

/-- C32 fails on the code.  The fallback of `dte_primary` and `dte_start`
sets `DTE_SEC` in the STATUS of unit 0, and `dtei_svc` guards the primary
protocol work with the STATUS of its own unit, unit 1, which only priming
and reset change.  After a receive activation has fallen back because the
status word cannot be read, one activation of `dtei_svc` dispatches the
waiting printer packet (the byte 0x41 reaches the printer channel and the
dispatch cursor advances), enqueues the waiting console byte 0x68 as a
PRI_EMLNC packet for PRI_EMCTY (the reserve cursor and the remove pointer
advance), and kicks the outbound queue (its failed read of the status word
sets `DTE_10ER`). -/
theorem C32_service_ignores_fallback :
    c32State.STATUS &&& DTE_SEC = 0 ∧
    (dte_primary 0o400000 c32State).STATUS &&& DTE_SEC ≠ 0 ∧
    (dte_primary 0o400000 c32State).STATUS1 &&& DTE_SEC = 0 ∧
    (dtei_svc 0o777777777777 0o400000000000 0o400000 2
        (dte_primary 0o400000 c32State)).map
      (fun t => (t.lpt_log, t.dte_in_cmd, t.dte_out_res, t.cty_in.out_ptr))
      = some ([0x41], 1, 1, 1) ∧
    (dtei_svc 0o777777777777 0o400000000000 0o400000 2
        (dte_primary 0o400000 c32State)).map
      (fun t => ((t.dte_out 0).func, (t.dte_out 0).dev, (t.dte_out 0).data 0,
        t.STATUS &&& DTE_10ER))
      = some (PRI_EMLNC, PRI_EMCTY, 0x68, DTE_10ER) := by
  rw [c32_fallback]
  refine ⟨by decide, by decide, by decide, ?_, ?_⟩
  · decide
  · decide

/-! ## Cursors stay in range in the slot model -/

theorem lt32 (x : Nat) : x &&& 0x1f < 32 := by
  rw [and_31]
  omega

theorem lt256 (x : Nat) : x &&& 0xff < 256 := by
  rw [and_255]
  omega

theorem same {B a : Nat} : a = a ∨ a < B := Or.inl rfl

theorem step_trans {B a b c : Nat} (h1 : b = a ∨ b < B) (h2 : c = b ∨ c < B) :
    c = a ∨ c < B := by
  omega

theorem moves_refl (u : Dte) : Moves u u :=
  ⟨same, same, same, same, same, same, same, same, same, same⟩

theorem moves_trans {u v t : Dte} (h1 : Moves u v) (h2 : Moves v t) : Moves u t := by
  obtain ⟨a1, a2, a3, a4, a5, a6, a7, a8, a9, a10⟩ := h1
  obtain ⟨b1, b2, b3, b4, b5, b6, b7, b8, b9, b10⟩ := h2
  exact ⟨step_trans a1 b1, step_trans a2 b2, step_trans a3 b3, step_trans a4 b4,
    step_trans a5 b5, step_trans a6 b6, step_trans a7 b7, step_trans a8 b8,
    step_trans a9 b9, step_trans a10 b10⟩

theorem moves_of_eq {u t : Dte} (h1 : t.dte_in_ptr = u.dte_in_ptr)
    (h2 : t.dte_in_cmd = u.dte_in_cmd) (h3 : t.dte_out_ptr = u.dte_out_ptr)
    (h4 : t.dte_out_res = u.dte_out_res) (h5 : t.cty_in = u.cty_in)
    (h6 : t.cty_out = u.cty_out) (h7 : t.lpt_queue = u.lpt_queue) : Moves u t := by
  refine ⟨Or.inl h1, Or.inl h2, Or.inl h3, Or.inl h4, Or.inl ?_, Or.inl ?_, Or.inl ?_,
    Or.inl ?_, Or.inl ?_, Or.inl ?_⟩
  · rw [h5]
  · rw [h5]
  · rw [h6]
  · rw [h6]
  · rw [h7]
  · rw [h7]

theorem moves_inv {u t : Dte} (hu : CursorsInRange u) (h : Moves u t) : CursorsInRange t := by
  obtain ⟨a1, a2, a3, a4, a5, a6, a7, a8, a9, a10⟩ := hu
  obtain ⟨b1, b2, b3, b4, b5, b6, b7, b8, b9, b10⟩ := h
  refine ⟨?_, ?_, ?_, ?_, ?_, ?_, ?_, ?_, ?_, ?_⟩ <;> omega

/-! ### Collaborators and register interface -/

theorem Mem_write_byte_moves (s : Dte) (w : Nat) : Moves s (Mem_write_byte s w).2 := by
  unfold Mem_write_byte
  split <;> exact moves_of_eq rfl rfl rfl rfl rfl rfl rfl

theorem Mem_read_byte_moves (s : Dte) : Moves s (Mem_read_byte s).2 := by
  unfold Mem_read_byte
  split <;> exact moves_of_eq rfl rfl rfl rfl rfl rfl rfl

theorem Mem_deposit_word_moves (s : Dte) (off w : Nat) :
    Moves s (Mem_deposit_word s off w).2 := by
  unfold Mem_deposit_word
  split <;> exact moves_of_eq rfl rfl rfl rfl rfl rfl rfl

theorem sim_putchar_moves (s : Dte) (c : Nat) : Moves s (sim_putchar s c).2 := by
  unfold sim_putchar
  split <;> exact moves_of_eq rfl rfl rfl rfl rfl rfl rfl

theorem sim_putchar_s_moves (s : Dte) (c : Int) : Moves s (sim_putchar_s s c).2 := by
  unfold sim_putchar_s
  split <;> exact moves_of_eq rfl rfl rfl rfl rfl rfl rfl

theorem raiseIfEnabled_moves (s : Dte) : Moves s (raiseIfEnabled s) := by
  unfold raiseIfEnabled
  split
  · exact moves_of_eq rfl rfl rfl rfl rfl rfl rfl
  · exact moves_refl s

theorem setM_moves (s : Dte) (a v : Nat) : Moves s (setM s a v) :=
  moves_of_eq rfl rfl rfl rfl rfl rfl rfl

theorem dte_devio_DATAO_moves (s : Dte) (data : Nat) : Moves s (dte_devio_DATAO s data) :=
  moves_of_eq rfl rfl rfl rfl rfl rfl rfl

theorem dte_devio_CONO_moves (R : Nat) (s : Dte) (data : Nat) :
    Moves s (dte_devio_CONO R s data) := by
  unfold dte_devio_CONO
  dsimp only
  split <;> exact moves_of_eq rfl rfl rfl rfl rfl rfl rfl

theorem dte_reset_moves (s : Dte) : Moves s (dte_reset s) :=
  moves_of_eq rfl rfl rfl rfl rfl rfl rfl

theorem dte_queue_moves (s : Dte) (f d n : Nat) (l : List Nat) :
    Moves s (dte_queue s f d n l).2 := by
  unfold dte_queue
  split
  · exact moves_refl s
  · exact ⟨same, same, same, Or.inr (lt32 _), same, same, same, same, same, same⟩

/-! ### Transmit path -/

theorem writeThen_moves {u s : Dte} (w : Nat) (k : Dte → Option Dte) (hs : Moves u s)
    (hk : ∀ s1, Moves u s1 → ∀ t, k s1 = some t → Moves u t) :
    ∀ t, writeThen s w k = some t → Moves u t := by
  intro t ht
  have hm := moves_trans hs (Mem_write_byte_moves s w)
  unfold writeThen at ht
  generalize Mem_write_byte s w = r at ht hm
  obtain ⟨b, s1⟩ := r
  cases b
  · cases ht
    exact hm
  · exact hk s1 hm t ht

theorem sendIndirect_moves (out : Packet) :
    ∀ (fuel cnt : Nat) (s : Dte) (r : Bool × Dte),
      sendIndirect out fuel cnt s = some r → Moves s r.2 := by
  intro fuel
  induction fuel with
  | zero =>
    intro cnt s r h
    cases cnt with
    | zero =>
      rw [sendIndirect] at h
      cases h
      exact moves_refl s
    | succ c =>
      rw [sendIndirect] at h
      cases h
  | succ n ih =>
    intro cnt s r h
    cases cnt with
    | zero =>
      rw [sendIndirect] at h
      cases h
      exact moves_refl s
    | succ c =>
      rw [sendIndirect] at h
      have hm := Mem_write_byte_moves s (out.data 0)
      generalize Mem_write_byte s (out.data 0) = q at h hm
      obtain ⟨b, s1⟩ := q
      cases b
      · cases h
        exact hm
      · exact moves_trans hm (ih _ _ _ h)

theorem sendDirect_moves (out : Packet) :
    ∀ (fuel cnt i : Nat) (s : Dte) (r : Bool × Dte),
      sendDirect out fuel cnt i s = some r → Moves s r.2 := by
  intro fuel
  induction fuel with
  | zero =>
    intro cnt i s r h
    cases cnt with
    | zero =>
      rw [sendDirect] at h
      cases h
      exact moves_refl s
    | succ c =>
      rw [sendDirect] at h
      cases h
  | succ n ih =>
    intro cnt i s r h
    cases cnt with
    | zero =>
      rw [sendDirect] at h
      cases h
      exact moves_refl s
    | succ c =>
      rw [sendDirect] at h
      have hm := Mem_write_byte_moves s (out.data i)
      generalize Mem_write_byte s (out.data i) = q at h hm
      obtain ⟨b, s1⟩ := q
      cases b
      · cases h
        exact hm
      · exact moves_trans hm (ih _ _ _ _ h)

theorem transferDone_moves (s : Dte) : Moves s (transferDone s) :=
  moves_trans (moves_of_eq rfl rfl rfl rfl rfl rfl rfl) (raiseIfEnabled_moves _)

theorem transferAdvance_moves (s : Dte) : Moves s (transferAdvance s) :=
  ⟨same, same, Or.inr (lt32 _), same, same, same, same, same, same, same⟩

theorem dte_transfer_moves (fuel : Nat) (s t : Dte) (h : dte_transfer fuel s = some t) :
    Moves s t := by
  unfold dte_transfer at h
  split at h
  · cases h
    exact moves_refl s
  · dsimp only at h
    have h1 : Moves s { s with STATUS := clearBits s.STATUS DTE_TO11, irq := none } :=
      moves_of_eq rfl rfl rfl rfl rfl rfl rfl
    split at h
    · generalize hg : sendIndirect _ _ _ _ = o at h
      cases o with
      | none => cases h
      | some r =>
        obtain ⟨b, s2⟩ := r
        have hm := moves_trans h1 (sendIndirect_moves _ _ _ _ _ hg)
        cases b
        · cases h
          exact hm
        · cases h
          exact moves_trans hm (moves_trans (moves_of_eq rfl rfl rfl rfl rfl rfl rfl)
            (moves_trans (transferAdvance_moves _) (transferDone_moves _)))
    · generalize (if ((s.dte_out s.dte_out_ptr).cnt + (s.dte_out s.dte_out_ptr).dcnt) % 65536
          > acceptedCount s.CNT then (s.dte_out s.dte_out_ptr).func ||| 0o100000
          else (s.dte_out s.dte_out_ptr).func) = func at h
      generalize (if ((s.dte_out s.dte_out_ptr).cnt + (s.dte_out s.dte_out_ptr).dcnt) % 65536
          > acceptedCount s.CNT then acceptedCount s.CNT
          else ((s.dte_out s.dte_out_ptr).cnt + (s.dte_out s.dte_out_ptr).dcnt) % 65536)
        = cnt at h
      refine writeThen_moves _ _ ?_ ?_ t h
      · exact moves_of_eq rfl rfl rfl rfl rfl rfl rfl
      intro s3 m3 t3 h3
      refine writeThen_moves _ _ m3 ?_ t3 h3
      intro s4 m4 t4 h4
      refine writeThen_moves _ _ m4 ?_ t4 h4
      intro s5 m5 t5 h5
      refine writeThen_moves _ _ m5 ?_ t5 h5
      intro s6 m6 t6 h6
      by_cases hc : func &&& 0o100000 ≠ 0
      · rw [if_pos hc] at h6
        refine writeThen_moves _ _ m6 ?_ t6 h6
        intro s7 m7 t7 h7
        cases h7
        exact moves_trans m7 (moves_trans (moves_of_eq rfl rfl rfl rfl rfl rfl rfl)
          (transferDone_moves _))
      · rw [if_neg hc] at h6
        generalize hg : sendDirect _ _ _ _ _ = o at h6
        cases o with
        | none => cases h6
        | some r =>
          obtain ⟨b, s7⟩ := r
          have hm := moves_trans m6 (sendDirect_moves _ _ _ _ _ _ hg)
          cases b
          · cases h6
            exact hm
          · cases h6
            exact moves_trans hm (moves_trans (transferAdvance_moves _) (transferDone_moves _))

/-! ### Receive path and kick -/

theorem setIn_moves (s : Dte) (g : Packet → Packet) : Moves s (setIn s g) :=
  moves_of_eq rfl rfl rfl rfl rfl rfl rfl

theorem storeData_moves (s : Dte) (i w : Nat) : Moves s (storeData s i w) :=
  moves_of_eq rfl rfl rfl rfl rfl rfl rfl

theorem primaryError_moves (s : Dte) : Moves s (primaryError s) :=
  moves_of_eq rfl rfl rfl rfl rfl rfl rfl

theorem readThen_moves {u s : Dte} (k : Nat → Dte → Dte) (hs : Moves u s)
    (hk : ∀ w s1, Moves u s1 → Moves u (k w s1)) : Moves u (readThen s k) := by
  have hm := moves_trans hs (Mem_read_byte_moves s)
  unfold readThen
  generalize Mem_read_byte s = r at hm
  obtain ⟨o, s1⟩ := r
  cases o with
  | none => exact moves_trans hm (primaryError_moves _)
  | some w => exact hk w s1 hm

theorem readDirect_moves : ∀ (c i : Nat) (s : Dte), Moves s (readDirect c i s).2
  | 0, _, s => by
    rw [readDirect]
    exact moves_refl s
  | 1, i, s => by
    rw [readDirect]
    have hm := Mem_read_byte_moves s
    generalize Mem_read_byte s = r at hm
    obtain ⟨o, s1⟩ := r
    cases o with
    | none => exact hm
    | some w => exact moves_trans hm (storeData_moves _ _ _)
  | c + 2, i, s => by
    rw [readDirect]
    have hm := Mem_read_byte_moves s
    generalize Mem_read_byte s = r at hm
    obtain ⟨o, s1⟩ := r
    cases o with
    | none => exact hm
    | some w =>
      exact moves_trans hm (moves_trans (storeData_moves _ _ _) (readDirect_moves c (i + 1) _))

theorem readIndirect_moves : ∀ (c i : Nat) (s : Dte), Moves s (readIndirect c i s).2
  | 0, i, s => by
    rw [readIndirect]
    have hm := Mem_read_byte_moves s
    generalize Mem_read_byte s = r at hm
    obtain ⟨o, s1⟩ := r
    cases o with
    | none => exact hm
    | some w => exact moves_trans hm (storeData_moves _ _ _)
  | 1, i, s => by
    rw [readIndirect]
    have hm := Mem_read_byte_moves s
    generalize Mem_read_byte s = r at hm
    obtain ⟨o, s1⟩ := r
    cases o with
    | none => exact hm
    | some w => exact moves_trans hm (storeData_moves _ _ _)
  | c + 2, i, s => by
    rw [readIndirect]
    have hm := Mem_read_byte_moves s
    generalize Mem_read_byte s = r at hm
    obtain ⟨o, s1⟩ := r
    cases o with
    | none => exact hm
    | some w =>
      exact moves_trans hm
        (moves_trans (storeData_moves _ _ _) (readIndirect_moves c (i + 1) _))

theorem moves_of_result {a : Dte} {r r0 : Bool × Dte} (h : r0 = r) (hm : Moves a r0.2) :
    Moves a r.2 := by
  rw [← h]
  exact hm

theorem primaryDone_moves (s : Dte) (word : Nat) : Moves s (primaryDone s word) := by
  unfold primaryDone
  have hm := Mem_deposit_word_moves s (s.dte_dt10_off + PRI_CMTW_STS) (clearBits word PRI_CMT_TOT)
  generalize Mem_deposit_word s _ _ = r at hm
  obtain ⟨b, s1⟩ := r
  cases b
  · exact moves_trans hm (primaryError_moves _)
  · exact moves_trans hm (moves_trans (moves_of_eq rfl rfl rfl rfl rfl rfl rfl)
      (raiseIfEnabled_moves _))

theorem advanceIn_moves (s : Dte) (st : Nat) :
    Moves s { s with STATUS := st, dte_in_ptr := (s.dte_in_ptr + 1) &&& 0x1f } :=
  ⟨Or.inr (lt32 _), same, same, same, same, same, same, same, same, same⟩

theorem primaryIndirect_moves (s : Dte) : Moves s (primaryIndirect s) := by
  unfold primaryIndirect
  dsimp only
  cases Mem_examine_word s (s.dte_et11_off + PRI_CMTW_CNT) with
  | none => exact primaryError_moves s
  | some iword =>
    dsimp only
    generalize hr : readIndirect _ 0 _ = r
    have hm := moves_trans (setIn_moves s fun p => { p with dcnt := iword &&& 0o177777 })
      (moves_of_result hr (readIndirect_moves _ _ _))
    obtain ⟨b, s4⟩ := r
    cases b
    · exact moves_trans hm (primaryError_moves _)
    · exact moves_trans hm (moves_trans (advanceIn_moves s4 _) (primaryDone_moves _ _))

theorem primaryDirectEnd_moves (word : Nat) (s : Dte) : Moves s (primaryDirectEnd word s) := by
  unfold primaryDirectEnd
  split
  · dsimp only
    have h13 : Moves s (setIn { s with STATUS := s.STATUS ||| DTE_IND }
        fun p => { p with dcnt := p.data 0, sdev := p.data 0 }) :=
      moves_of_eq rfl rfl rfl rfl rfl rfl rfl
    generalize hr : Mem_deposit_word _ _ _ = r
    have hm := moves_trans h13 (moves_of_result hr (Mem_deposit_word_moves _ _ _))
    obtain ⟨b, s14⟩ := r
    cases b
    · exact moves_trans hm (primaryError_moves _)
    · exact moves_trans hm (primaryDone_moves _ _)
  · exact moves_trans
      (⟨Or.inr (lt32 _), same, same, same, same, same, same, same, same, same⟩ :
        Moves s { s with dte_in_ptr := (s.dte_in_ptr + 1) &&& 0x1f })
      (primaryDone_moves _ _)

theorem primaryDirect_moves (word : Nat) (s : Dte) : Moves s (primaryDirect word s) := by
  unfold primaryDirect
  dsimp only
  refine readThen_moves _ (setIn_moves _ _) ?_
  intro d1 s4 m4
  refine readThen_moves _ (moves_trans m4 (setIn_moves _ _)) ?_
  intro d2 s6 m6
  refine readThen_moves _ (moves_trans m6 (setIn_moves _ _)) ?_
  intro d3 s8 m8
  refine readThen_moves _ (moves_trans m8 (setIn_moves _ _)) ?_
  intro d4 s10 m10
  generalize hr : readDirect _ 0 _ = r
  have hm := moves_trans (moves_trans m10 (setIn_moves s10 fun p => { p with spare := d4 }))
    (moves_of_result hr (readDirect_moves _ _ _))
  obtain ⟨b, s12⟩ := r
  cases b
  · exact moves_trans hm (primaryError_moves _)
  · exact moves_trans hm (primaryDirectEnd_moves _ _)

theorem dte_primary_moves (IP : Nat) (s : Dte) : Moves s (dte_primary IP s) := by
  unfold dte_primary
  split
  · exact moves_refl s
  · split
    · exact moves_of_eq rfl rfl rfl rfl rfl rfl rfl
    · dsimp only
      have h1 : Moves s { s with STATUS := clearBits s.STATUS DTE_11DB, irq := none } :=
        moves_of_eq rfl rfl rfl rfl rfl rfl rfl
      cases Mem_examine_word { s with STATUS := clearBits s.STATUS DTE_11DB, irq := none }
          (s.dte_et11_off + PRI_CMTW_STS) with
      | none => exact moves_trans h1 (primaryError_moves _)
      | some word =>
        dsimp only
        generalize hs2 : (if word &&& PRI_CMT_QP = 0 then _ else _ : Dte) = s2
        have h2 : Moves s s2 := by
          rw [← hs2]
          split <;> exact moves_of_eq rfl rfl rfl rfl rfl rfl rfl
        split
        · split
          · exact h2
          · exact moves_trans h2 (primaryIndirect_moves _)
        · exact moves_trans h2 (primaryDirect_moves _ _)

theorem startError_moves (s : Dte) : Moves s (startError s).2 :=
  moves_trans (moves_of_eq rfl rfl rfl rfl rfl rfl rfl) (raiseIfEnabled_moves _)

theorem dte_start_moves (IP : Nat) (s : Dte) : Moves s (dte_start IP s).2 := by
  unfold dte_start
  split
  · exact moves_refl s
  · split
    · exact moves_refl s
    · cases Mem_examine_word s (s.dte_et11_off + PRI_CMTW_STS) with
      | none => exact startError_moves s
      | some word =>
        dsimp only
        split
        · exact moves_refl s
        · have hm := Mem_deposit_word_moves s (s.dte_dt10_off + PRI_CMTW_STS)
            (clearBits word (PRI_CMT_10IC ||| IP) ||| ((word + 0o400) &&& PRI_CMT_10IC))
          generalize Mem_deposit_word s _ _ = r at hm
          obtain ⟨b, s1⟩ := r
          cases b
          · exact moves_trans hm (startError_moves _)
          · dsimp only
            have hm2 := moves_trans hm (Mem_deposit_word_moves s1 (s1.dte_dt10_off + PRI_CMTW_CNT)
              ((s1.dte_out s1.dte_out_ptr).cnt + (s1.dte_out s1.dte_out_ptr).dcnt))
            generalize Mem_deposit_word s1 _ _ = r2 at hm2
            obtain ⟨b2, s2⟩ := r2
            cases b2
            · exact moves_trans hm2 (startError_moves _)
            · exact moves_trans hm2 (moves_trans (moves_of_eq rfl rfl rfl rfl rfl rfl rfl)
                (raiseIfEnabled_moves _))

/-! ### Dispatch -/

theorem lptPut_moves (s : Dte) : Moves s (lptPut s) :=
  ⟨same, same, same, same, same, same, same, same, Or.inr (lt256 _), same⟩

theorem ttyPut_moves (ln : Int) (s : Dte) : Moves s (ttyPut ln s) :=
  moves_of_eq rfl rfl rfl rfl rfl rfl rfl

theorem ctyPut_moves (s : Dte) : Moves s (ctyPut s) :=
  ⟨same, same, same, same, same, same, Or.inr (lt256 _), same, same, same⟩

theorem lptLoop_moves : ∀ (n : Nat) (s : Dte), Moves s (lptLoop n s).2
  | 0, s => moves_refl s
  | n + 1, s => by
    unfold lptLoop
    split
    · exact moves_refl s
    · exact moves_trans (lptPut_moves s) (lptLoop_moves n _)

theorem ttyLoop_moves (ln : Int) : ∀ (n : Nat) (s : Dte), Moves s (ttyLoop ln n s).2
  | 0, s => moves_refl s
  | n + 1, s => by
    unfold ttyLoop
    split
    · exact moves_refl s
    · exact moves_trans (ttyPut_moves ln s) (ttyLoop_moves ln n _)

theorem ctyLoop_moves : ∀ (n : Nat) (s : Dte), Moves s (ctyLoop n s).2
  | 0, s => moves_refl s
  | n + 1, s => by
    unfold ctyLoop
    split
    · exact moves_refl s
    · exact moves_trans (ctyPut_moves s) (ctyLoop_moves n _)

theorem lptActivate_moves (s : Dte) : Moves s (lptActivate s) := by
  unfold lptActivate
  split
  · exact moves_refl s
  · exact moves_of_eq rfl rfl rfl rfl rfl rfl rfl

theorem functionCty_moves (s : Dte) : Moves s (functionCty s).2 := by
  unfold functionCty
  rw [loopEnd_snd]
  exact ctyLoop_moves _ s

theorem functionSendAll_moves (s : Dte) : Moves s (functionSendAll s).2 := by
  unfold functionSendAll
  split
  · exact moves_refl s
  · exact functionCty_moves s

theorem functionString_moves (s : Dte) : Moves s (functionString s).2 := by
  unfold functionString
  dsimp only
  split
  · rw [loopEnd_snd]
    exact moves_trans (lptActivate_moves s) (lptLoop_moves _ _)
  · split
    · split
      · exact functionCty_moves s
      · split
        · exact moves_refl s
        · rw [loopEnd_snd]
          exact ttyLoop_moves _ _ s
    · exact functionSendAll_moves s

theorem functionEnable_moves (s : Dte) : Moves s (functionEnable s) := by
  unfold functionEnable
  split
  · split
    · exact moves_of_eq rfl rfl rfl rfl rfl rfl rfl
    · exact moves_of_eq rfl rfl rfl rfl rfl rfl rfl
  · exact moves_refl s

theorem functionCase_moves (u : Dte) : Moves u (functionCase u).2 := by
  unfold functionCase
  show Moves u (Prod.snd (if _ then _ else _))
  by_cases h1 : (u.dte_in u.dte_in_cmd).func &&& 0o377 = PRI_EM2EI
  · rw [if_pos h1]
    split
    · exact dte_queue_moves u _ _ _ _
    · exact dte_queue_moves u _ _ _ _
  rw [if_neg h1]
  by_cases h2 : (u.dte_in u.dte_in_cmd).func &&& 0o377 = PRI_EMSTR
  · rw [if_pos h2]
    exact functionString_moves u
  rw [if_neg h2]
  by_cases h3 : (u.dte_in u.dte_in_cmd).func &&& 0o377 = PRI_EMSNA
  · rw [if_pos h3]
    exact functionSendAll_moves u
  rw [if_neg h3]
  by_cases h4 : (u.dte_in u.dte_in_cmd).func &&& 0o377 = PRI_EMFLO
  · rw [if_pos h4]
    split
    · exact moves_of_eq rfl rfl rfl rfl rfl rfl rfl
    · exact moves_refl u
  rw [if_neg h4]
  by_cases h5 : (u.dte_in u.dte_in_cmd).func &&& 0o377 = PRI_EMHUD
  · rw [if_pos h5]
    split
    · exact moves_of_eq rfl rfl rfl rfl rfl rfl rfl
    · exact moves_refl u
  rw [if_neg h5]
  by_cases h6 : (u.dte_in u.dte_in_cmd).func &&& 0o377 = PRI_EMXOF
  · rw [if_pos h6]
    split
    · exact moves_of_eq rfl rfl rfl rfl rfl rfl rfl
    · exact moves_refl u
  rw [if_neg h6]
  by_cases h7 : (u.dte_in u.dte_in_cmd).func &&& 0o377 = PRI_EMXON
  · rw [if_pos h7]
    split
    · exact moves_of_eq rfl rfl rfl rfl rfl rfl rfl
    · exact moves_refl u
  rw [if_neg h7]
  split
  · exact functionEnable_moves u
  · exact moves_refl u

theorem markFinished_moves (s : Dte) : Moves s (markFinished s) :=
  ⟨same, Or.inr (lt32 _), same, same, same, same, same, same, same, same⟩

theorem dte_function_moves : ∀ (fuel : Nat) (s t : Dte), dte_function fuel s = some t → Moves s t
  | 0, s, t, h => by
    rw [dte_function] at h
    cases h
  | fuel + 1, s, t, h => by
    rw [dte_function] at h
    split at h
    · cases h
      exact moves_refl s
    · split at h
      · cases h
        exact moves_refl s
      · have hm := functionCase_moves s
        generalize functionCase s = r at h hm
        obtain ⟨b, s1⟩ := r
        cases b
        · cases h
          exact hm
        · exact moves_trans hm (moves_trans (markFinished_moves s1)
            (dte_function_moves fuel _ t h))

/-! ### Console input batching -/

theorem bufDrop_in_moves (s : Dte) : Moves s { s with cty_in := bufDrop s.cty_in } :=
  ⟨same, same, same, same, same, Or.inr (lt256 _), same, same, same, same⟩

theorem inputLoop_moves : ∀ (m : Nat) (s : Dte) (q : List Nat), Moves s (inputLoop m s q).1
  | 0, s, _ => moves_refl s
  | m + 1, s, q => by
    rw [inputLoop]
    split
    · exact moves_trans (bufDrop_in_moves s) (inputLoop_moves m _ _)
    · exact moves_refl s

theorem inputAck_moves (s : Dte) : Moves s (inputAck s).2 := by
  unfold inputAck
  split
  · split
    · exact dte_queue_moves s _ _ _ _
    · exact moves_trans (dte_queue_moves s _ _ _ _) (moves_of_eq rfl rfl rfl rfl rfl rfl rfl)
  · exact moves_refl s

theorem restore_moves {u x : Dte} (h : Moves u x) :
    Moves u { x with cty_in := { x.cty_in with out_ptr := u.cty_in.out_ptr } } := by
  obtain ⟨a1, a2, a3, a4, a5, _, a7, a8, a9, a10⟩ := h
  exact ⟨a1, a2, a3, a4, a5, Or.inl rfl, a7, a8, a9, a10⟩

theorem inputLine_moves (s : Dte) : Moves s (inputLine s) := by
  unfold inputLine
  dsimp only
  have hm := inputLoop_moves 32 s []
  split
  · split
    · exact restore_moves (moves_trans hm (dte_queue_moves _ _ _ _ _))
    · exact moves_trans hm (dte_queue_moves _ _ _ _ _)
  · exact hm

theorem dte_input_moves (s : Dte) : Moves s (dte_input s) := by
  rw [dte_input_eq]
  split
  · exact moves_trans (inputAck_moves s) (inputLine_moves _)
  · exact inputAck_moves s

/-! ### Secondary protocol and ITS fast path -/

theorem moves_then {u v t : Dte} (h2 : Moves v t) (h1 : Moves u v) : Moves u t :=
  moves_trans h1 h2

theorem ctyOutPut_moves (s : Dte) (b : Nat → Nat) :
    Moves s { s with cty_out :=
      { s.cty_out with buff := b, in_ptr := (s.cty_out.in_ptr + 1) &&& 0xff } } :=
  ⟨same, same, same, same, same, same, Or.inr (lt256 _), same, same, same⟩

theorem ctyInDrop_moves (s : Dte) :
    Moves s { s with cty_in :=
      { s.cty_in with out_ptr := (s.cty_in.out_ptr + 1) &&& 0xff } } :=
  ⟨same, same, same, same, same, Or.inr (lt256 _), same, same, same, same⟩

theorem status_moves (x : Dte) (st : Nat) : Moves x { x with STATUS := st } :=
  moves_of_eq rfl rfl rfl rfl rfl rfl rfl

theorem secondAck_moves (F base : Nat) (s : Dte) : Moves s (secondAck F base s) :=
  moves_of_eq rfl rfl rfl rfl rfl rfl rfl

theorem enterPri_moves (s : Dte) : Moves s (enterPri s) := by
  unfold enterPri
  cases Mem_examine_word s 0 with
  | none => exact moves_refl s
  | some word =>
    exact ⟨Or.inr (Nat.zero_lt_succ 31), Or.inr (Nat.zero_lt_succ 31),
      Or.inr (Nat.zero_lt_succ 31), Or.inr (Nat.zero_lt_succ 31),
      same, same, same, same, same, same⟩

theorem secondMono_moves (F base word : Nat) (s : Dte) :
    Moves s (secondMono F base word s) := by
  unfold secondMono
  split
  · exact moves_of_eq rfl rfl rfl rfl rfl rfl rfl
  · exact moves_then (secondAck_moves _ _ _) (moves_then (setM_moves _ _ _)
      (moves_then (setM_moves _ _ _) (moves_then (setM_moves _ _ _) (ctyOutPut_moves s _))))

theorem secondSetDDT_moves (F base : Nat) (s : Dte) : Moves s (secondSetDDT F base s) := by
  unfold secondSetDDT
  split
  · exact moves_of_eq rfl rfl rfl rfl rfl rfl rfl
  · exact moves_then (secondAck_moves _ _ _) (moves_then (setM_moves _ _ _)
      (moves_then (setM_moves _ _ _) (ctyInDrop_moves s)))

theorem secondClock_moves (base word : Nat) (s : Dte) : Moves s (secondClock base word s) := by
  unfold secondClock
  split
  · exact moves_of_eq rfl rfl rfl rfl rfl rfl rfl
  · split
    · exact moves_of_eq rfl rfl rfl rfl rfl rfl rfl
    · split
      · exact moves_of_eq rfl rfl rfl rfl rfl rfl rfl
      · split
        · exact setM_moves _ _ _
        · exact moves_refl s

theorem itsOutChar_moves (ln : Int) (s : Dte) (c : Nat) : Moves s (itsOutChar ln s c).2 := by
  unfold itsOutChar
  split
  · exact sim_putchar_s_moves _ _
  · split
    · exact moves_refl s
    · exact moves_of_eq rfl rfl rfl rfl rfl rfl rfl

theorem itsOutLoop_moves (ln : Int) : ∀ (cnt : Nat) (s : Dte), Moves s (itsOutLoop ln cnt s).2
  | 0, s => moves_refl s
  | 1, s => by
    rw [itsOutLoop]
    have hm := Mem_read_byte_moves s
    generalize Mem_read_byte s = r at hm
    obtain ⟨o, s1⟩ := r
    cases o with
    | none => exact hm
    | some data => exact moves_trans hm (itsOutChar_moves ln s1 _)
  | cnt + 2, s => by
    rw [itsOutLoop]
    have hm := Mem_read_byte_moves s
    generalize Mem_read_byte s = r at hm
    obtain ⟨o, s1⟩ := r
    cases o with
    | none => exact hm
    | some data =>
      dsimp only
      have hm2 := moves_trans hm (itsOutChar_moves ln s1 ((data >>> 8) &&& 0o177))
      generalize itsOutChar ln s1 ((data >>> 8) &&& 0o177) = r2 at hm2
      obtain ⟨b2, s2⟩ := r2
      cases b2
      · exact hm2
      · dsimp only
        have hm3 := moves_trans hm2 (itsOutChar_moves ln s2 (data &&& 0o177))
        generalize itsOutChar ln s2 (data &&& 0o177) = r3 at hm3
        obtain ⟨b3, s3⟩ := r3
        cases b3
        · exact hm3
        · exact moves_trans hm3 (itsOutLoop_moves ln cnt s3)

theorem itsDonePut_moves (s : Dte) (v : Nat) : Moves s (itsDonePut s v) := by
  unfold itsDonePut
  split
  · exact moves_of_eq rfl rfl rfl rfl rfl rfl rfl
  · exact moves_refl s

theorem itsTypeIn_moves (SM : Nat) (s : Dte) : Moves s (itsTypeIn SM s) := by
  unfold itsTypeIn
  split
  · split
    · exact moves_then (raiseIfEnabled_moves _) (moves_then (status_moves _ _)
        (moves_then (setM_moves _ _ _) (bufDrop_in_moves s)))
    · exact moves_refl s
  · exact moves_refl s

theorem itsRest_moves (F SM : Nat) (s : Dte) : Moves s (itsRest F SM s) := by
  unfold itsRest
  dsimp only
  have h1 : Moves s (if s.M ITS_DTELSP &&& SM = 0 then setM s ITS_DTELSP F else s) := by
    split
    · exact setM_moves _ _ _
    · exact moves_refl s
  generalize (if s.M ITS_DTELSP &&& SM = 0 then setM s ITS_DTELSP F else s) = s1 at h1
  have h2 : Moves s (if s1.STATUS &&& ITS_ON ≠ 0 then itsTypeIn SM s1 else s1) := by
    split
    · exact moves_trans h1 (itsTypeIn_moves SM s1)
    · exact h1
  generalize (if s1.STATUS &&& ITS_ON ≠ 0 then itsTypeIn SM s1 else s1) = s2 at h2
  split
  · split
    · exact moves_trans h2 (moves_then (raiseIfEnabled_moves _) (moves_then (status_moves _ _)
        (moves_then (setM_moves _ _ _)
          (moves_of_eq rfl rfl rfl rfl rfl rfl rfl :
            Moves s2 { s2 with tty_done := bufDrop s2.tty_done }))))
    · exact h2
  · exact h2

theorem dte_its_moves (F SM : Nat) (s : Dte) : Moves s (dte_its F SM s) := by
  unfold dte_its
  dsimp only
  have h1 : Moves s (if s.M ITS_DTEOST &&& SM = 0 then
      if (s.tty_done.in_ptr + 1) &&& 0xff ≠ s.tty_done.out_ptr then
        setM { s with tty_done := bufPut s.tty_done (s.M ITS_DTEOST &&& 0xff) } ITS_DTEOST F
      else s
    else s) := by
    split
    · split
      · exact moves_of_eq rfl rfl rfl rfl rfl rfl rfl
      · exact moves_refl s
    · exact moves_refl s
  generalize (if s.M ITS_DTEOST &&& SM = 0 then
      if (s.tty_done.in_ptr + 1) &&& 0xff ≠ s.tty_done.out_ptr then
        setM { s with tty_done := bufPut s.tty_done (s.M ITS_DTEOST &&& 0xff) } ITS_DTEOST F
      else s
    else s) = s1 at h1
  have h2 : Moves s (if s1.M ITS_DTEINP &&& SM = 0 then setM s1 ITS_DTEINP F else s1) := by
    split
    · exact moves_trans h1 (setM_moves _ _ _)
    · exact h1
  generalize (if s1.M ITS_DTEINP &&& SM = 0 then setM s1 ITS_DTEINP F else s1) = s2 at h2
  split
  · generalize hr : itsOutLoop _ _ s2 = r
    have hm := moves_trans h2 (moves_of_result hr (itsOutLoop_moves _ _ _))
    obtain ⟨b, s3⟩ := r
    cases b
    · exact hm
    · dsimp only
      have h4 : Moves s3 (if (((s2.M ITS_DTEOUT >>> 18) &&& 0o77 : Nat) : Int) - 1 < 0
          then itsDonePut s3 0 else s3) := by
        split
        · exact itsDonePut_moves _ _
        · exact moves_refl s3
      generalize (if (((s2.M ITS_DTEOUT >>> 18) &&& 0o77 : Nat) : Int) - 1 < 0
          then itsDonePut s3 0 else s3) = s4 at h4
      exact moves_trans hm (moves_trans h4 (moves_then (itsRest_moves F SM _)
        (moves_then (raiseIfEnabled_moves _) (moves_then (status_moves _ _)
          (setM_moves s4 _ _)))))
  · exact moves_trans h2 (itsRest_moves F SM s2)

theorem dte_second_moves (F : Nat) (its : Dte → Dte) (hits : ∀ x, Moves x (its x)) (s : Dte) :
    Moves s (dte_second F its s) := by
  unfold dte_second
  show Moves s (if _ then _ else _)
  by_cases h0 : s.KL_ITS = true ∧ s.M (SEC_DTCMD + secBase s) = 0 ∧ QITS s = true ∧
      s.STATUS &&& ITS_ON ≠ 0
  · rw [if_pos h0]
    exact moves_then (moves_of_eq rfl rfl rfl rfl rfl rfl rfl) (hits s)
  rw [if_neg h0]
  by_cases h1 : s.M (SEC_DTCMD + secBase s) &&& SEC_CMDMSK = SEC_SETPRI
  · rw [if_pos h1]
    exact moves_then (secondAck_moves _ _ _) (enterPri_moves s)
  rw [if_neg h1]
  by_cases h2 : s.M (SEC_DTCMD + secBase s) &&& SEC_CMDMSK = SEC_SETDDT
  · rw [if_pos h2]
    exact secondSetDDT_moves _ _ _
  rw [if_neg h2]
  by_cases h3 : s.M (SEC_DTCMD + secBase s) &&& SEC_CMDMSK = SEC_CLRDDT
  · rw [if_pos h3]
    exact moves_then (secondAck_moves _ _ _) (moves_of_eq rfl rfl rfl rfl rfl rfl rfl)
  rw [if_neg h3]
  by_cases h4 : s.M (SEC_DTCMD + secBase s) &&& SEC_CMDMSK = SEC_MONON
  · rw [if_pos h4]
    exact moves_then (secondAck_moves _ _ _) (moves_of_eq rfl rfl rfl rfl rfl rfl rfl)
  rw [if_neg h4]
  by_cases h5 : s.M (SEC_DTCMD + secBase s) &&& SEC_CMDMSK = SEC_RDSW
  · rw [if_pos h5]
    exact moves_then (secondAck_moves _ _ _)
      (moves_then (setM_moves _ _ _) (setM_moves _ _ _))
  rw [if_neg h5]
  by_cases h6 : s.M (SEC_DTCMD + secBase s) &&& SEC_CMDMSK = SEC_PGMCTL
  · rw [if_pos h6]
    split
    · exact moves_then (secondAck_moves _ _ _) (enterPri_moves s)
    · exact secondAck_moves _ _ _
  rw [if_neg h6]
  by_cases h7 : s.M (SEC_DTCMD + secBase s) &&& SEC_CMDMSK = SEC_CLKCTL
  · rw [if_pos h7]
    exact moves_then (secondAck_moves _ _ _) (secondClock_moves _ _ s)
  rw [if_neg h7]
  exact secondMono_moves _ _ _ _

/-! ### Clock, input and printer services -/

theorem dtertc_srv_moves (F R : Nat) (s : Dte) : Moves s (dtertc_srv F R s) := by
  have h0 : Moves s (rtcSchedule s) := moves_of_eq rfl rfl rfl rfl rfl rfl rfl
  have h1 : ∀ x, Moves x (rtcClock F x) := by
    intro x
    unfold rtcClock
    split
    · dsimp only
      split
      · exact moves_of_eq rfl rfl rfl rfl rfl rfl rfl
      · exact moves_of_eq rfl rfl rfl rfl rfl rfl rfl
    · exact moves_refl x
  have h2 : ∀ x, Moves x (rtcIts F x) := by
    intro x
    unfold rtcIts
    dsimp only
    split
    · exact moves_of_eq rfl rfl rfl rfl rfl rfl rfl
    · split
      · exact moves_of_eq rfl rfl rfl rfl rfl rfl rfl
      · exact setM_moves _ _ _
  have h3 : ∀ x, Moves x (rtcKeepAlive F R x) := by
    intro x
    unfold rtcKeepAlive
    split
    · exact setM_moves _ _ _
    · exact moves_refl x
  unfold dtertc_srv
  dsimp only
  split
  · exact moves_trans (moves_trans h0 (h1 _)) (h2 _)
  · exact moves_trans (moves_trans h0 (h1 _)) (h3 _)

theorem ctyFlush_moves : ∀ (fuel : Nat) (s t : Dte), ctyFlush fuel s = some t → Moves s t
  | 0, s, t, h => by
    rw [ctyFlush] at h
    split at h
    · have hm := sim_putchar_moves s (s.cty_out.buff s.cty_out.out_ptr)
      generalize sim_putchar s (s.cty_out.buff s.cty_out.out_ptr) = r at h hm
      obtain ⟨b, s1⟩ := r
      cases b
      · cases h
        exact hm
      · cases h
    · cases h
      exact moves_refl s
  | fuel + 1, s, t, h => by
    rw [ctyFlush] at h
    split at h
    · have hm := sim_putchar_moves s (s.cty_out.buff s.cty_out.out_ptr)
      generalize sim_putchar s (s.cty_out.buff s.cty_out.out_ptr) = r at h hm
      obtain ⟨b, s1⟩ := r
      cases b
      · cases h
        exact hm
      · exact moves_trans hm (moves_trans
          (⟨same, same, same, same, same, same, same, Or.inr (lt256 _), same, same⟩ :
            Moves s1 { s1 with cty_out := bufDrop s1.cty_out })
          (ctyFlush_moves fuel _ t h))
    · cases h
      exact moves_refl s

theorem ctyPoll_moves (s : Dte) : Moves s (ctyPoll s) := by
  unfold ctyPoll
  split
  · cases s.kbd with
    | nil => exact moves_refl s
    | cons k rest =>
      exact ⟨same, same, same, same, Or.inr (lt256 _), same, same, same, same, same⟩
  · exact moves_refl s

theorem ctyMonitorIn_moves (F base : Nat) (s : Dte) : Moves s (ctyMonitorIn F base s) := by
  unfold ctyMonitorIn
  by_cases hc : (if s.KL_ITS then s.STATUS &&& (DTE_SEC ||| ITS_ON) = DTE_SEC
      else s.STATUS &&& DTE_SEC ≠ 0) ∧
      s.cty_in.in_ptr ≠ s.cty_in.out_ptr ∧ s.STATUS &&& DTE_MON ≠ 0 ∧
      s.M (SEC_DTMTI + base) = 0
  · rw [if_pos hc]
    exact moves_then (raiseIfEnabled_moves _) (moves_then (status_moves _ _)
      (moves_then (setM_moves _ _ _) (moves_then (setM_moves _ _ _) (bufDrop_in_moves s))))
  · rw [if_neg hc]
    exact moves_refl s

theorem dtei_svc_moves (F SM IP fuel : Nat) (s t : Dte)
    (h : dtei_svc F SM IP fuel s = some t) : Moves s t := by
  unfold dtei_svc at h
  dsimp only at h
  have h0 : Moves s { s with cosched := s.cosched ++ [1] } :=
    moves_of_eq rfl rfl rfl rfl rfl rfl rfl
  generalize ({ s with cosched := s.cosched ++ [1] } : Dte) = s0 at h h0
  generalize hp : (if inputPrimary s0 then _ else _ : Option Dte) = o1 at h
  cases o1 with
  | none => cases h
  | some s1 =>
    have m1 : Moves s s1 := by
      split at hp
      · generalize hf : dte_function fuel s0 = o at hp
        cases o with
        | none => cases hp
        | some a =>
          cases hp
          exact moves_trans h0 (moves_trans (dte_function_moves fuel s0 a hf)
            (moves_trans (dte_input_moves a) (dte_start_moves IP _)))
      · cases hp
        exact h0
    dsimp only at h
    generalize hfl : ctyFlush fuel s1 = o2 at h
    cases o2 with
    | none => cases h
    | some s2 =>
      dsimp only at h
      have m3 : Moves s (ctyMonitorIn F (secBase s) (ctyPoll s2)) :=
        moves_trans m1 (moves_trans (ctyFlush_moves fuel s1 s2 hfl)
          (moves_trans (ctyPoll_moves s2) (ctyMonitorIn_moves _ _ _)))
      split at h
      · cases h
        exact moves_trans m3 (itsTypeIn_moves SM _)
      · cases h
        exact m3

theorem lptTake_moves (s : Dte) : Moves s (lptTake s) :=
  ⟨same, same, same, same, same, same, same, same, same, Or.inr (lt256 _)⟩

theorem lptDrain_moves : ∀ (fuel : Nat) (s t : Dte), lptDrain fuel s = some t → Moves s t
  | 0, s, t, h => by
    rw [lptDrain] at h
    split at h
    · cases h
    · cases h
      exact moves_refl s
  | fuel + 1, s, t, h => by
    rw [lptDrain] at h
    split at h
    · exact moves_trans (lptTake_moves s) (lptDrain_moves fuel _ t h)
    · cases h
      exact moves_refl s

theorem lpt_svc_moves (fuel : Nat) (s t : Dte) (h : lpt_svc fuel s = some t) : Moves s t := by
  unfold lpt_svc at h
  split at h
  · cases h
    exact moves_refl s
  · generalize hd : lptDrain fuel s = o at h
    cases o with
    | none => cases h
    | some s1 =>
      dsimp only at h
      have m1 := lptDrain_moves fuel s s1 hd
      split at h
      · cases h
        exact moves_trans m1 (moves_trans (dte_queue_moves s1 _ _ _ _)
          (moves_of_eq rfl rfl rfl rfl rfl rfl rfl))
      · cases h
        exact moves_trans m1 (dte_queue_moves s1 _ _ _ _)

/-! ### Every operation -/

theorem applyOp_moves (F SM R IP : Nat) (op : Op) (s t : Dte)
    (h : applyOp F SM R IP op s = some t) : Moves s t := by
  cases op with
  | coni =>
    cases h
    exact moves_refl s
  | cono data =>
    cases h
    exact dte_devio_CONO_moves R s data
  | datai =>
    cases h
    exact moves_refl s
  | datao data =>
    cases h
    exact dte_devio_DATAO_moves s data
  | reset =>
    cases h
    exact dte_reset_moves s
  | second =>
    cases h
    exact dte_second_moves F _ (dte_its_moves F SM) s
  | primary =>
    cases h
    exact dte_primary_moves IP s
  | function fuel => exact dte_function_moves fuel s t h
  | transfer fuel => exact dte_transfer_moves fuel s t h
  | input =>
    cases h
    exact dte_input_moves s
  | queue func dev dcnt data =>
    cases h
    exact dte_queue_moves s func dev dcnt data
  | start =>
    cases h
    exact dte_start_moves IP s
  | rtc =>
    cases h
    exact dtertc_srv_moves F R s
  | inputService fuel => exact dtei_svc_moves F SM IP fuel s t h
  | printer fuel => exact lpt_svc_moves fuel s t h
  | ten M exam rdIn wrOk depOk =>
    cases h
    exact moves_of_eq rfl rfl rfl rfl rfl rfl rfl
  | key k =>
    cases h
    exact moves_of_eq rfl rfl rfl rfl rfl rfl rfl

theorem runOps_moves (F SM R IP : Nat) :
    ∀ (ops : List Op) (s t : Dte), runOps F SM R IP ops s = some t → Moves s t
  | [], s, t, h => by
    cases h
    exact moves_refl s
  | op :: ops, s, t, h => by
    rw [runOps] at h
    generalize ha : applyOp F SM R IP op s = o at h
    cases o with
    | none => cases h
    | some s1 =>
      exact moves_trans (applyOp_moves F SM R IP op s s1 ha) (runOps_moves F SM R IP ops s1 t h)

/-- In the slot model, where a store at an index of 256 or more of a data
area and a store at a line number outside the line tables are stores to
cells of their own, every sequence of operations that returns keeps the
cursors `dte_in_ptr`, `dte_in_cmd`, `dte_out_ptr`, `dte_out_res` in 0..31 and
the insert and remove pointers of `cty_in`, `cty_out` and `lpt_queue` in
0..255: each assignment to one of them in the source is masked with 0x1f or
0xff, is 0, or restores a saved value.  A cursor can leave its range only
through a store past the end of an array. -/
theorem runOps_cursors_in_range (FMASK SMASK RMASK PRI_CMT_IP : Nat) (s0 : Dte)
    (h0 : CursorsInRange s0) (ops : List Op) (t : Dte)
    (hrun : runOps FMASK SMASK RMASK PRI_CMT_IP ops s0 = some t) :
    t.dte_in_ptr < 32 ∧ t.dte_in_cmd < 32 ∧ t.dte_out_ptr < 32 ∧ t.dte_out_res < 32 ∧
    t.cty_in.in_ptr < 256 ∧ t.cty_in.out_ptr < 256 ∧
    t.cty_out.in_ptr < 256 ∧ t.cty_out.out_ptr < 256 ∧
    t.lpt_queue.in_ptr < 256 ∧ t.lpt_queue.out_ptr < 256 :=
  moves_inv h0 (runOps_moves FMASK SMASK RMASK PRI_CMT_IP ops s0 t hrun)

/-! ## A frame that runs past the packet queues -/

end KL10FE
